import Mathlib

/-!
# modbusc: transaction dispatch and scan engine

A shallow embedding of `src/modbusc.c` (the scan client of modbus-utils).

Conventions of the embedding.

* C `int` values are `Int`.  The two places where `main` does arithmetic on
  caller-supplied ints (`reg->ival[0]--` and `tout->ival[0] * 1000`) are
  reduced to the 32-bit range with `wrap32`.
* The libmodbus library is an external collaborator.  It is a deterministic
  state machine `Modbus σ` over an arbitrary state `σ`: every library call made
  by the program is a `Call`, is appended to the call log of the `World`, and
  is answered by the collaborator with a `Reply` (return value, and the
  contents of the destination buffer after the call for the read operations).
* Each `printf` call site is one constructor of `Printf`; `Printf.render`
  gives the text that is written.
* The union `Data` is a record with one field per member; `main` and
  `process_request` only ever read the member that the data type selects.
* The embedding starts after command-line parsing (line 175 of modbusc.c):
  `Args` holds what argtable3 delivers.
-/

namespace Modbusc

/-! ## Constants and types (modbusc.c lines 41-63) -/

/-- FuncType.ReadCoils -/
def ReadCoils : Int := 0x01
/-- FuncType.ReadDiscreteInput -/
def ReadDiscreteInput : Int := 0x02
/-- FuncType.ReadHoldingRegisters -/
def ReadHoldingRegisters : Int := 0x03
/-- FuncType.ReadInputRegisters -/
def ReadInputRegisters : Int := 0x04
/-- FuncType.WriteSingleCoil -/
def WriteSingleCoil : Int := 0x05
/-- FuncType.WriteSingleRegister -/
def WriteSingleRegister : Int := 0x06
/-- FuncType.WriteMultipleCoils -/
def WriteMultipleCoils : Int := 0x0f
/-- FuncType.WriteMultipleRegisters -/
def WriteMultipleRegisters : Int := 0x10

/-- EXIT_FAILURE of stdlib.h -/
def EXIT_FAILURE : Int := 1

/-- The enum WriteDataType. -/
inductive WriteDataType where
  | DataInt
  | Data8Array
  | Data16Array
deriving DecidableEq, Repr

/-- The union Data: `dataInt` is the scalar member, `data8` and `data16` are
the contents of the heap blocks the two pointer members point to. -/
structure Data where
  dataInt : Int
  data8 : List Nat
  data16 : List Nat
deriving DecidableEq, Repr

/-- Reduction of an integer to the range of a 32-bit signed int. -/
def wrap32 (x : Int) : Int := (x + 2 ^ 31) % 2 ^ 32 - 2 ^ 31

/-- INT_MIN of a 32-bit int. -/
def INT_MIN : Int := -(2 ^ 31)

/-- INT_MAX of a 32-bit int. -/
def INT_MAX : Int := 2 ^ 31 - 1

/-! ## The external Modbus transport -/

/-- One call into libmodbus, with the arguments the program passes.  For the
read operations `dest` is the content of the destination buffer at the time
of the call; for the multiple-write operations `src` is the content of the
source buffer. -/
inductive Call where
  | modbus_new_rtu (device : String) (baud : Int) (parity : Char) (data_bit stop_bit : Int)
  | modbus_new_tcp (ip : String) (port : Int)
  | modbus_set_debug (flag : Bool)
  | modbus_set_response_timeout (to_sec to_usec : Int)
  | modbus_connect
  | modbus_set_slave (slave : Int)
  | modbus_read_bits (addr nb : Int) (dest : List Nat)
  | modbus_read_registers (addr nb : Int) (dest : List Nat)
  | modbus_read_input_registers (addr nb : Int) (dest : List Nat)
  | modbus_write_bit (addr status : Int)
  | modbus_write_register (addr value : Int)
  | modbus_write_bits (addr nb : Int) (src : List Nat)
  | modbus_write_registers (addr nb : Int) (src : List Nat)
  | modbus_close
  | modbus_free
deriving DecidableEq, Repr

/-- What the transport answers to a call: the C return value, and the content
of the destination buffer after the call (used for the read operations only). -/
structure Reply where
  ret : Int
  dest : List Nat
deriving DecidableEq, Repr

/-- The transport collaborator: a deterministic machine over a state `σ`, and
the text `modbus_strerror(errno)` yields in a state. -/
structure Modbus (σ : Type) where
  step : σ → Call → σ × Reply
  strerror : σ → String

/-! ## Output -/

/-- The printf/fprintf call sites of modbusc.c. -/
inductive Printf where
  /-- line 191 -/
  | scanRangeError
  /-- line 221 -/
  | noCorrectFunction
  /-- line 252 -/
  | dataToWrite
  /-- line 257, "0x%x" -/
  | hexInt (v : Int)
  /-- lines 263 and 403, "0x%02x " -/
  | hex02 (v : Nat)
  /-- lines 267 and 403, "0x%04x " -/
  | hex04 (v : Nat)
  /-- lines 271 and 405 -/
  | newline
  /-- lines 295 and 316 (stderr) -/
  | connectionFailed (msg : String)
  /-- line 357 -/
  | notImplemented
  /-- line 387, "%sAddress:%d\n" -/
  | address (prefixScan : String) (i : Int)
  /-- line 391 -/
  | successWritten (nb : Int)
  /-- line 393 -/
  | successRead (nb : Int)
  /-- line 396, "0x%04x\n" -/
  | hex04Int (v : Int)
  /-- line 410 -/
  | errorOccured (ret : Int) (msg : String)
deriving DecidableEq, Repr

/-- Conversion "%x" with a minimal field width, zero padded (flag 0). -/
def fmt_x (width : Nat) (n : Nat) : String :=
  String.mk (List.replicate (width - (Nat.toDigits 16 n).length) '0' ++ Nat.toDigits 16 n)

/-- Conversion "%d". -/
def fmt_d (i : Int) : String := toString i

/-- An int argument as "%x" reads it: as an unsigned 32-bit value. -/
def asUnsigned (v : Int) : Nat := (v % 2 ^ 32).toNat

/-- The text a printf call writes. -/
def Printf.render : Printf → String
  | .scanRangeError =>
      "modbusc:Scan ending address must be bigger than starting address.\n"
  | .noCorrectFunction => "No correct function chosen"
  | .dataToWrite => "Data to write: "
  | .hexInt v => "0x" ++ fmt_x 0 (asUnsigned v)
  | .hex02 v => "0x" ++ fmt_x 2 v ++ " "
  | .hex04 v => "0x" ++ fmt_x 4 v ++ " "
  | .newline => "\n"
  | .connectionFailed msg => "Connection failed: " ++ msg ++ "\n"
  | .notImplemented => "ReadDiscreteInput: not implemented yet!\n"
  | .address prefixScan i => prefixScan ++ "Address:" ++ fmt_d i ++ "\n"
  | .successWritten nb => "SUCCESS: written " ++ fmt_d nb ++ " elements!\n"
  | .successRead nb => "SUCCESS: read " ++ fmt_d nb ++ " of elements:\n\tData: "
  | .hex04Int v => "0x" ++ fmt_x 4 (asUnsigned v) ++ "\n"
  | .errorOccured ret msg => "ERROR occured, ret:" ++ fmt_d ret ++ ", " ++ msg ++ "\n"

/-- The state outside the program: the transport, the log of the calls made
into it, and what was written to stdout and stderr. -/
structure World (σ : Type) where
  ctx : σ
  calls : List Call
  out : List Printf
  err : List Printf

/-- Make one library call: log it and let the transport answer. -/
def invoke {σ : Type} (T : Modbus σ) (w : World σ) (c : Call) : World σ × Reply :=
  ({ w with ctx := (T.step w.ctx c).1, calls := w.calls ++ [c] }, (T.step w.ctx c).2)

/-- Write to stdout. -/
def print {σ : Type} (w : World σ) (p : Printf) : World σ :=
  { w with out := w.out ++ [p] }

/-- Write to stderr. -/
def eprint {σ : Type} (w : World σ) (p : Printf) : World σ :=
  { w with err := w.err ++ [p] }

/-! ## What argtable3 delivers (modbusc.c lines 81-137) -/

/-- The `-a` argument after its regular expression has accepted it: either
`<n>` or `<n.n>` with one to three digits each.  The sscanf of line 180 reads
one number from the first form and two from the second. -/
inductive AddrArg where
  | single (n : Nat)
  | range (start stop : Nat)
deriving DecidableEq, Repr

/-- The parsed command line.  An option that may be given once is `none` when
it is absent; an option that may be repeated is the list of its values. -/
structure Args where
  /-- rtu->count is non-zero (otherwise the tcp command was given) -/
  rtu : Bool
  addr : AddrArg
  reg : Int
  func : Int
  dwrite : List Int
  count : Option Int
  tout : Option Int
  base1 : Bool
  /-- debug->count, the number of -v flags (0 to 2) -/
  debug : Nat
  dev : String
  baud : List Int
  /-- the value getInt reads from the --data-bits argument -/
  dbit : Option Int
  /-- the value getInt reads from the --stop-bits argument -/
  sbit : Option Int
  /-- the first character of every -p argument -/
  parity : List Char
  port : Option Int
  ip : Option String
deriving Repr

/-- Line 123: count->ival[0], default 1. -/
def Args.countVal (a : Args) : Int := a.count.getD 1

/-- Line 124: tout->ival[0], default 1000. -/
def Args.toutVal (a : Args) : Int := a.tout.getD 1000

/-- Line 125: getInt(dbit->sval[0], 0), default "8". -/
def Args.dbitVal (a : Args) : Int := a.dbit.getD 8

/-- Line 126: getInt(sbit->sval[0], 0), default "1". -/
def Args.sbitVal (a : Args) : Int := a.sbit.getD 1

/-- Line 127: port->ival[0], default 502. -/
def Args.portVal (a : Args) : Int := a.port.getD 502

/-- Line 128: ip->sval[0], default "127.0.0.1". -/
def Args.ipVal (a : Args) : String := a.ip.getD "127.0.0.1"

/-- Lines 134-137: the parity axis; "E" when no -p was given. -/
def Args.parityVal (a : Args) : List Char :=
  if a.parity.length = 0 then ['E'] else a.parity

/-- Indeterminate values the program reads without having written them: the
local `data` before any member is assigned, and the content of a block that
malloc has just returned. -/
structure Undef where
  dataInt : Int
  heap : Nat → Nat

/-! ## main, lines 175-272: the request -/

/-- Lines 177-184: addrScan. -/
def addrScanOf : AddrArg → Bool
  | .single _ => false
  | .range _ _ => true

/-- Lines 178-184: addrStart. -/
def addrStartOf : AddrArg → Int
  | .single n => n
  | .range s _ => s

/-- Lines 179-184: addrEnd. -/
def addrEndOf : AddrArg → Int
  | .single n => n
  | .range _ e => e

/-- Lines 186-188: reg->ival[0] after the base-1 adjustment. -/
def regOf (a : Args) : Int :=
  if a.base1 then wrap32 (a.reg - 1) else a.reg

/-- Lines 196-223, "choose write data type": the pair (wDataType,
isWriteFunction), or `none` in the default case. -/
def chooseDataType (func : Int) : Option (WriteDataType × Bool) :=
  if func = ReadCoils then some (.Data8Array, false)
  else if func = ReadDiscreteInput then some (.DataInt, false)
  else if func = ReadHoldingRegisters ∨ func = ReadInputRegisters then some (.Data16Array, false)
  else if func = WriteSingleCoil ∨ func = WriteSingleRegister then some (.DataInt, true)
  else if func = WriteMultipleCoils then some (.Data8Array, true)
  else if func = WriteMultipleRegisters then some (.Data16Array, true)
  else none

/-- Lines 225-232: readWriteNo. -/
def readWriteNoOf (a : Args) (wDataType : WriteDataType) (isWriteFunction : Bool) : Int :=
  if isWriteFunction then
    if wDataType ≠ .DataInt then (a.dwrite.length : Int) else 1
  else a.countVal

/-- A block of `n` units returned by malloc: its content is indeterminate.  A
negative readWriteNo yields no usable block. -/
def malloc (u : Undef) (n : Int) (unit : Nat) : List Nat :=
  (List.range n.toNat).map (fun i => u.heap i % unit)

/-- Lines 235-248, "allocate buffer for data". -/
def allocData (u : Undef) (wDataType : WriteDataType) (readWriteNo : Int) : Data :=
  match wDataType with
  | .DataInt => { dataInt := u.dataInt, data8 := [], data16 := [] }
  | .Data8Array => { dataInt := u.dataInt, data8 := malloc u readWriteNo (2 ^ 8), data16 := [] }
  | .Data16Array => { dataInt := u.dataInt, data8 := [], data16 := malloc u readWriteNo (2 ^ 16) }

/-- One assignment to the request buffer made by the loop of lines 253-269. -/
inductive Store where
  | dataInt (v : Int)
  | data8 (i : Nat) (v : Nat)
  | data16 (i : Nat) (v : Nat)
deriving DecidableEq, Repr

/-- The state of the loop of lines 253-269: the buffer, the assignments made
so far, and stdout. -/
structure Fill where
  data : Data
  stores : List Store
  out : List Printf
deriving DecidableEq, Repr

/-- Conversion of an int to uint8_t. -/
def toU8 (v : Int) : Nat := (v % 2 ^ 8).toNat

/-- Conversion of an int to uint16_t. -/
def toU16 (v : Int) : Nat := (v % 2 ^ 16).toNat

/-- Append to the stdout of the fill loop when verbose is set. -/
def Fill.say (f : Fill) (verbose : Nat) (p : Printf) : Fill :=
  if verbose ≠ 0 then { f with out := f.out ++ [p] } else f

/-- The assignment `data.dataInt = v`. -/
def Fill.storeInt (f : Fill) (v : Int) : Fill :=
  { f with data := { f.data with dataInt := v }, stores := f.stores ++ [.dataInt v] }

/-- The assignment `data.data8[i] = v`. -/
def Fill.store8 (f : Fill) (i : Nat) (v : Nat) : Fill :=
  { f with data := { f.data with data8 := f.data.data8.set i v },
           stores := f.stores ++ [.data8 i v] }

/-- The assignment `data.data16[i] = v`. -/
def Fill.store16 (f : Fill) (i : Nat) (v : Nat) : Fill :=
  { f with data := { f.data with data16 := f.data.data16.set i v },
           stores := f.stores ++ [.data16 i v] }

/-- Lines 260-263: the Data8Array branch of the loop body. -/
def fillStep8 (verbose : Nat) (wDataType : WriteDataType) (ival : List Int) (i : Nat)
    (f : Fill) : Fill :=
  if wDataType = .Data8Array then
    (f.store8 i (toU8 (ival.getD i 0))).say verbose (.hex02 (toU8 (ival.getD i 0)))
  else f

/-- Lines 264-268: the Data16Array branch of the loop body. -/
def fillStep16 (verbose : Nat) (wDataType : WriteDataType) (ival : List Int) (i : Nat)
    (f : Fill) : Fill :=
  if wDataType = .Data16Array then
    (f.store16 i (toU16 (ival.getD i 0))).say verbose (.hex04 (toU16 (ival.getD i 0)))
  else f

/-- Lines 253-269: `for (int i = 0; i < dwrite->count; i++)`, with `n` the
number of iterations still to run from index `i`.  The DataInt branch leaves
the loop. -/
def fillLoop (verbose : Nat) (wDataType : WriteDataType) (ival : List Int) :
    Nat → Nat → Fill → Fill
  | 0, _, f => f
  | n + 1, i, f =>
    if wDataType = .DataInt then
      (f.storeInt (ival.getD 0 0)).say verbose (.hexInt (ival.getD 0 0))
    else
      fillLoop verbose wDataType ival n (i + 1)
        (fillStep16 verbose wDataType ival i (fillStep8 verbose wDataType ival i f))

/-- Lines 250-272: the population of the buffer for a write function. -/
def fillData (verbose : Nat) (wDataType : WriteDataType) (isWriteFunction : Bool)
    (ival : List Int) (data : Data) : Fill :=
  if isWriteFunction then
    Fill.say
      (fillLoop verbose wDataType ival ival.length 0
        (Fill.say { data := data, stores := [], out := [] } verbose .dataToWrite))
      verbose .newline
  else { data := data, stores := [], out := [] }

/-- What main hands to process_request. -/
structure Request where
  addrStart : Int
  addrEnd : Int
  func : Int
  reg : Int
  nb : Int
  dataType : WriteDataType
  data : Data
deriving DecidableEq, Repr

/-- Lines 175-272 of main.  `Except.error` is a call of exit(EXIT_FAILURE)
with what was printed before it; `Except.ok` carries the request, the
assignments made to its buffer, and what was printed. -/
def prepare (u : Undef) (a : Args) : Except (List Printf) (Request × List Store × List Printf) :=
  if addrScanOf a.addr ∧ addrStartOf a.addr ≥ addrEndOf a.addr then
    .error [.scanRangeError]
  else
    match chooseDataType a.func with
    | none => .error [.noCorrectFunction]
    | some (wDataType, isWriteFunction) =>
      let readWriteNo := readWriteNoOf a wDataType isWriteFunction
      let f := fillData a.debug wDataType isWriteFunction a.dwrite
                 (allocData u wDataType readWriteNo)
      .ok ({ addrStart := addrStartOf a.addr, addrEnd := addrEndOf a.addr, func := a.func,
             reg := regOf a, nb := readWriteNo, dataType := wDataType, data := f.data },
           f.stores, f.out)

/-! ## process_request (modbusc.c lines 344-413) -/

/-- The variables of process_request that change while it runs: `ret`,
`isWriteFunction`, the parameter `dataType`, and the buffer behind `data`. -/
structure Local where
  ret : Int
  isWriteFunction : Bool
  dataType : WriteDataType
  data : Data
deriving DecidableEq, Repr

/-- Lines 352-384: the switch on the function code. -/
def dispatch {σ : Type} (T : Modbus σ) (func reg nb : Int) (s : World σ × Local) :
    World σ × Local :=
  if func = ReadCoils then
    let r := invoke T s.1 (.modbus_read_bits reg nb s.2.data.data8)
    (r.1, { s.2 with ret := r.2.ret, data := { s.2.data with data8 := r.2.dest } })
  else if func = ReadDiscreteInput then
    (print s.1 .notImplemented, { s.2 with dataType := .DataInt })
  else if func = ReadHoldingRegisters then
    let r := invoke T s.1 (.modbus_read_registers reg nb s.2.data.data16)
    (r.1, { s.2 with ret := r.2.ret, data := { s.2.data with data16 := r.2.dest } })
  else if func = ReadInputRegisters then
    let r := invoke T s.1 (.modbus_read_input_registers reg nb s.2.data.data16)
    (r.1, { s.2 with ret := r.2.ret, data := { s.2.data with data16 := r.2.dest } })
  else if func = WriteSingleCoil then
    let r := invoke T s.1 (.modbus_write_bit reg s.2.data.dataInt)
    (r.1, { s.2 with ret := r.2.ret, isWriteFunction := true })
  else if func = WriteSingleRegister then
    let r := invoke T s.1 (.modbus_write_register reg s.2.data.dataInt)
    (r.1, { s.2 with ret := r.2.ret, isWriteFunction := true })
  else if func = WriteMultipleCoils then
    let r := invoke T s.1 (.modbus_write_bits reg nb s.2.data.data8)
    (r.1, { s.2 with ret := r.2.ret, isWriteFunction := true })
  else if func = WriteMultipleRegisters then
    let r := invoke T s.1 (.modbus_write_registers reg nb s.2.data.data16)
    (r.1, { s.2 with ret := r.2.ret, isWriteFunction := true })
  else s

/-- Lines 390-407: what is printed in the success branch. -/
def successReport (nb : Int) (l : Local) : List Printf :=
  if l.isWriteFunction then [.successWritten nb]
  else
    .successRead nb ::
      (if l.dataType = .DataInt then [.hex04Int l.data.dataInt]
       else
        (List.range nb.toNat).map
          (fun i => if l.dataType = .Data8Array then Printf.hex02 (l.data.data8.getD i 0)
                    else Printf.hex04 (l.data.data16.getD i 0))
          ++ [.newline])

/-- Lines 386-411: what follows the switch. -/
def report {σ : Type} (T : Modbus σ) (verbose : Nat) (addrScan : Bool) (nb : Int)
    (prefixScan : String) (i : Int) (s : World σ × Local) : World σ × Local :=
  let w := if addrScan ∧ (verbose ≠ 0 ∨ s.2.ret = nb) then print s.1 (.address prefixScan i)
           else s.1
  if s.2.ret = nb then
    ({ w with out := w.out ++ successReport nb s.2 }, { s.2 with ret := 0 })
  else if ¬ addrScan then
    (print w (.errorOccured s.2.ret (T.strerror w.ctx)), s.2)
  else (w, s.2)

/-- Lines 350-411: the body of the address loop for the address `i`. -/
def scanPoint {σ : Type} (T : Modbus σ) (verbose : Nat) (addrScan : Bool) (func reg nb : Int)
    (prefixScan : String) (i : Int) (s : World σ × Local) : World σ × Local :=
  report T verbose addrScan nb prefixScan i
    (dispatch T func reg nb ((invoke T s.1 (.modbus_set_slave i)).1, s.2))

/-- Line 349: `for (int i = addrStart; i <= addrEnd; i++)`, with `n` the number
of iterations still to run from `i`. -/
def addrLoop {S : Type} (body : Int → S → S) : Nat → Int → S → S
  | 0, _, s => s
  | n + 1, i, s => addrLoop body n (i + 1) (body i s)

/-- The function process_request.  `verbose` is the global of line 67.  The
result is the world after the call and the buffer behind `data`. -/
def process_request {σ : Type} (T : Modbus σ) (verbose : Nat) (w : World σ)
    (addrStart addrEnd func reg nb : Int) (dataType : WriteDataType) (data : Data)
    (prefixScan : String) : World σ × Local :=
  addrLoop (scanPoint T verbose (decide (addrEnd ≠ addrStart)) func reg nb prefixScan)
    (addrEnd + 1 - addrStart).toNat addrStart
    (w, { ret := -1, isWriteFunction := false, dataType := dataType, data := data })

/-! ## main, lines 274-341: connections -/

/-- The result of a part of main: it either runs on, or main returns / calls
exit with a status. -/
inductive Flow (α : Type) where
  | next (a : α)
  | exit (status : Int)

/-- Lines 287-305 and 309-326: configure the new context, connect, run the
request, clean up.  `debugFlag` is the argument of modbus_set_debug. -/
def session {σ : Type} (T : Modbus σ) (a : Args) (q : Request) (debugFlag : Bool)
    (prefixScan : String) (s : World σ × Data) : World σ × Data × Flow Unit :=
  let w1 := (invoke T s.1 (.modbus_set_debug debugFlag)).1
  let w2 := (invoke T w1 (.modbus_set_response_timeout 0 (wrap32 (a.toutVal * 1000)))).1
  let c := invoke T w2 .modbus_connect
  if c.2.ret ≠ 0 then
    ((invoke T (eprint c.1 (.connectionFailed (T.strerror c.1.ctx))) .modbus_free).1, s.2,
      .exit (-1))
  else
    let r := process_request T a.debug c.1 q.addrStart q.addrEnd q.func q.reg q.nb q.dataType s.2
               prefixScan
    ((invoke T (invoke T r.1 .modbus_close).1 .modbus_free).1, r.2.data, .next ())

/-- Line 281: sprintf(prefix, "Baudrate:%d ", baud). -/
def baudPrefix (baud : Int) : List Char := ("Baudrate:" ++ fmt_d baud ++ " ").toList

/-- Line 286: sprintf(prefix + prefixLen, "Parity:%c ", parity), on the content
of the array up to its terminator. -/
def parityPrefix (prefixBuf : List Char) (prefixLen : Nat) (parity : Char) : List Char :=
  prefixBuf.take prefixLen ++ ("Parity:".toList ++ [parity, ' '])

/-- Lines 284-306: the parity loop for one baud rate, over the parity
arguments still to try.  The state is the world, the buffer and the array
`prefix`. -/
def parityLoop {σ : Type} (T : Modbus σ) (a : Args) (q : Request) (scanMode : Bool)
    (baud : Int) (prefixLen : Nat) :
    List Char → World σ × Data × List Char → World σ × Data × List Char × Flow Unit
  | [], s => (s.1, s.2.1, s.2.2, .next ())
  | p :: ps, s =>
    let prefixBuf := if scanMode then parityPrefix s.2.2 prefixLen p.toUpper else s.2.2
    let w1 := (invoke T s.1
      (.modbus_new_rtu a.dev baud p.toUpper a.dbitVal a.sbitVal)).1
    match session T a q (decide (a.debug > 1)) (String.mk prefixBuf) (w1, s.2.1) with
    | (w2, d, .exit status) => (w2, d, prefixBuf, .exit status)
    | (w2, d, .next _) => parityLoop T a q scanMode baud prefixLen ps (w2, d, prefixBuf)

/-- Lines 279-307: the baud loop, over the baud rates still to try. -/
def baudLoop {σ : Type} (T : Modbus σ) (a : Args) (q : Request) (scanMode : Bool)
    (prefixLen : Nat) :
    List Int → World σ × Data × List Char → World σ × Data × List Char × Flow Unit
  | [], s => (s.1, s.2.1, s.2.2, .next ())
  | b :: bs, s =>
    let prefixBuf := if scanMode then baudPrefix b else s.2.2
    let len := if scanMode then (baudPrefix b).length else prefixLen
    match parityLoop T a q scanMode b len a.parityVal (s.1, s.2.1, prefixBuf) with
    | (w, d, pb, .exit status) => (w, d, pb, .exit status)
    | (w, d, pb, .next _) => baudLoop T a q scanMode len bs (w, d, pb)

/-- Lines 274-327: the serial branch and the TCP branch. -/
def connectAndRun {σ : Type} (T : Modbus σ) (a : Args) (q : Request) (w : World σ) :
    World σ × Flow Unit :=
  if a.rtu then
    let r := baudLoop T a q (decide (a.baud.length > 1 ∨ a.parityVal.length > 1)) 0 a.baud
               (w, q.data, [])
    (r.1, r.2.2.2)
  else
    let w1 := (invoke T w (.modbus_new_tcp a.ipVal a.portVal)).1
    let r := session T a q (decide (a.debug ≠ 0)) "" (w1, q.data)
    (r.1, r.2.2)

/-- The function main from line 175 on: the world at the end of the run and
the status the process ends with (the argument of exit, or the value main
returns). -/
def main {σ : Type} (T : Modbus σ) (u : Undef) (a : Args) (ctx : σ) : World σ × Int :=
  match prepare u a with
  | .error out => ({ ctx := ctx, calls := [], out := out, err := [] }, EXIT_FAILURE)
  | .ok (q, _, out) =>
    match connectAndRun T a q { ctx := ctx, calls := [], out := out, err := [] } with
    | (w, .exit status) => (w, status)
    | (w, .next _) => (w, 0)

/-! ## Vocabulary of the specification -/

/-- The transport operation that belongs to a function code (specification,
section 6), with the arguments register offset, unit count and buffer; the
single-write operations take the offset and the scalar value.  Read Discrete
Inputs and unknown codes have none. -/
def transaction (func reg nb : Int) (d : Data) : Option Call :=
  if func = 0x01 then some (.modbus_read_bits reg nb d.data8)
  else if func = 0x03 then some (.modbus_read_registers reg nb d.data16)
  else if func = 0x04 then some (.modbus_read_input_registers reg nb d.data16)
  else if func = 0x05 then some (.modbus_write_bit reg d.dataInt)
  else if func = 0x06 then some (.modbus_write_register reg d.dataInt)
  else if func = 0x0F then some (.modbus_write_bits reg nb d.data8)
  else if func = 0x10 then some (.modbus_write_registers reg nb d.data16)
  else none

/-- A call without the content of the destination buffer of a read: what
remains is the operation and the arguments the program chooses. -/
def Call.forget : Call → Call
  | .modbus_read_bits addr nb _ => .modbus_read_bits addr nb []
  | .modbus_read_registers addr nb _ => .modbus_read_registers addr nb []
  | .modbus_read_input_registers addr nb _ => .modbus_read_input_registers addr nb []
  | c => c

/-- The addresses start, start+1, ..., stop in ascending order. -/
def addrList (start stop : Int) : List Int :=
  (List.range (stop + 1 - start).toNat).map (fun (k : Nat) => start + (k : Int))

/-- A line of the success report (lines 391 and 393). -/
def Printf.isSuccess : Printf → Bool
  | .successWritten _ => true
  | .successRead _ => true
  | _ => false

/-- A connection attempt. -/
def Call.isConnect : Call → Bool
  | .modbus_connect => true
  | _ => false

/-- The calls of one pass over the address range: for every address in
ascending order, bind the slave address, then the transport operation of the
function code (without the content of read buffers). -/
def scanCalls (q : Request) (d : Data) : List Call :=
  (addrList q.addrStart q.addrEnd).flatMap
    (fun i => .modbus_set_slave i :: ((transaction q.func q.reg q.nb d).map Call.forget).toList)

/-- The calls of one connection that succeeds: configuration, the connection
attempt, one pass over the address range, clean-up. -/
def sessionCalls (a : Args) (q : Request) (d : Data) (debugFlag : Bool) : List Call :=
  [.modbus_set_debug debugFlag, .modbus_set_response_timeout 0 (wrap32 (a.toutVal * 1000)),
    .modbus_connect] ++ scanCalls q d ++ [.modbus_close, .modbus_free]

/-- The calls of a whole run in which every connection succeeds: for a serial
run one connection per pair of the baud axis (outer) and the parity axis
(inner), for a TCP run one connection. -/
def runCalls (a : Args) (q : Request) : List Call :=
  if a.rtu then
    a.baud.flatMap (fun b => a.parityVal.flatMap (fun p =>
      .modbus_new_rtu a.dev b p.toUpper a.dbitVal a.sbitVal ::
        sessionCalls a q q.data (decide (a.debug > 1))))
  else
    .modbus_new_tcp a.ipVal a.portVal :: sessionCalls a q q.data (decide (a.debug ≠ 0))

/-- A transport for examples: a device at slave address 3 answers every
request with the requested count (and the registers 1, 2, 3 to a read); at
any other address the request fails with -1.  Connecting succeeds.  The state
is the slave address bound last. -/
def demoTransport : Modbus Int where
  step := fun s c =>
    match c with
    | .modbus_set_slave i => (i, ⟨0, []⟩)
    | .modbus_read_bits _ nb dest => (s, if s = 3 then ⟨nb, [1, 0, 1]⟩ else ⟨-1, dest⟩)
    | .modbus_read_registers _ nb dest => (s, if s = 3 then ⟨nb, [1, 2, 3]⟩ else ⟨-1, dest⟩)
    | .modbus_read_input_registers _ nb dest =>
        (s, if s = 3 then ⟨nb, [1, 2, 3]⟩ else ⟨-1, dest⟩)
    | .modbus_write_bit _ _ => (s, if s = 3 then ⟨1, []⟩ else ⟨-1, []⟩)
    | .modbus_write_register _ _ => (s, if s = 3 then ⟨1, []⟩ else ⟨-1, []⟩)
    | .modbus_write_bits _ nb _ => (s, if s = 3 then ⟨nb, []⟩ else ⟨-1, []⟩)
    | .modbus_write_registers _ nb _ => (s, if s = 3 then ⟨nb, []⟩ else ⟨-1, []⟩)
    | _ => (s, ⟨0, []⟩)
  strerror := fun _ => "Connection timed out"

/-- Indeterminate values for examples. -/
def demoUndef : Undef := { dataInt := 0, heap := fun _ => 0 }

/-- A command line for examples: `tcp -a 3 -r 0 -f 3 -c 3`. -/
def demoArgs : Args :=
  { rtu := false, addr := .single 3, reg := 0, func := 0x03, dwrite := [], count := some 3,
    tout := none, base1 := false, debug := 0, dev := "", baud := [], dbit := none,
    sbit := none, parity := [], port := none, ip := none }

/-- The request main builds for `demoArgs`. -/
def demoRequest : Request :=
  { addrStart := 3, addrEnd := 3, func := 0x03, reg := 0, nb := 3, dataType := .Data16Array,
    data := { dataInt := 0, data8 := [], data16 := [0, 0, 0] } }

/-- The world before the first call. -/
def demoWorld : World Int := { ctx := 0, calls := [], out := [], err := [] }

/-- The locals of process_request on entry, for `demoRequest`. -/
def demoLocal : Local :=
  { ret := -1, isWriteFunction := false, dataType := .Data16Array, data := demoRequest.data }

/-- The command line `tcp -a 1 -r 0 -f 15`: Write Multiple Coils without any
`-w` value. -/
def zeroWriteArgs : Args := { demoArgs with func := 0x0F, addr := .single 1, count := none }

/-- The command line `tcp -a 3 -r 10 -1 -f 5 -w 1 -w 7`: Write Single Coil
with two values and base-1 addressing. -/
def singleCoilArgs : Args :=
  { demoArgs with func := 0x05, reg := 10, base1 := true, count := none, dwrite := [1, 7] }

/-- The command line `tcp -a 1.2 -r 0 -f 16 -w 258 -w 65537`: Write Multiple
Registers over the addresses 1 and 2. -/
def multiRegisterArgs : Args :=
  { demoArgs with func := 0x10, addr := .range 1 2, count := none, dwrite := [258, 65537] }

/-- The request main builds for `singleCoilArgs`. -/
def singleCoilRequest : Request :=
  { addrStart := 3, addrEnd := 3, func := 0x05, reg := 9, nb := 1, dataType := .DataInt,
    data := { dataInt := 1, data8 := [], data16 := [] } }

/-- The locals of process_request on entry, for `singleCoilRequest`. -/
def singleCoilLocal : Local :=
  { ret := -1, isWriteFunction := false, dataType := .DataInt, data := singleCoilRequest.data }

/-- The request main builds for `multiRegisterArgs`. -/
def multiRegisterRequest : Request :=
  { addrStart := 1, addrEnd := 2, func := 0x10, reg := 0, nb := 2, dataType := .Data16Array,
    data := { dataInt := 0, data8 := [], data16 := [258, 1] } }

/-- The command line `rtu -a 3 -r 0 -f 3 -c 3 -d /dev/ttyS0 -b 9600 -b 19200
-p E`. -/
def sweepArgs : Args :=
  { demoArgs with rtu := true, dev := "/dev/ttyS0", baud := [9600, 19200], parity := ['E'] }

/-- The command line `tcp -a 5.3 -r 0 -f 3 -c 3`: a range that runs backwards. -/
def badRangeArgs : Args := { demoArgs with addr := .range 5 3 }

/-- The command line `tcp -a 3 -r 0 -f 7 -c 3`: function code 7 is not one of
the eight. -/
def unknownFuncArgs : Args := { demoArgs with func := 0x07 }

/-- The text written by a list of printf calls. -/
def renderAll (l : List Printf) : String := String.join (l.map Printf.render)

/-- The command line `tcp -a 1 -r 0 -f 2 -c -1`: Read Discrete Inputs with
the count -1. -/
def discreteArgs : Args := { demoArgs with func := 0x02, addr := .single 1, count := some (-1) }

/-- The command line `tcp -a 1 -r 0 -f 3 -c -1`: Read Holding Registers with
the count -1, at an address where no device answers. -/
def negativeCountArgs : Args := { demoArgs with addr := .single 1, count := some (-1) }

/-- The command line `tcp -a 3 -r 0 -f 3 -c 3 -v`: verbosity 1 over TCP. -/
def verboseTcpArgs : Args := { demoArgs with debug := 1 }

/-- The command line `rtu -a 3 -r 0 -f 3 -c 3 -d /dev/ttyS0 -b 9600 -p E -v`:
verbosity 1 on a serial line. -/
def verboseRtuArgs : Args :=
  { demoArgs with rtu := true, dev := "/dev/ttyS0", baud := [9600], parity := ['E'], debug := 1 }

/-- A transport on which the second connection attempt fails: the state
counts the connection attempts, and requests are answered with the requested
count. -/
def flakyTransport : Modbus Nat where
  step := fun s c =>
    match c with
    | .modbus_connect => (s + 1, if s = 0 then ⟨0, []⟩ else ⟨-1, []⟩)
    | .modbus_read_bits _ nb _ => (s, ⟨nb, [1, 0, 1]⟩)
    | .modbus_read_registers _ nb _ => (s, ⟨nb, [1, 2, 3]⟩)
    | .modbus_read_input_registers _ nb _ => (s, ⟨nb, [1, 2, 3]⟩)
    | .modbus_write_bit _ _ => (s, ⟨1, []⟩)
    | .modbus_write_register _ _ => (s, ⟨1, []⟩)
    | .modbus_write_bits _ nb _ => (s, ⟨nb, []⟩)
    | .modbus_write_registers _ nb _ => (s, ⟨nb, []⟩)
    | _ => (s, ⟨0, []⟩)
  strerror := fun _ => "No such file or directory"

/-- A transport whose device transfers no unit: every read and write returns
0.  Connecting succeeds. -/
def emptyTransport : Modbus Unit where
  step := fun s c =>
    match c with
    | .modbus_read_bits _ _ dest => (s, ⟨0, dest⟩)
    | .modbus_read_registers _ _ dest => (s, ⟨0, dest⟩)
    | .modbus_read_input_registers _ _ dest => (s, ⟨0, dest⟩)
    | _ => (s, ⟨0, []⟩)
  strerror := fun _ => "Invalid data"

/-- The scan prefix a line of stdout was printed with: the first argument of
the printf of line 387, empty for every other line. -/
def Printf.scanPrefix : Printf → String
  | .address prefixScan _ => prefixScan
  | _ => ""

/-- The command line `rtu -a 3.4 -r 0 -f 3 -c 3 -d /dev/ttyS0 -b 9600 -b 19200
-p e -p n`: a sweep over two baud rates and two parities, each over the
addresses 3 to 4. -/
def sweepScanArgs : Args := { sweepArgs with addr := .range 3 4, parity := ['e', 'n'] }

/-- The state of the transport after the calls `cs`, made one after the other
from the state `x`. -/
def Modbus.after {σ : Type} (T : Modbus σ) (x : σ) (cs : List Call) : σ :=
  cs.foldl (fun s c => (T.step s c).1) x

/-- Every modbus_connect among the calls `cs`, made from the state `x`, is
answered with 0. -/
def connectsOk {σ : Type} (T : Modbus σ) : σ → List Call → Bool
  | _, [] => true
  | x, c :: cs =>
    (!c.isConnect || decide ((T.step x c).2.ret = 0)) && connectsOk T (T.step x c).1 cs

/-- What a part of main has done when it went from the world `w0` to the
world `w` with the flow `fl`: it added calls to the log, the transport is in
the state these calls lead to, and either it runs on, every connection was
accepted and stderr is as before; or it ends main with -1, the last two calls
are a refused modbus_connect and modbus_free, every connection before was
accepted, and stderr got the line "Connection failed" with the error text of
the state after the refused call. -/
def RunLog {σ : Type} (T : Modbus σ) (w0 w : World σ) (fl : Flow Unit) : Prop :=
  ∃ new, w.calls = w0.calls ++ new ∧ w.ctx = T.after w0.ctx new ∧
    match fl with
    | .next _ => connectsOk T w0.ctx new = true ∧ w.err = w0.err
    | .exit status => status = -1 ∧
        ∃ pre, new = pre ++ [.modbus_connect, .modbus_free] ∧
          connectsOk T w0.ctx pre = true ∧
          (T.step (T.after w0.ctx pre) .modbus_connect).2.ret ≠ 0 ∧
          w.err = w0.err ++
            [.connectionFailed (T.strerror (T.step (T.after w0.ctx pre) .modbus_connect).1)]

end Modbusc

/-!
# modbus_client: the single-shot client

A shallow embedding of `main` of `src/modbus_client.c` from line 134 on (after
command-line parsing).  The enum WriteDataType and the union Data are declared
in modbus_client.c with the same text as in modbusc.c; the embedding uses the
same types.  The library calls, their log and the conversions of C are the
ones of the first part.
-/

namespace ModbusClient

/-- The parsed command line of modbus_client (lines 69-100, defaults of lines
108-114).  Every option is given at most once. -/
structure Args where
  /-- rtu->count is non-zero (otherwise the tcp command was given) -/
  rtu : Bool
  addr : Int
  reg : Int
  func : Int
  dwrite : List Int
  count : Option Int
  tout : Option Int
  /-- debug->count, 0 or 1 -/
  debug : Nat
  dev : String
  baud : Int
  /-- the value getInt reads from the --data-bits argument -/
  dbit : Option Int
  /-- the value getInt reads from the --stop-bits argument -/
  sbit : Option Int
  /-- the first character of the -p argument -/
  parity : Option Char
  port : Option Int
  ip : Option String
deriving Repr

/-- The printf/fprintf call sites of modbus_client.c from line 162 on. -/
inductive Printf where
  /-- line 188 -/
  | noCorrectFunction
  /-- line 219 -/
  | dataToWrite
  /-- line 224, "0x%x" -/
  | hexInt (v : Int)
  /-- lines 230 and 299, "0x%02x " -/
  | hex02 (v : Nat)
  /-- lines 234 and 299, "0x%04x " -/
  | hex04 (v : Nat)
  /-- lines 238 and 301 -/
  | newline
  /-- line 248 (stderr) -/
  | connectionFailed (msg : String)
  /-- line 259 -/
  | notImplemented
  /-- line 287 -/
  | successWritten (nb : Int)
  /-- line 289 -/
  | successRead (nb : Int)
  /-- line 292, "0x%04x\n" -/
  | hex04Int (v : Int)
  /-- line 306, "ERROR occured, ret:%d\n" -/
  | errorOccured (ret : Int)
deriving DecidableEq, Repr

/-- The text a printf call writes. -/
def Printf.render : Printf → String
  | .noCorrectFunction => "No correct function chosen"
  | .dataToWrite => "Data to write: "
  | .hexInt v => "0x" ++ Modbusc.fmt_x 0 (Modbusc.asUnsigned v)
  | .hex02 v => "0x" ++ Modbusc.fmt_x 2 v ++ " "
  | .hex04 v => "0x" ++ Modbusc.fmt_x 4 v ++ " "
  | .newline => "\n"
  | .connectionFailed msg => "Connection failed: " ++ msg ++ "\n"
  | .notImplemented => "ReadDiscreteInput: not implemented yet!\n"
  | .successWritten nb => "SUCCESS: written " ++ Modbusc.fmt_d nb ++ " elements!\n"
  | .successRead nb => "SUCCESS: read " ++ Modbusc.fmt_d nb ++ " of elements:\n\tData: "
  | .hex04Int v => "0x" ++ Modbusc.fmt_x 4 (Modbusc.asUnsigned v) ++ "\n"
  | .errorOccured ret => "ERROR occured, ret:" ++ Modbusc.fmt_d ret ++ "\n"

/-- A line of the success report (lines 287 and 289). -/
def Printf.isSuccess : Printf → Bool
  | .successWritten _ => true
  | .successRead _ => true
  | _ => false

/-- The state outside the program: the transport, the log of the calls made
into it, and what was written to stdout and stderr. -/
structure World (σ : Type) where
  ctx : σ
  calls : List Modbusc.Call
  out : List Printf
  err : List Printf

/-- Make one library call: log it and let the transport answer. -/
def invoke {σ : Type} (T : Modbusc.Modbus σ) (w : World σ) (c : Modbusc.Call) :
    World σ × Modbusc.Reply :=
  ({ w with ctx := (T.step w.ctx c).1, calls := w.calls ++ [c] }, (T.step w.ctx c).2)

/-- Write to stdout. -/
def print {σ : Type} (w : World σ) (p : Printf) : World σ :=
  { w with out := w.out ++ [p] }

/-- Lines 142-153: the call that creates the context. -/
def newContext (a : Args) : Modbusc.Call :=
  if a.rtu then
    .modbus_new_rtu a.dev a.baud (a.parity.getD 'E').toUpper (a.dbit.getD 8) (a.sbit.getD 1)
  else .modbus_new_tcp (a.ip.getD "127.0.0.1") (a.port.getD 502)

/-- Lines 163-189, "choose write data type": the pair (wDataType,
isWriteFunction), or `none` in the default case. -/
def chooseDataType (func : Int) : Option (Modbusc.WriteDataType × Bool) :=
  if func = 0x01 then some (.Data8Array, false)
  else if func = 0x02 then some (.DataInt, false)
  else if func = 0x03 ∨ func = 0x04 then some (.Data16Array, false)
  else if func = 0x05 ∨ func = 0x06 then some (.DataInt, true)
  else if func = 0x0f then some (.Data8Array, true)
  else if func = 0x10 then some (.Data16Array, true)
  else none

/-- Lines 191-199: readWriteNo. -/
def readWriteNoOf (a : Args) (wDataType : Modbusc.WriteDataType) (isWriteFunction : Bool) :
    Int :=
  if isWriteFunction then
    if wDataType ≠ .DataInt then (a.dwrite.length : Int) else 1
  else a.count.getD 1

/-- Lines 201-215, "allocate buffer for data". -/
def allocData (u : Modbusc.Undef) (wDataType : Modbusc.WriteDataType) (readWriteNo : Int) :
    Modbusc.Data :=
  match wDataType with
  | .DataInt => { dataInt := u.dataInt, data8 := [], data16 := [] }
  | .Data8Array =>
      { dataInt := u.dataInt, data8 := Modbusc.malloc u readWriteNo (2 ^ 8), data16 := [] }
  | .Data16Array =>
      { dataInt := u.dataInt, data8 := [], data16 := Modbusc.malloc u readWriteNo (2 ^ 16) }

/-- The state of the loop of lines 220-236: the buffer, the assignments made
so far, and stdout. -/
structure Fill where
  data : Modbusc.Data
  stores : List Modbusc.Store
  out : List Printf
deriving DecidableEq, Repr

/-- Append to the stdout of the fill loop when debug->count is set. -/
def Fill.say (f : Fill) (debug : Nat) (p : Printf) : Fill :=
  if debug ≠ 0 then { f with out := f.out ++ [p] } else f

/-- Lines 220-236: `for (int i = 0; i < dwrite->count; i++)`, with `n` the
number of iterations still to run from index `i`. -/
def fillLoop (debug : Nat) (wDataType : Modbusc.WriteDataType) (ival : List Int) :
    Nat → Nat → Fill → Fill
  | 0, _, f => f
  | n + 1, i, f =>
    if wDataType = .DataInt then
      Fill.say
        { f with data := { f.data with dataInt := ival.getD 0 0 },
                 stores := f.stores ++ [.dataInt (ival.getD 0 0)] }
        debug (.hexInt (ival.getD 0 0))
    else
      let f1 :=
        if wDataType = .Data8Array then
          Fill.say
            { f with data := { f.data with
                                 data8 := f.data.data8.set i (Modbusc.toU8 (ival.getD i 0)) },
                     stores := f.stores ++ [.data8 i (Modbusc.toU8 (ival.getD i 0))] }
            debug (.hex02 (Modbusc.toU8 (ival.getD i 0)))
        else f
      let f2 :=
        if wDataType = .Data16Array then
          Fill.say
            { f1 with data := { f1.data with
                                  data16 := f1.data.data16.set i (Modbusc.toU16 (ival.getD i 0)) },
                      stores := f1.stores ++ [.data16 i (Modbusc.toU16 (ival.getD i 0))] }
            debug (.hex04 (Modbusc.toU16 (ival.getD i 0)))
        else f1
      fillLoop debug wDataType ival n (i + 1) f2

/-- Lines 217-239: the population of the buffer for a write function. -/
def fillData (debug : Nat) (wDataType : Modbusc.WriteDataType) (isWriteFunction : Bool)
    (ival : List Int) (data : Modbusc.Data) : Fill :=
  if isWriteFunction then
    Fill.say
      (fillLoop debug wDataType ival ival.length 0
        (Fill.say { data := data, stores := [], out := [] } debug .dataToWrite))
      debug .newline
  else { data := data, stores := [], out := [] }

/-- What main has computed when it reaches line 241. -/
structure Setup where
  wDataType : Modbusc.WriteDataType
  isWriteFunction : Bool
  readWriteNo : Int
  data : Modbusc.Data
deriving DecidableEq, Repr

/-- Lines 162-239 of main.  `Except.error` is the call of exit(EXIT_FAILURE)
of line 188 with what was printed before it; `Except.ok` carries the values
computed, the assignments made to the buffer, and what was printed. -/
def prepare (u : Modbusc.Undef) (a : Args) :
    Except (List Printf) (Setup × List Modbusc.Store × List Printf) :=
  match chooseDataType a.func with
  | none => .error [.noCorrectFunction]
  | some (wDataType, isWriteFunction) =>
    let readWriteNo := readWriteNoOf a wDataType isWriteFunction
    let f := fillData a.debug wDataType isWriteFunction a.dwrite
               (allocData u wDataType readWriteNo)
    .ok ({ wDataType := wDataType, isWriteFunction := isWriteFunction,
           readWriteNo := readWriteNo, data := f.data }, f.stores, f.out)

/-- The variables of main that change from line 246 on: `ret`, `wDataType`,
and the buffer behind `data`. -/
structure Local where
  ret : Int
  wDataType : Modbusc.WriteDataType
  data : Modbusc.Data
deriving DecidableEq, Repr

/-- Lines 254-282: the switch on the function code. -/
def dispatch {σ : Type} (T : Modbusc.Modbus σ) (func reg readWriteNo : Int)
    (s : World σ × Local) : World σ × Local :=
  if func = 0x01 then
    let r := invoke T s.1 (.modbus_read_bits reg readWriteNo s.2.data.data8)
    (r.1, { s.2 with ret := r.2.ret, data := { s.2.data with data8 := r.2.dest } })
  else if func = 0x02 then
    (print s.1 .notImplemented, { s.2 with wDataType := .DataInt })
  else if func = 0x03 then
    let r := invoke T s.1 (.modbus_read_registers reg readWriteNo s.2.data.data16)
    (r.1, { s.2 with ret := r.2.ret, data := { s.2.data with data16 := r.2.dest } })
  else if func = 0x04 then
    let r := invoke T s.1 (.modbus_read_input_registers reg readWriteNo s.2.data.data16)
    (r.1, { s.2 with ret := r.2.ret, data := { s.2.data with data16 := r.2.dest } })
  else if func = 0x05 then
    let r := invoke T s.1 (.modbus_write_bit reg s.2.data.dataInt)
    (r.1, { s.2 with ret := r.2.ret })
  else if func = 0x06 then
    let r := invoke T s.1 (.modbus_write_register reg s.2.data.dataInt)
    (r.1, { s.2 with ret := r.2.ret })
  else if func = 0x0f then
    let r := invoke T s.1 (.modbus_write_bits reg readWriteNo s.2.data.data8)
    (r.1, { s.2 with ret := r.2.ret })
  else if func = 0x10 then
    let r := invoke T s.1 (.modbus_write_registers reg readWriteNo s.2.data.data16)
    (r.1, { s.2 with ret := r.2.ret })
  else s

/-- Lines 286-303: what is printed in the success branch. -/
def successReport (isWriteFunction : Bool) (readWriteNo : Int) (l : Local) : List Printf :=
  if isWriteFunction then [.successWritten readWriteNo]
  else
    .successRead readWriteNo ::
      (if l.wDataType = .DataInt then [.hex04Int l.data.dataInt]
       else
        (List.range readWriteNo.toNat).map
          (fun i => if l.wDataType = .Data8Array then Printf.hex02 (l.data.data8.getD i 0)
                    else Printf.hex04 (l.data.data16.getD i 0))
          ++ [.newline])

/-- Lines 284-308: what follows the switch. -/
def report {σ : Type} (isWriteFunction : Bool) (readWriteNo : Int) (s : World σ × Local) :
    World σ × Local :=
  if s.2.ret = readWriteNo then
    ({ s.1 with out := s.1.out ++ successReport isWriteFunction readWriteNo s.2 },
     { s.2 with ret := 0 })
  else (print s.1 (.errorOccured s.2.ret), s.2)

/-- Lines 246 and 254-308: the request on a connected context. -/
def request {σ : Type} (T : Modbusc.Modbus σ) (a : Args) (p : Setup) (w : World σ) :
    World σ × Local :=
  report p.isWriteFunction p.readWriteNo
    (dispatch T a.func a.reg p.readWriteNo
      (w, { ret := -1, wDataType := p.wDataType, data := p.data }))

/-- Lines 241-247: configure the context and connect.  The result is the world
after the call of modbus_connect and what that call returns. -/
def connect {σ : Type} (T : Modbusc.Modbus σ) (a : Args) (w : World σ) :
    World σ × Modbusc.Reply :=
  invoke T
    (invoke T
      (invoke T (invoke T w (.modbus_set_debug (decide (a.debug ≠ 0)))).1
        (.modbus_set_slave a.addr)).1
      (.modbus_set_response_timeout 0 (Modbusc.wrap32 (a.tout.getD 1000 * 1000)))).1
    .modbus_connect

/-- The world when main reaches line 241: the context has been created and
`out` has been printed. -/
def startWorld {σ : Type} (T : Modbusc.Modbus σ) (a : Args) (ctx : σ) (out : List Printf) :
    World σ :=
  { (invoke T { ctx := ctx, calls := [], out := [], err := [] } (newContext a)).1 with
    out := out }

/-- The function main from line 134 on: the world at the end of the run and
the status the process ends with (the argument of exit, or the value main
returns). -/
def main {σ : Type} (T : Modbusc.Modbus σ) (u : Modbusc.Undef) (a : Args) (ctx : σ) :
    World σ × Int :=
  match prepare u a with
  | .error out => (startWorld T a ctx out, Modbusc.EXIT_FAILURE)
  | .ok (p, _, out) =>
    let c := connect T a (startWorld T a ctx out)
    if c.2.ret ≠ 0 then
      ((invoke T { c.1 with err := c.1.err ++ [.connectionFailed (T.strerror c.1.ctx)] }
          .modbus_free).1, -1)
    else
      let r := request T a p c.1
      ((invoke T (invoke T r.1 .modbus_close).1 .modbus_free).1, r.2.ret)

/-- A command line for examples: `tcp -a 3 -r 0 -f 3 -c 3`. -/
def demoArgs : Args :=
  { rtu := false, addr := 3, reg := 0, func := 0x03, dwrite := [], count := some 3,
    tout := none, debug := 0, dev := "", baud := 9600, dbit := none, sbit := none,
    parity := none, port := none, ip := none }

end ModbusClient

namespace Modbusc

/-! ## Theorems -/

/-- C1: for each of the eight supported function codes the pair (wDataType,
isWriteFunction) chosen by the switch of main is the one of the table:
0x01 (Data8Array, read), 0x02 (DataInt, read), 0x03 and 0x04 (Data16Array,
read), 0x05 and 0x06 (DataInt, write), 0x0F (Data8Array, write), 0x10
(Data16Array, write). -/
theorem chooseDataType_table :
    chooseDataType 0x01 = some (.Data8Array, false) ∧
    chooseDataType 0x02 = some (.DataInt, false) ∧
    chooseDataType 0x03 = some (.Data16Array, false) ∧
    chooseDataType 0x04 = some (.Data16Array, false) ∧
    chooseDataType 0x05 = some (.DataInt, true) ∧
    chooseDataType 0x06 = some (.DataInt, true) ∧
    chooseDataType 0x0F = some (.Data8Array, true) ∧
    chooseDataType 0x10 = some (.Data16Array, true) := by
  decide

/-- what prepare returns when it succeeds -/
theorem prepare_ok {u : Undef} {a : Args} {q : Request} {st : List Store} {out : List Printf}
    (hp : prepare u a = .ok (q, st, out)) :
    ¬ (addrScanOf a.addr = true ∧ addrStartOf a.addr ≥ addrEndOf a.addr) ∧
    ∃ ty wr, chooseDataType a.func = some (ty, wr) ∧
      q = { addrStart := addrStartOf a.addr, addrEnd := addrEndOf a.addr, func := a.func,
            reg := regOf a, nb := readWriteNoOf a ty wr, dataType := ty,
            data := (fillData a.debug ty wr a.dwrite (allocData u ty (readWriteNoOf a ty wr))).data } ∧
      st = (fillData a.debug ty wr a.dwrite (allocData u ty (readWriteNoOf a ty wr))).stores ∧
      out = (fillData a.debug ty wr a.dwrite (allocData u ty (readWriteNoOf a ty wr))).out := by
  unfold prepare at hp
  split at hp
  · cases hp
  · rename_i hr
    refine ⟨hr, ?_⟩
    split at hp
    · cases hp
    · rename_i ty wr hc
      refine ⟨ty, wr, hc, ?_⟩
      simp only [Except.ok.injEq, Prod.mk.injEq] at hp
      obtain ⟨h1, h2, h3⟩ := hp
      exact ⟨h1.symm, h2.symm, h3.symm⟩

theorem chooseDataType_cases {func : Int} {ty : WriteDataType} {wr : Bool}
    (h : chooseDataType func = some (ty, wr)) :
    (func = 1 ∧ ty = .Data8Array ∧ wr = false) ∨
    (func = 2 ∧ ty = .DataInt ∧ wr = false) ∨
    (func = 3 ∧ ty = .Data16Array ∧ wr = false) ∨
    (func = 4 ∧ ty = .Data16Array ∧ wr = false) ∨
    (func = 5 ∧ ty = .DataInt ∧ wr = true) ∨
    (func = 6 ∧ ty = .DataInt ∧ wr = true) ∨
    (func = 15 ∧ ty = .Data8Array ∧ wr = true) ∨
    (func = 16 ∧ ty = .Data16Array ∧ wr = true) := by
  unfold chooseDataType at h
  simp only [ReadCoils, ReadDiscreteInput, ReadHoldingRegisters, ReadInputRegisters,
    WriteSingleCoil, WriteSingleRegister, WriteMultipleCoils, WriteMultipleRegisters] at h
  split_ifs at h with h1 h2 h3 h4 h5 h6 <;> simp only [Option.some.injEq, Prod.mk.injEq] at h <;>
    obtain ⟨rfl, rfl⟩ := h
  · simp [h1]
  · simp [h2]
  · rcases h3 with h3 | h3 <;> simp [h3]
  · rcases h4 with h4 | h4 <;> simp [h4]
  · simp [h5]
  · simp [h6]

/-- the unit count of a request that main has built -/
theorem readWriteNo_of_prepare (u : Undef) (a : Args) (q : Request) (st : List Store)
    (out : List Printf) (hp : prepare u a = .ok (q, st, out)) :
    ((a.func = 0x01 ∨ a.func = 0x02 ∨ a.func = 0x03 ∨ a.func = 0x04) → q.nb = a.count.getD 1) ∧
    ((a.func = 0x05 ∨ a.func = 0x06) → q.nb = 1) ∧
    ((a.func = 0x0F ∨ a.func = 0x10) → q.nb = a.dwrite.length) := by
  obtain ⟨-, ty, wr, hc, rfl, -, -⟩ := prepare_ok hp
  rcases chooseDataType_cases hc with h | h | h | h | h | h | h | h <;>
    obtain ⟨hf, rfl, rfl⟩ := h <;>
    simp [hf, readWriteNoOf, Args.countVal]

theorem malloc_length (u : Undef) (n : Int) (unit : Nat) : (malloc u n unit).length = n.toNat := by
  simp [malloc]

theorem say_data (g : Fill) (verbose : Nat) (p : Printf) : (g.say verbose p).data = g.data := by
  unfold Fill.say; split <;> rfl

theorem say_stores (g : Fill) (verbose : Nat) (p : Printf) :
    (g.say verbose p).stores = g.stores := by
  unfold Fill.say; split <;> rfl

theorem store8_data (f : Fill) (i v : Nat) :
    (f.store8 i v).data = { f.data with data8 := f.data.data8.set i v } := rfl

theorem store8_stores (f : Fill) (i v : Nat) :
    (f.store8 i v).stores = f.stores ++ [.data8 i v] := rfl

theorem store16_data (f : Fill) (i v : Nat) :
    (f.store16 i v).data = { f.data with data16 := f.data.data16.set i v } := rfl

theorem store16_stores (f : Fill) (i v : Nat) :
    (f.store16 i v).stores = f.stores ++ [.data16 i v] := rfl

/-- the fill loop on a byte array -/
theorem fillLoop_data8 (verbose : Nat) (ival : List Int) (n : Nat) :
    ∀ (i : Nat) (f : Fill),
      (fillLoop verbose .Data8Array ival n i f).data.dataInt = f.data.dataInt ∧
      (fillLoop verbose .Data8Array ival n i f).data.data16 = f.data.data16 ∧
      (fillLoop verbose .Data8Array ival n i f).data.data8.length = f.data.data8.length ∧
      (∀ j, (fillLoop verbose .Data8Array ival n i f).data.data8[j]? =
        if i ≤ j ∧ j < i + n ∧ j < f.data.data8.length then some (toU8 (ival.getD j 0))
        else f.data.data8[j]?) ∧
      (fillLoop verbose .Data8Array ival n i f).stores =
        f.stores ++ (List.range n).map (fun k => Store.data8 (i + k) (toU8 (ival.getD (i + k) 0))) := by
  induction n with
  | zero =>
    intro i f
    refine ⟨rfl, rfl, rfl, ?_, by simp [fillLoop]⟩
    intro j
    have : ¬ (i ≤ j ∧ j < i + 0 ∧ j < f.data.data8.length) := by omega
    simp only [fillLoop, if_neg this]
  | succ n ih =>
    intro i f
    have hs : fillStep16 verbose .Data8Array ival i (fillStep8 verbose .Data8Array ival i f)
        = (f.store8 i (toU8 (ival.getD i 0))).say verbose (.hex02 (toU8 (ival.getD i 0))) := by
      simp [fillStep16, fillStep8]
    simp only [fillLoop, if_neg (show ¬ (WriteDataType.Data8Array = WriteDataType.DataInt) by decide), hs]
    obtain ⟨h1, h2, h3, h4, h5⟩ := ih (i + 1)
      ((f.store8 i (toU8 (ival.getD i 0))).say verbose (.hex02 (toU8 (ival.getD i 0))))
    simp only [say_data, say_stores, store8_data, store8_stores, List.length_set] at h1 h2 h3 h4 h5
    refine ⟨h1, h2, h3, ?_, ?_⟩
    · intro j
      rw [h4 j, List.getElem?_set]
      by_cases hij : i = j
      · subst hij
        by_cases hl : i < f.data.data8.length
        · simp [hl]
        · have := List.getElem?_eq_none (Nat.le_of_not_lt hl)
          simp [hl, this]
      · by_cases hc : i + 1 ≤ j ∧ j < i + 1 + n ∧ j < f.data.data8.length
        · have : i ≤ j ∧ j < i + (n + 1) ∧ j < f.data.data8.length := by omega
          simp only [if_pos hc, if_pos this]
        · have : ¬ (i ≤ j ∧ j < i + (n + 1) ∧ j < f.data.data8.length) := by omega
          simp only [if_neg hc, if_neg this, if_neg hij]
    · rw [h5, List.range_succ_eq_map]
      simp [Function.comp_def, Nat.add_assoc, Nat.add_comm 1]

/-- the fill loop on a word array -/
theorem fillLoop_data16 (verbose : Nat) (ival : List Int) (n : Nat) :
    ∀ (i : Nat) (f : Fill),
      (fillLoop verbose .Data16Array ival n i f).data.dataInt = f.data.dataInt ∧
      (fillLoop verbose .Data16Array ival n i f).data.data8 = f.data.data8 ∧
      (fillLoop verbose .Data16Array ival n i f).data.data16.length = f.data.data16.length ∧
      (∀ j, (fillLoop verbose .Data16Array ival n i f).data.data16[j]? =
        if i ≤ j ∧ j < i + n ∧ j < f.data.data16.length then some (toU16 (ival.getD j 0))
        else f.data.data16[j]?) ∧
      (fillLoop verbose .Data16Array ival n i f).stores =
        f.stores ++ (List.range n).map (fun k => Store.data16 (i + k) (toU16 (ival.getD (i + k) 0))) := by
  induction n with
  | zero =>
    intro i f
    refine ⟨rfl, rfl, rfl, ?_, by simp [fillLoop]⟩
    intro j
    have : ¬ (i ≤ j ∧ j < i + 0 ∧ j < f.data.data16.length) := by omega
    simp only [fillLoop, if_neg this]
  | succ n ih =>
    intro i f
    have hs : fillStep16 verbose .Data16Array ival i (fillStep8 verbose .Data16Array ival i f)
        = (f.store16 i (toU16 (ival.getD i 0))).say verbose (.hex04 (toU16 (ival.getD i 0))) := by
      simp [fillStep16, fillStep8]
    simp only [fillLoop, if_neg (show ¬ (WriteDataType.Data16Array = WriteDataType.DataInt) by decide), hs]
    obtain ⟨h1, h2, h3, h4, h5⟩ := ih (i + 1)
      ((f.store16 i (toU16 (ival.getD i 0))).say verbose (.hex04 (toU16 (ival.getD i 0))))
    simp only [say_data, say_stores, store16_data, store16_stores, List.length_set] at h1 h2 h3 h4 h5
    refine ⟨h1, h2, h3, ?_, ?_⟩
    · intro j
      rw [h4 j, List.getElem?_set]
      by_cases hij : i = j
      · subst hij
        by_cases hl : i < f.data.data16.length
        · simp [hl]
        · have := List.getElem?_eq_none (Nat.le_of_not_lt hl)
          simp [hl, this]
      · by_cases hc : i + 1 ≤ j ∧ j < i + 1 + n ∧ j < f.data.data16.length
        · have : i ≤ j ∧ j < i + (n + 1) ∧ j < f.data.data16.length := by omega
          simp only [if_pos hc, if_pos this]
        · have : ¬ (i ≤ j ∧ j < i + (n + 1) ∧ j < f.data.data16.length) := by omega
          simp only [if_neg hc, if_neg this, if_neg hij]
    · rw [h5, List.range_succ_eq_map]
      simp [Function.comp_def, Nat.add_assoc, Nat.add_comm 1]


/-- a buffer whose entries are the converted values, index by index -/
theorem fill_array_eq (l : List Nat) (ival : List Int) (g : Int → Nat)
    (h : ∀ j, l[j]? = if 0 ≤ j ∧ j < 0 + ival.length ∧ j < ival.length then some (g (ival.getD j 0))
                      else none) :
    l = ival.map g := by
  apply List.ext_getElem?
  intro j
  rw [h j, List.getElem?_map]
  by_cases hj : j < ival.length
  · have : 0 ≤ j ∧ j < 0 + ival.length ∧ j < ival.length := by omega
    simp [this, hj, List.getD_eq_getElem?_getD]
  · have : ¬ (0 ≤ j ∧ j < 0 + ival.length ∧ j < ival.length) := by omega
    simp [this, List.getElem?_eq_none (Nat.le_of_not_lt hj)]
    omega

/-- the buffer of a request that main has built -/
theorem buffer_of_prepare (u : Undef) (a : Args) (q : Request) (st : List Store)
    (out : List Printf) (hp : prepare u a = .ok (q, st, out)) :
    (a.func = 0x0F →
      q.data.data8 = a.dwrite.map (fun v => (v % 2 ^ 8).toNat) ∧
      st = (List.range a.dwrite.length).map
             (fun i => Store.data8 i ((a.dwrite.getD i 0 % 2 ^ 8).toNat))) ∧
    (a.func = 0x10 →
      q.data.data16 = a.dwrite.map (fun v => (v % 2 ^ 16).toNat) ∧
      st = (List.range a.dwrite.length).map
             (fun i => Store.data16 i ((a.dwrite.getD i 0 % 2 ^ 16).toNat))) ∧
    ((a.func = 0x05 ∨ a.func = 0x06) → ∀ v0 rest, a.dwrite = v0 :: rest →
      q.data.dataInt = v0 ∧ st = [Store.dataInt v0]) := by
  obtain ⟨-, ty, wr, hc, rfl, rfl, -⟩ := prepare_ok hp
  rcases chooseDataType_cases hc with h | h | h | h | h | h | h | h <;>
    obtain ⟨hf, rfl, rfl⟩ := h <;>
    simp only [hf] <;> norm_num
  · -- 0x05
    intro v0 rest hd
    simp [fillData, hd, fillLoop, say_data, say_stores, Fill.storeInt]
  · -- 0x06
    intro v0 rest hd
    simp [fillData, hd, fillLoop, say_data, say_stores, Fill.storeInt]
  · -- 0x0F
    obtain ⟨-, -, h3, h4, h5⟩ := fillLoop_data8 a.debug a.dwrite a.dwrite.length 0
      (Fill.say { data := allocData u .Data8Array (readWriteNoOf a .Data8Array true),
                  stores := [], out := [] } a.debug .dataToWrite)
    have hl : (allocData u .Data8Array (readWriteNoOf a .Data8Array true)).data8.length
        = a.dwrite.length := by
      simp [allocData, readWriteNoOf, malloc_length]
    simp only [say_data, say_stores, hl] at h3 h4 h5
    constructor
    · simp only [fillData, if_true, say_data]
      refine fill_array_eq _ _ toU8 ?_
      intro j
      rw [h4 j]
      by_cases hj : 0 ≤ j ∧ j < 0 + a.dwrite.length ∧ j < a.dwrite.length
      · simp only [if_pos hj]
      · simp only [if_neg hj]
        apply List.getElem?_eq_none
        rw [hl]; omega
    · simp only [fillData, if_true, say_stores, h5]
      simp [toU8]
  · -- 0x10
    obtain ⟨-, -, h3, h4, h5⟩ := fillLoop_data16 a.debug a.dwrite a.dwrite.length 0
      (Fill.say { data := allocData u .Data16Array (readWriteNoOf a .Data16Array true),
                  stores := [], out := [] } a.debug .dataToWrite)
    have hl : (allocData u .Data16Array (readWriteNoOf a .Data16Array true)).data16.length
        = a.dwrite.length := by
      simp [allocData, readWriteNoOf, malloc_length]
    simp only [say_data, say_stores, hl] at h3 h4 h5
    constructor
    · simp only [fillData, if_true, say_data]
      refine fill_array_eq _ _ toU16 ?_
      intro j
      rw [h4 j]
      by_cases hj : 0 ≤ j ∧ j < 0 + a.dwrite.length ∧ j < a.dwrite.length
      · simp only [if_pos hj]
      · simp only [if_neg hj]
        apply List.getElem?_eq_none
        rw [hl]; omega
    · simp only [fillData, if_true, say_stores, h5]
      simp [toU16]

theorem transaction_cases {func reg nb : Int} {d : Data} {c : Call}
    (h : transaction func reg nb d = some c) :
    (func = 0x01 ∧ c = .modbus_read_bits reg nb d.data8) ∨
    (func = 0x03 ∧ c = .modbus_read_registers reg nb d.data16) ∨
    (func = 0x04 ∧ c = .modbus_read_input_registers reg nb d.data16) ∨
    (func = 0x05 ∧ c = .modbus_write_bit reg d.dataInt) ∨
    (func = 0x06 ∧ c = .modbus_write_register reg d.dataInt) ∨
    (func = 0x0F ∧ c = .modbus_write_bits reg nb d.data8) ∨
    (func = 0x10 ∧ c = .modbus_write_registers reg nb d.data16) := by
  unfold transaction at h
  split_ifs at h with h1 h2 h3 h4 h5 h6 h7 <;> simp only [Option.some.injEq] at h <;>
    subst h <;> simp [*]

/-- the switch, for a function code that has a transport operation -/
theorem dispatch_transaction {σ : Type} (T : Modbus σ) {func reg nb : Int} (w : World σ)
    (l : Local) {c : Call} (h : transaction func reg nb l.data = some c) :
    (dispatch T func reg nb (w, l)).1 = (invoke T w c).1 ∧
    (dispatch T func reg nb (w, l)).2.ret = (T.step w.ctx c).2.ret ∧
    (dispatch T func reg nb (w, l)).2.dataType = l.dataType ∧
    (transaction func reg nb (dispatch T func reg nb (w, l)).2.data).map Call.forget
      = some c.forget := by
  rcases transaction_cases h with h | h | h | h | h | h | h <;> obtain ⟨rfl, rfl⟩ := h <;>
    simp [dispatch, invoke, transaction, Call.forget, ReadCoils, ReadDiscreteInput,
      ReadHoldingRegisters, ReadInputRegisters, WriteSingleCoil, WriteSingleRegister,
      WriteMultipleCoils, WriteMultipleRegisters]

/-- the switch, for a function code without a transport operation -/
theorem dispatch_none {σ : Type} (T : Modbus σ) {func reg nb : Int} (w : World σ)
    (l : Local) (h : transaction func reg nb l.data = none) :
    (dispatch T func reg nb (w, l)).1.calls = w.calls ∧
    (dispatch T func reg nb (w, l)).1.ctx = w.ctx ∧
    (dispatch T func reg nb (w, l)).2.ret = l.ret ∧
    (dispatch T func reg nb (w, l)).2.data = l.data := by
  unfold transaction at h
  split_ifs at h with h1 h2 h3 h4 h5 h6 h7
  unfold dispatch
  simp only [ReadCoils, ReadDiscreteInput, ReadHoldingRegisters, ReadInputRegisters,
    WriteSingleCoil, WriteSingleRegister, WriteMultipleCoils, WriteMultipleRegisters]
  norm_num at h1 h2 h3 h4 h5 h6 h7 ⊢
  simp only [if_neg h1, if_neg h2, if_neg h3, if_neg h4, if_neg h5, if_neg h6, if_neg h7]
  split <;> simp [print]

/-- what follows the switch makes no call and leaves the buffer alone -/
theorem report_frame {σ : Type} (T : Modbus σ) (verbose : Nat) (addrScan : Bool) (nb : Int)
    (prefixScan : String) (i : Int) (s : World σ × Local) :
    (report T verbose addrScan nb prefixScan i s).1.calls = s.1.calls ∧
    (report T verbose addrScan nb prefixScan i s).1.ctx = s.1.ctx ∧
    (report T verbose addrScan nb prefixScan i s).1.err = s.1.err ∧
    (report T verbose addrScan nb prefixScan i s).2.data = s.2.data ∧
    (report T verbose addrScan nb prefixScan i s).2.dataType = s.2.dataType := by
  unfold report
  simp only
  split_ifs <;> simp [print]

/-- the calls of one scan point -/
theorem scanPoint_calls {σ : Type} (T : Modbus σ) (verbose : Nat) (addrScan : Bool)
    (func reg nb : Int) (prefixScan : String) (i : Int) (s : World σ × Local) :
    (scanPoint T verbose addrScan func reg nb prefixScan i s).1.calls
      = s.1.calls ++ .modbus_set_slave i :: (transaction func reg nb s.2.data).toList ∧
    (transaction func reg nb
        (scanPoint T verbose addrScan func reg nb prefixScan i s).2.data).map Call.forget
      = (transaction func reg nb s.2.data).map Call.forget := by
  unfold scanPoint
  obtain ⟨h1, -, -, h4, -⟩ := report_frame T verbose addrScan nb prefixScan i
    (dispatch T func reg nb ((invoke T s.1 (.modbus_set_slave i)).1, s.2))
  rw [h1, h4]
  cases hc : transaction func reg nb s.2.data with
  | none =>
    obtain ⟨g1, -, -, g4⟩ := dispatch_none T (invoke T s.1 (.modbus_set_slave i)).1 s.2 hc
    rw [g1, g4, hc]
    simp [invoke]
  | some c =>
    obtain ⟨g1, -, -, g4⟩ := dispatch_transaction T (invoke T s.1 (.modbus_set_slave i)).1 s.2 hc
    rw [g1, g4]
    simp [invoke]

theorem range_map_succ (n : Nat) (i : Int) :
    (List.range (n + 1)).map (fun (k : Nat) => i + (k : Int))
      = i :: (List.range n).map (fun (k : Nat) => i + 1 + (k : Int)) := by
  rw [List.range_succ_eq_map, List.map_cons, List.map_map]
  refine congrArg₂ _ (by simp) ?_
  apply List.map_congr_left
  intro k _
  simp only [Function.comp_apply, Nat.succ_eq_add_one, Nat.cast_add, Nat.cast_one]
  ring

/-- the calls of the address loop, up to the content of read buffers -/
theorem addrLoop_calls {σ : Type} (T : Modbus σ) (verbose : Nat) (addrScan : Bool)
    (func reg nb : Int) (prefixScan : String) (n : Nat) :
    ∀ (i : Int) (s : World σ × Local),
      (addrLoop (scanPoint T verbose addrScan func reg nb prefixScan) n i s).1.calls.map
          Call.forget
        = s.1.calls.map Call.forget ++
          ((List.range n).map (fun (k : Nat) => i + (k : Int))).flatMap
            (fun j => .modbus_set_slave j ::
              ((transaction func reg nb s.2.data).map Call.forget).toList) := by
  induction n with
  | zero => intro i s; simp [addrLoop]
  | succ n ih =>
    intro i s
    obtain ⟨h1, h2⟩ := scanPoint_calls T verbose addrScan func reg nb prefixScan i s
    simp only [addrLoop]
    rw [ih (i + 1) _, h1, h2, range_map_succ, List.flatMap_cons, List.map_append,
      List.map_cons, List.append_assoc]
    congr 1
    cases hc : transaction func reg nb s.2.data <;> simp [Call.forget]

/-- the calls of process_request, up to the content of read buffers -/
theorem process_request_calls {σ : Type} (T : Modbus σ) (verbose : Nat) (w : World σ)
    (addrStart addrEnd func reg nb : Int) (dataType : WriteDataType) (data : Data)
    (prefixScan : String) :
    (process_request T verbose w addrStart addrEnd func reg nb dataType data
        prefixScan).1.calls.map Call.forget
      = w.calls.map Call.forget ++
        (addrList addrStart addrEnd).flatMap
          (fun j => .modbus_set_slave j ::
            ((transaction func reg nb data).map Call.forget).toList) := by
  unfold process_request addrList
  rw [addrLoop_calls]


theorem successReport_any (nb : Int) (l : Local) :
    (successReport nb l).any Printf.isSuccess = true := by
  unfold successReport
  split <;> simp [Printf.isSuccess]

/-- what one scan point prints -/
theorem report_out {σ : Type} (T : Modbus σ) (verbose : Nat) (addrScan : Bool) (nb : Int)
    (prefixScan : String) (i : Int) (s : World σ × Local) :
    (report T verbose addrScan nb prefixScan i s).1.out
      = s.1.out ++
        ((if addrScan = true ∧ (verbose ≠ 0 ∨ s.2.ret = nb) then [Printf.address prefixScan i]
          else []) ++
         (if s.2.ret = nb then successReport nb s.2
          else if addrScan = false then [Printf.errorOccured s.2.ret (T.strerror s.1.ctx)]
          else [])) := by
  unfold report
  simp only
  split_ifs <;> simp_all [print]

/-- C2: at a scan point of process_request, for a function code with a
transport operation `c`, whatever value `t` the transport returns for `c` and
whatever the unit count `nb` is: the success report is printed if and only if
`t = nb`; for any other `t` no success line is printed, and in a run with a
single address the error line with `t` and the transport error text is
printed instead. -/
theorem success_classification {σ : Type} (T : Modbus σ) (verbose : Nat) (addrScan : Bool)
    (func reg nb : Int) (prefixScan : String) (i : Int) (s : World σ × Local) (c : Call)
    (hc : transaction func reg nb s.2.data = some c) :
    ∃ new : List Printf,
      (scanPoint T verbose addrScan func reg nb prefixScan i s).1.out = s.1.out ++ new ∧
      (new.any Printf.isSuccess = true ↔
        (T.step (T.step s.1.ctx (.modbus_set_slave i)).1 c).2.ret = nb) ∧
      ((T.step (T.step s.1.ctx (.modbus_set_slave i)).1 c).2.ret ≠ nb → addrScan = false →
        new = [Printf.errorOccured (T.step (T.step s.1.ctx (.modbus_set_slave i)).1 c).2.ret
                (T.strerror (scanPoint T verbose addrScan func reg nb prefixScan i s).1.ctx)]) := by
  obtain ⟨g1, g2, -, -⟩ := dispatch_transaction T (invoke T s.1 (.modbus_set_slave i)).1 s.2 hc
  obtain ⟨-, f2, -, -, -⟩ := report_frame T verbose addrScan nb prefixScan i
    (dispatch T func reg nb ((invoke T s.1 (.modbus_set_slave i)).1, s.2))
  have ho := report_out T verbose addrScan nb prefixScan i
    (dispatch T func reg nb ((invoke T s.1 (.modbus_set_slave i)).1, s.2))
  rw [g2, g1] at ho
  simp only [invoke] at ho g1 g2 f2
  rw [g1] at f2
  refine ⟨_, ho, ?_, ?_⟩
  · by_cases ht : (T.step (T.step s.1.ctx (.modbus_set_slave i)).1 c).2.ret = nb
    · simp [ht, successReport_any]
    · simp only [ht, if_false, or_false, iff_false, Bool.not_eq_true]
      split_ifs <;> simp [Printf.isSuccess]
  · intro ht hs
    unfold scanPoint
    simp only [invoke]
    rw [f2]
    simp [ht, hs]


theorem wrap32_id {x : Int} (h1 : INT_MIN ≤ x) (h2 : x ≤ INT_MAX) : wrap32 x = x := by
  unfold wrap32
  unfold INT_MIN at h1
  unfold INT_MAX at h2
  omega

theorem fillData_scalar (verbose : Nat) (v0 : Int) (rest : List Int) (d : Data) :
    (fillData verbose .DataInt true (v0 :: rest) d).data = { d with dataInt := v0 } ∧
    (fillData verbose .DataInt true (v0 :: rest) d).stores = [.dataInt v0] := by
  simp [fillData, fillLoop, say_data, say_stores, Fill.storeInt]

/-- a write function leaves the buffer alone -/
theorem scanPoint_write_data {σ : Type} (T : Modbus σ) (verbose : Nat) (addrScan : Bool)
    (func reg nb : Int) (prefixScan : String) (i : Int) (s : World σ × Local)
    (hf : func = 0x05 ∨ func = 0x06 ∨ func = 0x0F ∨ func = 0x10) :
    (scanPoint T verbose addrScan func reg nb prefixScan i s).2.data = s.2.data := by
  unfold scanPoint
  rw [(report_frame T verbose addrScan nb prefixScan i _).2.2.2.1]
  rcases hf with h | h | h | h <;> subst h <;>
    simp [dispatch, ReadCoils, ReadDiscreteInput, ReadHoldingRegisters, ReadInputRegisters,
      WriteSingleCoil, WriteSingleRegister, WriteMultipleCoils, WriteMultipleRegisters]

/-- the calls of the address loop for a write function -/
theorem addrLoop_calls_write {σ : Type} (T : Modbus σ) (verbose : Nat) (addrScan : Bool)
    (func reg nb : Int) (prefixScan : String)
    (hf : func = 0x05 ∨ func = 0x06 ∨ func = 0x0F ∨ func = 0x10) (n : Nat) :
    ∀ (i : Int) (s : World σ × Local),
      (addrLoop (scanPoint T verbose addrScan func reg nb prefixScan) n i s).1.calls
        = s.1.calls ++
          ((List.range n).map (fun (k : Nat) => i + (k : Int))).flatMap
            (fun j => .modbus_set_slave j :: (transaction func reg nb s.2.data).toList) := by
  induction n with
  | zero => intro i s; simp [addrLoop]
  | succ n ih =>
    intro i s
    simp only [addrLoop]
    rw [ih (i + 1) _, (scanPoint_calls T verbose addrScan func reg nb prefixScan i s).1,
      scanPoint_write_data T verbose addrScan func reg nb prefixScan i s hf, range_map_succ,
      List.flatMap_cons, List.append_assoc]

/-- the calls of a scan point for a request that main has built -/
theorem operation_of_prepare {σ : Type} (T : Modbus σ) (u : Undef) (a : Args) (q : Request)
    (st : List Store) (out : List Printf) (hp : prepare u a = .ok (q, st, out))
    (hmin : INT_MIN < a.reg) (hmax : a.reg ≤ INT_MAX) :
    q.func = a.func ∧
    q.reg = (if a.base1 then a.reg - 1 else a.reg) ∧
    (∀ (verbose : Nat) (addrScan : Bool) (prefixScan : String) (i : Int) (s : World σ × Local),
      (a.func = 0x01 →
        (scanPoint T verbose addrScan q.func q.reg q.nb prefixScan i s).1.calls
          = s.1.calls ++ [.modbus_set_slave i, .modbus_read_bits q.reg q.nb s.2.data.data8]) ∧
      (a.func = 0x03 →
        (scanPoint T verbose addrScan q.func q.reg q.nb prefixScan i s).1.calls
          = s.1.calls ++ [.modbus_set_slave i, .modbus_read_registers q.reg q.nb s.2.data.data16]) ∧
      (a.func = 0x04 →
        (scanPoint T verbose addrScan q.func q.reg q.nb prefixScan i s).1.calls
          = s.1.calls ++
            [.modbus_set_slave i, .modbus_read_input_registers q.reg q.nb s.2.data.data16]) ∧
      (a.func = 0x05 →
        (scanPoint T verbose addrScan q.func q.reg q.nb prefixScan i s).1.calls
          = s.1.calls ++ [.modbus_set_slave i, .modbus_write_bit q.reg s.2.data.dataInt]) ∧
      (a.func = 0x06 →
        (scanPoint T verbose addrScan q.func q.reg q.nb prefixScan i s).1.calls
          = s.1.calls ++ [.modbus_set_slave i, .modbus_write_register q.reg s.2.data.dataInt]) ∧
      (a.func = 0x0F →
        (scanPoint T verbose addrScan q.func q.reg q.nb prefixScan i s).1.calls
          = s.1.calls ++ [.modbus_set_slave i, .modbus_write_bits q.reg q.nb s.2.data.data8]) ∧
      (a.func = 0x10 →
        (scanPoint T verbose addrScan q.func q.reg q.nb prefixScan i s).1.calls
          = s.1.calls ++ [.modbus_set_slave i, .modbus_write_registers q.reg q.nb s.2.data.data16])) ∧
    (a.func = 0x05 → a.dwrite = [1] →
      ∀ (verbose : Nat) (w : World σ) (prefixScan : String),
        (process_request T verbose w q.addrStart q.addrEnd q.func q.reg q.nb q.dataType q.data
            prefixScan).1.calls
          = w.calls ++ (addrList q.addrStart q.addrEnd).flatMap
              (fun i => [.modbus_set_slave i, .modbus_write_bit q.reg 1])) := by
  obtain ⟨-, ty, wr, hc, rfl, -, -⟩ := prepare_ok hp
  have hreg : regOf a = (if a.base1 then a.reg - 1 else a.reg) := by
    unfold regOf
    split
    · apply wrap32_id <;> omega
    · rfl
  refine ⟨rfl, hreg, ?_, ?_⟩
  · intro verbose addrScan prefixScan i s
    refine ⟨?_, ?_, ?_, ?_, ?_, ?_, ?_⟩ <;> intro hf <;>
      simp only [(scanPoint_calls T verbose addrScan _ _ _ prefixScan i s).1, hf] <;>
      simp [transaction]
  · intro hf hd verbose w prefixScan
    rcases chooseDataType_cases hc with h | h | h | h | h | h | h | h <;>
      obtain ⟨hf2, rfl, rfl⟩ := h <;> rw [hf] at hf2 <;> norm_num at hf2
    unfold process_request addrList
    rw [addrLoop_calls_write T verbose _ _ _ _ prefixScan (by simp [hf])]
    simp [hf, hd, transaction, (fillData_scalar _ _ _ _).1]

theorem addrList_length (s e : Int) (h : s ≤ e) : ((addrList s e).length : Int) = e - s + 1 := by
  simp [addrList]
  omega

theorem addrList_mem (s e j : Int) : j ∈ addrList s e ↔ (s ≤ j ∧ j ≤ e) := by
  simp only [addrList, List.mem_map, List.mem_range]
  constructor
  · rintro ⟨k, hk, rfl⟩
    omega
  · intro ⟨h1, h2⟩
    refine ⟨(j - s).toNat, ?_, ?_⟩ <;> omega

theorem addrList_sorted (s e : Int) : (addrList s e).Pairwise (· < ·) := by
  unfold addrList
  rw [List.pairwise_map]
  refine (List.pairwise_lt_range _).imp ?_
  intro x y hxy
  omega

/-- C10: whatever the transport answers, process_request makes, for every
address start, start+1, ..., end in ascending order, the call
modbus_set_slave followed by the transport operation of the function code
(exactly one for each of the seven codes that have one), and nothing else:
end - start + 1 scan points, none stopped or skipped after a failure. -/
theorem address_iteration {σ : Type} (T : Modbus σ) (verbose : Nat) (w : World σ)
    (addrStart addrEnd func reg nb : Int) (dataType : WriteDataType) (data : Data)
    (prefixScan : String) (hle : addrStart ≤ addrEnd) :
    (process_request T verbose w addrStart addrEnd func reg nb dataType data
        prefixScan).1.calls.map Call.forget
      = w.calls.map Call.forget ++
        (addrList addrStart addrEnd).flatMap
          (fun i => .modbus_set_slave i ::
            ((transaction func reg nb data).map Call.forget).toList) ∧
    (∀ c, transaction func reg nb data = some c →
      (process_request T verbose w addrStart addrEnd func reg nb dataType data
          prefixScan).1.calls.map Call.forget
        = w.calls.map Call.forget ++
          (addrList addrStart addrEnd).flatMap (fun i => [.modbus_set_slave i, c.forget])) ∧
    ((addrList addrStart addrEnd).length : Int) = addrEnd - addrStart + 1 ∧
    (∀ k : Nat, k < (addrList addrStart addrEnd).length →
      (addrList addrStart addrEnd)[k]? = some (addrStart + (k : Int))) := by
  refine ⟨process_request_calls _ _ _ _ _ _ _ _ _ _ _, ?_, addrList_length _ _ hle, ?_⟩
  · intro c hc
    rw [process_request_calls, hc]
    rfl
  · intro k hk
    simp only [addrList, List.length_map, List.length_range] at hk
    simp [addrList, List.getElem?_range hk]

/-! ### connections -/

/-- the operation of a function code stays the same while the loop runs -/
theorem addrLoop_shape {σ : Type} (T : Modbus σ) (verbose : Nat) (addrScan : Bool)
    (func reg nb : Int) (prefixScan : String) (n : Nat) :
    ∀ (i : Int) (s : World σ × Local),
      (transaction func reg nb
          (addrLoop (scanPoint T verbose addrScan func reg nb prefixScan) n i s).2.data).map
          Call.forget
        = (transaction func reg nb s.2.data).map Call.forget := by
  induction n with
  | zero => intro i s; rfl
  | succ n ih =>
    intro i s
    simp only [addrLoop]
    rw [ih (i + 1) _, (scanPoint_calls T verbose addrScan func reg nb prefixScan i s).2]

theorem scanCalls_congr (q : Request) (d d' : Data)
    (h : (transaction q.func q.reg q.nb d').map Call.forget
          = (transaction q.func q.reg q.nb d).map Call.forget) :
    scanCalls q d' = scanCalls q d := by
  unfold scanCalls
  rw [h]

/-- a connection that succeeds -/
theorem session_connected {σ : Type} (T : Modbus σ) (a : Args) (q : Request)
    (debugFlag : Bool) (prefixScan : String) (s : World σ × Data)
    (hok : (T.step (T.step (T.step s.1.ctx (.modbus_set_debug debugFlag)).1
        (.modbus_set_response_timeout 0 (wrap32 (a.toutVal * 1000)))).1 .modbus_connect).2.ret = 0) :
    (session T a q debugFlag prefixScan s).2.2 = .next () ∧
    (session T a q debugFlag prefixScan s).1.calls.map Call.forget
      = s.1.calls.map Call.forget ++ sessionCalls a q s.2 debugFlag ∧
    (transaction q.func q.reg q.nb (session T a q debugFlag prefixScan s).2.1).map Call.forget
      = (transaction q.func q.reg q.nb s.2).map Call.forget := by
  unfold session
  simp only [invoke] at hok ⊢
  simp only [hok, ne_eq, not_true_eq_false, if_false]
  refine ⟨trivial, ?_, ?_⟩
  · rw [List.map_append, List.map_append, process_request_calls]
    simp [sessionCalls, scanCalls, Call.forget]
  · unfold process_request
    rw [addrLoop_shape]

/-- a connection that fails -/
theorem session_refused {σ : Type} (T : Modbus σ) (a : Args) (q : Request)
    (debugFlag : Bool) (prefixScan : String) (s : World σ × Data)
    (hfail : (T.step (T.step (T.step s.1.ctx (.modbus_set_debug debugFlag)).1
        (.modbus_set_response_timeout 0 (wrap32 (a.toutVal * 1000)))).1 .modbus_connect).2.ret ≠ 0) :
    (session T a q debugFlag prefixScan s).2.2 = .exit (-1) ∧
    (session T a q debugFlag prefixScan s).1.calls
      = s.1.calls ++ [.modbus_set_debug debugFlag,
          .modbus_set_response_timeout 0 (wrap32 (a.toutVal * 1000)), .modbus_connect,
          .modbus_free] := by
  unfold session
  simp only [invoke] at hfail ⊢
  simp [hfail, eprint]

/-- the parity loop when every connection succeeds -/
theorem parityLoop_connected {σ : Type} (T : Modbus σ) (a : Args) (q : Request)
    (scanMode : Bool) (baud : Int) (prefixLen : Nat)
    (hconn : ∀ x, (T.step x .modbus_connect).2.ret = 0) (ps : List Char) :
    ∀ (s : World σ × Data × List Char),
      (parityLoop T a q scanMode baud prefixLen ps s).2.2.2 = .next () ∧
      (parityLoop T a q scanMode baud prefixLen ps s).1.calls.map Call.forget
        = s.1.calls.map Call.forget ++ ps.flatMap (fun p =>
            .modbus_new_rtu a.dev baud p.toUpper a.dbitVal a.sbitVal ::
              sessionCalls a q s.2.1 (decide (a.debug > 1))) ∧
      (transaction q.func q.reg q.nb
          (parityLoop T a q scanMode baud prefixLen ps s).2.1).map Call.forget
        = (transaction q.func q.reg q.nb s.2.1).map Call.forget := by
  induction ps with
  | nil => intro s; simp [parityLoop]
  | cons p ps ih =>
    intro s
    obtain ⟨h1, h2, h3⟩ := session_connected T a q (decide (a.debug > 1))
      (String.mk (if scanMode then parityPrefix s.2.2 prefixLen p.toUpper else s.2.2))
      ((invoke T s.1 (.modbus_new_rtu a.dev baud p.toUpper a.dbitVal a.sbitVal)).1, s.2.1) (hconn _)
    simp only [parityLoop]
    generalize hr : session T a q (decide (a.debug > 1))
      (String.mk (if scanMode then parityPrefix s.2.2 prefixLen p.toUpper else s.2.2))
      ((invoke T s.1 (.modbus_new_rtu a.dev baud p.toUpper a.dbitVal a.sbitVal)).1, s.2.1) = r
        at h1 h2 h3
    obtain ⟨w2, d2, fl⟩ := r
    simp only at h1 h2 h3
    subst h1
    simp only
    obtain ⟨g1, g2, g3⟩ := ih (w2, d2,
      (if scanMode then parityPrefix s.2.2 prefixLen p.toUpper else s.2.2))
    refine ⟨g1, ?_, ?_⟩
    · rw [g2, h2]
      simp only [invoke, List.map_append, List.map_cons, List.map_nil, List.flatMap_cons,
        List.append_assoc, List.singleton_append, List.cons_append]
      simp only [sessionCalls, scanCalls_congr q s.2.1 d2 h3, Call.forget, List.nil_append]
    · rw [g3, h3]


/-- the baud loop when every connection succeeds -/
theorem baudLoop_connected {σ : Type} (T : Modbus σ) (a : Args) (q : Request)
    (scanMode : Bool) (hconn : ∀ x, (T.step x .modbus_connect).2.ret = 0) (bs : List Int) :
    ∀ (prefixLen : Nat) (s : World σ × Data × List Char),
      (baudLoop T a q scanMode prefixLen bs s).2.2.2 = .next () ∧
      (baudLoop T a q scanMode prefixLen bs s).1.calls.map Call.forget
        = s.1.calls.map Call.forget ++ bs.flatMap (fun b => a.parityVal.flatMap (fun p =>
            .modbus_new_rtu a.dev b p.toUpper a.dbitVal a.sbitVal ::
              sessionCalls a q s.2.1 (decide (a.debug > 1)))) := by
  induction bs with
  | nil => intro prefixLen s; simp [baudLoop]
  | cons b bs ih =>
    intro prefixLen s
    obtain ⟨h1, h2, h3⟩ := parityLoop_connected T a q scanMode b
      (if scanMode then (baudPrefix b).length else prefixLen) hconn a.parityVal
      (s.1, s.2.1, if scanMode then baudPrefix b else s.2.2)
    simp only [baudLoop]
    generalize parityLoop T a q scanMode b
      (if scanMode then (baudPrefix b).length else prefixLen) a.parityVal
      (s.1, s.2.1, if scanMode then baudPrefix b else s.2.2) = r at h1 h2 h3
    obtain ⟨w2, d2, pb, fl⟩ := r
    simp only at h1 h2 h3
    subst h1
    simp only
    obtain ⟨g1, g2⟩ := ih (if scanMode then (baudPrefix b).length else prefixLen) (w2, d2, pb)
    refine ⟨g1, ?_⟩
    rw [g2, h2]
    simp only [List.flatMap_cons, List.append_assoc]
    simp only [sessionCalls, scanCalls_congr q s.2.1 d2 h3]

/-- the calls of a run in which every connection succeeds -/
theorem main_connected {σ : Type} (T : Modbus σ) (u : Undef) (a : Args) (ctx : σ)
    (q : Request) (st : List Store) (out : List Printf) (hp : prepare u a = .ok (q, st, out))
    (hconn : ∀ x, (T.step x .modbus_connect).2.ret = 0) :
    (main T u a ctx).2 = 0 ∧ (main T u a ctx).1.calls.map Call.forget = runCalls a q := by
  unfold main
  simp only [hp]
  unfold connectAndRun runCalls
  by_cases hr : a.rtu = true
  · simp only [hr, if_true]
    obtain ⟨h1, h2⟩ := baudLoop_connected T a q (decide (a.baud.length > 1 ∨ a.parityVal.length > 1))
      hconn a.baud 0 ({ ctx := ctx, calls := [], out := out, err := [] }, q.data, [])
    rw [h1]
    exact ⟨rfl, by simpa using h2⟩
  · simp only [hr]
    obtain ⟨h1, h2, -⟩ := session_connected T a q (decide (a.debug ≠ 0)) ""
      ((invoke T { ctx := ctx, calls := [], out := out, err := [] }
        (.modbus_new_tcp a.ipVal a.portVal)).1, q.data) (hconn _)
    simp only [Bool.false_eq_true, if_false]
    rw [h1]
    exact ⟨rfl, by simpa [invoke, Call.forget] using h2⟩


/-- a connection either succeeds or makes main return -1 -/
theorem session_flow {σ : Type} (T : Modbus σ) (a : Args) (q : Request)
    (debugFlag : Bool) (prefixScan : String) (s : World σ × Data) :
    (session T a q debugFlag prefixScan s).2.2 = .next () ∨
    (session T a q debugFlag prefixScan s).2.2 = .exit (-1) := by
  unfold session
  simp only
  split_ifs
  · exact Or.inr rfl
  · exact Or.inl rfl

/-- the parity loop when no connection fails -/
theorem parityLoop_next {σ : Type} (T : Modbus σ) (a : Args) (q : Request)
    (scanMode : Bool) (baud : Int) (prefixLen : Nat) (ps : List Char) :
    ∀ (s : World σ × Data × List Char),
      ((parityLoop T a q scanMode baud prefixLen ps s).2.2.2 = .next () ∨
       (parityLoop T a q scanMode baud prefixLen ps s).2.2.2 = .exit (-1)) ∧
      ((parityLoop T a q scanMode baud prefixLen ps s).2.2.2 = .next () →
        (parityLoop T a q scanMode baud prefixLen ps s).1.calls.map Call.forget
          = s.1.calls.map Call.forget ++ ps.flatMap (fun p =>
              .modbus_new_rtu a.dev baud p.toUpper a.dbitVal a.sbitVal ::
                sessionCalls a q s.2.1 (decide (a.debug > 1))) ∧
        (transaction q.func q.reg q.nb
            (parityLoop T a q scanMode baud prefixLen ps s).2.1).map Call.forget
          = (transaction q.func q.reg q.nb s.2.1).map Call.forget) := by
  induction ps with
  | nil => intro s; simp [parityLoop]
  | cons p ps ih =>
    intro s
    have hfl := session_flow T a q (decide (a.debug > 1))
      (String.mk (if scanMode then parityPrefix s.2.2 prefixLen p.toUpper else s.2.2))
      ((invoke T s.1 (.modbus_new_rtu a.dev baud p.toUpper a.dbitVal a.sbitVal)).1, s.2.1)
    have hcon := session_connected T a q (decide (a.debug > 1))
      (String.mk (if scanMode then parityPrefix s.2.2 prefixLen p.toUpper else s.2.2))
      ((invoke T s.1 (.modbus_new_rtu a.dev baud p.toUpper a.dbitVal a.sbitVal)).1, s.2.1)
    have href := session_refused T a q (decide (a.debug > 1))
      (String.mk (if scanMode then parityPrefix s.2.2 prefixLen p.toUpper else s.2.2))
      ((invoke T s.1 (.modbus_new_rtu a.dev baud p.toUpper a.dbitVal a.sbitVal)).1, s.2.1)
    simp only [parityLoop]
    generalize session T a q (decide (a.debug > 1))
      (String.mk (if scanMode then parityPrefix s.2.2 prefixLen p.toUpper else s.2.2))
      ((invoke T s.1 (.modbus_new_rtu a.dev baud p.toUpper a.dbitVal a.sbitVal)).1, s.2.1) = r
        at hfl hcon href
    obtain ⟨w2, d2, fl⟩ := r
    simp only at hfl hcon href
    rcases hfl with hfl | hfl
    · subst hfl
      simp only
      obtain ⟨g0, g⟩ := ih (w2, d2,
        (if scanMode then parityPrefix s.2.2 prefixLen p.toUpper else s.2.2))
      refine ⟨g0, ?_⟩
      intro hn
      obtain ⟨g2, g3⟩ := g hn
      by_cases hok : (T.step (T.step (T.step
          (invoke T s.1 (.modbus_new_rtu a.dev baud p.toUpper a.dbitVal a.sbitVal)).1.ctx
          (.modbus_set_debug (decide (a.debug > 1)))).1
          (.modbus_set_response_timeout 0 (wrap32 (a.toutVal * 1000)))).1
          .modbus_connect).2.ret = 0
      · obtain ⟨-, h2, h3⟩ := hcon hok
        constructor
        · rw [g2, h2]
          simp only [invoke, List.map_append, List.map_cons, List.map_nil, List.flatMap_cons,
            List.append_assoc, List.singleton_append, List.cons_append]
          simp only [sessionCalls, scanCalls_congr q s.2.1 d2 h3, Call.forget, List.nil_append]
        · rw [g3, h3]
      · exact absurd (href hok).1 (by simp)
    · subst hfl
      simp

/-- the baud loop when no connection fails -/
theorem baudLoop_next {σ : Type} (T : Modbus σ) (a : Args) (q : Request)
    (scanMode : Bool) (bs : List Int) :
    ∀ (prefixLen : Nat) (s : World σ × Data × List Char),
      ((baudLoop T a q scanMode prefixLen bs s).2.2.2 = .next () ∨
       (baudLoop T a q scanMode prefixLen bs s).2.2.2 = .exit (-1)) ∧
      ((baudLoop T a q scanMode prefixLen bs s).2.2.2 = .next () →
        (baudLoop T a q scanMode prefixLen bs s).1.calls.map Call.forget
          = s.1.calls.map Call.forget ++ bs.flatMap (fun b => a.parityVal.flatMap (fun p =>
              .modbus_new_rtu a.dev b p.toUpper a.dbitVal a.sbitVal ::
                sessionCalls a q s.2.1 (decide (a.debug > 1))))) := by
  induction bs with
  | nil => intro prefixLen s; simp [baudLoop]
  | cons b bs ih =>
    intro prefixLen s
    obtain ⟨hfl, hpar⟩ := parityLoop_next T a q scanMode b
      (if scanMode then (baudPrefix b).length else prefixLen) a.parityVal
      (s.1, s.2.1, if scanMode then baudPrefix b else s.2.2)
    simp only [baudLoop]
    generalize parityLoop T a q scanMode b
      (if scanMode then (baudPrefix b).length else prefixLen) a.parityVal
      (s.1, s.2.1, if scanMode then baudPrefix b else s.2.2) = r at hfl hpar
    obtain ⟨w2, d2, pb, fl⟩ := r
    simp only at hfl hpar
    rcases hfl with hfl | hfl
    · subst hfl
      simp only
      obtain ⟨g0, g⟩ := ih (if scanMode then (baudPrefix b).length else prefixLen) (w2, d2, pb)
      refine ⟨g0, ?_⟩
      intro hn
      obtain ⟨h2, h3⟩ := hpar rfl
      rw [g hn, h2]
      simp only [List.flatMap_cons, List.append_assoc]
      simp only [sessionCalls, scanCalls_congr q s.2.1 d2 h3]
    · subst hfl
      simp

/-- the calls of a serial run that ends with status 0 -/
theorem main_rtu_next {σ : Type} (T : Modbus σ) (u : Undef) (a : Args) (ctx : σ)
    (q : Request) (st : List Store) (out : List Printf) (hp : prepare u a = .ok (q, st, out))
    (hr : a.rtu = true) (h0 : (main T u a ctx).2 = 0) :
    (main T u a ctx).1.calls.map Call.forget = runCalls a q := by
  unfold main at h0 ⊢
  simp only [hp] at h0 ⊢
  unfold connectAndRun runCalls at *
  simp only [hr, if_true] at h0 ⊢
  obtain ⟨hfl, h2⟩ := baudLoop_next T a q (decide (a.baud.length > 1 ∨ a.parityVal.length > 1))
    a.baud 0 ({ ctx := ctx, calls := [], out := out, err := [] }, q.data, [])
  generalize baudLoop T a q (decide (a.baud.length > 1 ∨ a.parityVal.length > 1))
    0 a.baud ({ ctx := ctx, calls := [], out := out, err := [] }, q.data, []) = r at hfl h2 h0
  obtain ⟨w2, d2, pb, fl⟩ := r
  simp only at hfl h2 h0
  rcases hfl with hfl | hfl
  · subst hfl
    simpa using h2 rfl
  · subst hfl
    simp at h0

/-! ### main -/

/-- request preparation when the address and the function code are accepted -/
theorem prepare_eq (u : Undef) (a : Args) (ty : WriteDataType) (wr : Bool)
    (haddr : ∀ start stop, a.addr = .range start stop → start < stop)
    (hc : chooseDataType a.func = some (ty, wr)) :
    prepare u a = .ok
      ({ addrStart := addrStartOf a.addr, addrEnd := addrEndOf a.addr, func := a.func,
         reg := regOf a, nb := readWriteNoOf a ty wr, dataType := ty,
         data := (fillData a.debug ty wr a.dwrite (allocData u ty (readWriteNoOf a ty wr))).data },
       (fillData a.debug ty wr a.dwrite (allocData u ty (readWriteNoOf a ty wr))).stores,
       (fillData a.debug ty wr a.dwrite (allocData u ty (readWriteNoOf a ty wr))).out) := by
  have hr : ¬ (addrScanOf a.addr = true ∧ addrStartOf a.addr ≥ addrEndOf a.addr) := by
    cases ha : a.addr with
    | single n => simp [addrScanOf]
    | range s e =>
      have := haddr s e ha
      simp [addrScanOf, addrStartOf, addrEndOf]
      omega
  unfold prepare
  rw [if_neg hr, hc]

theorem isConnect_forget (c : Call) : c.forget.isConnect = c.isConnect := by
  cases c <;> rfl

theorem countP_forget (l : List Call) :
    (l.map Call.forget).countP Call.isConnect = l.countP Call.isConnect := by
  induction l with
  | nil => rfl
  | cons c l ih => simp [List.countP_cons, ih, isConnect_forget]

theorem countP_flatMap_const {α β : Type} (p : β → Bool) (f : α → List β) (k : Nat)
    (l : List α) (h : ∀ x, (f x).countP p = k) : (l.flatMap f).countP p = l.length * k := by
  induction l with
  | nil => simp
  | cons x l ih =>
    rw [List.flatMap_cons, List.countP_append, ih, h x, List.length_cons]
    ring

theorem scanCalls_connect (q : Request) (d : Data) :
    (scanCalls q d).countP Call.isConnect = 0 := by
  unfold scanCalls
  rw [countP_flatMap_const Call.isConnect _ 0]
  · simp
  · intro i
    cases hc : transaction q.func q.reg q.nb d with
    | none => simp [Call.isConnect]
    | some c =>
      rcases transaction_cases hc with h | h | h | h | h | h | h <;> obtain ⟨-, rfl⟩ := h <;>
        simp [Call.isConnect, Call.forget]

theorem sessionCalls_connect (a : Args) (q : Request) (d : Data) (debugFlag : Bool) :
    (sessionCalls a q d debugFlag).countP Call.isConnect = 1 := by
  unfold sessionCalls
  simp [List.countP_append, List.countP_cons, scanCalls_connect, Call.isConnect]

/-- the calls of a TCP run count one connection attempt -/
theorem tcp_one_connect {σ : Type} (T : Modbus σ) (a : Args) (q : Request) (w : World σ)
    (hr : a.rtu = false) (hw : w.calls = []) :
    (connectAndRun T a q w).1.calls.countP Call.isConnect = 1 := by
  unfold connectAndRun
  simp only [hr, Bool.false_eq_true, if_false]
  by_cases hok : (T.step (T.step (T.step
      (invoke T w (.modbus_new_tcp a.ipVal a.portVal)).1.ctx
      (.modbus_set_debug (decide (a.debug ≠ 0)))).1
      (.modbus_set_response_timeout 0 (wrap32 (a.toutVal * 1000)))).1 .modbus_connect).2.ret = 0
  · obtain ⟨-, h2, -⟩ := session_connected T a q (decide (a.debug ≠ 0)) ""
      ((invoke T w (.modbus_new_tcp a.ipVal a.portVal)).1, q.data) hok
    rw [← countP_forget, h2]
    simp [invoke, hw, List.countP_append, List.countP_cons, sessionCalls_connect, Call.isConnect,
      Call.forget]
  · obtain ⟨-, h2⟩ := session_refused T a q (decide (a.debug ≠ 0)) ""
      ((invoke T w (.modbus_new_tcp a.ipVal a.portVal)).1, q.data) hok
    rw [h2]
    simp [invoke, hw, List.countP_append, List.countP_cons, Call.isConnect]

/-- the connections of a run whose request main has built -/
theorem sweep_of_prepare {σ : Type} (T : Modbus σ) (u : Undef) (a : Args) (ctx : σ)
    (q : Request) (st : List Store) (out : List Printf)
    (hp : prepare u a = .ok (q, st, out)) :
    (a.rtu = true → (main T u a ctx).2 = 0 →
      (main T u a ctx).1.calls.map Call.forget
        = a.baud.flatMap (fun b => a.parityVal.flatMap (fun p =>
            [.modbus_new_rtu a.dev b p.toUpper a.dbitVal a.sbitVal,
             .modbus_set_debug (decide (a.debug > 1)),
             .modbus_set_response_timeout 0 (wrap32 (a.toutVal * 1000)),
             .modbus_connect] ++ scanCalls q q.data ++ [.modbus_close, .modbus_free])) ∧
      (main T u a ctx).1.calls.countP Call.isConnect = a.baud.length * a.parityVal.length ∧
      (a.baud = [9600, 19200] → a.parityVal = ['E'] →
        (main T u a ctx).1.calls.countP Call.isConnect = 2)) ∧
    ((∀ x, (T.step x .modbus_connect).2.ret = 0) → (main T u a ctx).2 = 0) ∧
    (a.rtu = false → (main T u a ctx).1.calls.countP Call.isConnect = 1) := by
  refine ⟨?_, ?_, ?_⟩
  · intro hr h0
    have h2 := main_rtu_next T u a ctx q st out hp hr h0
    have hcount : (main T u a ctx).1.calls.countP Call.isConnect
        = a.baud.length * a.parityVal.length := by
      rw [← countP_forget, h2]
      unfold runCalls
      rw [if_pos hr, countP_flatMap_const Call.isConnect _ (a.parityVal.length * 1)]
      · rw [Nat.mul_one]
      · intro b
        rw [countP_flatMap_const Call.isConnect _ 1]
        intro p
        simp [List.countP_cons, sessionCalls_connect, Call.isConnect]
    refine ⟨?_, hcount, ?_⟩
    · rw [h2]
      unfold runCalls
      rw [if_pos hr]
      simp [sessionCalls]
    · intro hb hpar
      rw [hcount, hb, hpar]
      rfl
  · intro hconn
    exact (main_connected T u a ctx q st out hp hconn).1
  · intro hr
    unfold main
    simp only [hp]
    have := tcp_one_connect T a q { ctx := ctx, calls := [], out := out, err := [] } hr rfl
    generalize connectAndRun T a q { ctx := ctx, calls := [], out := out, err := [] } = r at this
    obtain ⟨w, fl⟩ := r
    cases fl <;> exact this

/-- the switch of main accepts each of the eight function codes -/
theorem chooseDataType_some {func : Int}
    (hfunc : func = 0x01 ∨ func = 0x02 ∨ func = 0x03 ∨ func = 0x04 ∨ func = 0x05 ∨
             func = 0x06 ∨ func = 0x0F ∨ func = 0x10) :
    ∃ ty wr, chooseDataType func = some (ty, wr) := by
  rcases hfunc with h | h | h | h | h | h | h | h <;> subst h <;> exact ⟨_, _, rfl⟩

/-- main builds a request when the address argument and the function code are
accepted -/
theorem prepare_total (u : Undef) (a : Args)
    (haddr : ∀ start stop, a.addr = .range start stop → start < stop)
    (hfunc : a.func = 0x01 ∨ a.func = 0x02 ∨ a.func = 0x03 ∨ a.func = 0x04 ∨ a.func = 0x05 ∨
             a.func = 0x06 ∨ a.func = 0x0F ∨ a.func = 0x10) :
    ∃ q st out, prepare u a = .ok (q, st, out) := by
  obtain ⟨ty, wr, hc⟩ := chooseDataType_some hfunc
  exact ⟨_, _, _, prepare_eq u a ty wr haddr hc⟩

/-- C4: when the address argument and the function code are accepted, main
builds the request, and its effective unit count readWriteNo (handed to
process_request as nb) is the read count (default 1) for the read function
codes, 1 for Write Single Coil and Write Single Register whatever the number
of write values, and the number of write values for Write Multiple Coils and
Write Multiple Registers. -/
theorem readWriteNo_effective (u : Undef) (a : Args)
    (haddr : ∀ start stop, a.addr = .range start stop → start < stop)
    (hfunc : a.func = 0x01 ∨ a.func = 0x02 ∨ a.func = 0x03 ∨ a.func = 0x04 ∨ a.func = 0x05 ∨
             a.func = 0x06 ∨ a.func = 0x0F ∨ a.func = 0x10) :
    ∃ q st out, prepare u a = .ok (q, st, out) ∧
      ((a.func = 0x01 ∨ a.func = 0x02 ∨ a.func = 0x03 ∨ a.func = 0x04) →
        q.nb = a.count.getD 1) ∧
      ((a.func = 0x05 ∨ a.func = 0x06) → q.nb = 1) ∧
      ((a.func = 0x0F ∨ a.func = 0x10) → q.nb = a.dwrite.length) := by
  obtain ⟨q, st, out, hp⟩ := prepare_total u a haddr hfunc
  exact ⟨q, st, out, hp, readWriteNo_of_prepare u a q st out hp⟩

/-- C5: when the address argument is accepted, main builds the request, and
for Write Multiple Coils (Write Multiple Registers) the buffer after
population holds, in supplied order, every write value reduced modulo 2^8
(2^16), the loop making exactly one assignment per index 0, ..., k-1 in this
order; for Write Single Coil and Write Single Register with at least one
write value the scalar is the first value, and this is the only assignment
made. -/
theorem buffer_population (u : Undef) (a : Args)
    (haddr : ∀ start stop, a.addr = .range start stop → start < stop)
    (hfunc : a.func = 0x05 ∨ a.func = 0x06 ∨ a.func = 0x0F ∨ a.func = 0x10) :
    ∃ q st out, prepare u a = .ok (q, st, out) ∧
      (a.func = 0x0F →
        q.data.data8 = a.dwrite.map (fun v => (v % 2 ^ 8).toNat) ∧
        st = (List.range a.dwrite.length).map
               (fun i => Store.data8 i ((a.dwrite.getD i 0 % 2 ^ 8).toNat))) ∧
      (a.func = 0x10 →
        q.data.data16 = a.dwrite.map (fun v => (v % 2 ^ 16).toNat) ∧
        st = (List.range a.dwrite.length).map
               (fun i => Store.data16 i ((a.dwrite.getD i 0 % 2 ^ 16).toNat))) ∧
      ((a.func = 0x05 ∨ a.func = 0x06) → ∀ v0 rest, a.dwrite = v0 :: rest →
        q.data.dataInt = v0 ∧ st = [Store.dataInt v0]) := by
  obtain ⟨q, st, out, hp⟩ := prepare_total u a haddr
    (by rcases hfunc with h | h | h | h <;> simp [h])
  exact ⟨q, st, out, hp, buffer_of_prepare u a q st out hp⟩

/-- C3: when the address argument and the function code are accepted, main
builds the request; the register offset it passes is the start register,
reduced by one when the base-1 flag is set, and at every scan point
process_request binds the slave address and then makes exactly the one call
that belongs to the function code, with the register offset, the unit count
and the buffer (the scalar for the single writes); for Write Single Coil with
the write values [1] the call at every address is modbus_write_bit(offset, 1).
The start register is a 32-bit int above INT_MIN, where `reg--` is defined. -/
theorem transport_operation {σ : Type} (T : Modbus σ) (u : Undef) (a : Args)
    (haddr : ∀ start stop, a.addr = .range start stop → start < stop)
    (hfunc : a.func = 0x01 ∨ a.func = 0x02 ∨ a.func = 0x03 ∨ a.func = 0x04 ∨ a.func = 0x05 ∨
             a.func = 0x06 ∨ a.func = 0x0F ∨ a.func = 0x10)
    (hmin : INT_MIN < a.reg) (hmax : a.reg ≤ INT_MAX) :
    ∃ q st out, prepare u a = .ok (q, st, out) ∧
      q.func = a.func ∧
      q.reg = (if a.base1 then a.reg - 1 else a.reg) ∧
      (∀ (verbose : Nat) (addrScan : Bool) (prefixScan : String) (i : Int)
          (s : World σ × Local),
        (a.func = 0x01 →
          (scanPoint T verbose addrScan q.func q.reg q.nb prefixScan i s).1.calls
            = s.1.calls ++ [.modbus_set_slave i, .modbus_read_bits q.reg q.nb s.2.data.data8]) ∧
        (a.func = 0x03 →
          (scanPoint T verbose addrScan q.func q.reg q.nb prefixScan i s).1.calls
            = s.1.calls ++
              [.modbus_set_slave i, .modbus_read_registers q.reg q.nb s.2.data.data16]) ∧
        (a.func = 0x04 →
          (scanPoint T verbose addrScan q.func q.reg q.nb prefixScan i s).1.calls
            = s.1.calls ++
              [.modbus_set_slave i, .modbus_read_input_registers q.reg q.nb s.2.data.data16]) ∧
        (a.func = 0x05 →
          (scanPoint T verbose addrScan q.func q.reg q.nb prefixScan i s).1.calls
            = s.1.calls ++ [.modbus_set_slave i, .modbus_write_bit q.reg s.2.data.dataInt]) ∧
        (a.func = 0x06 →
          (scanPoint T verbose addrScan q.func q.reg q.nb prefixScan i s).1.calls
            = s.1.calls ++
              [.modbus_set_slave i, .modbus_write_register q.reg s.2.data.dataInt]) ∧
        (a.func = 0x0F →
          (scanPoint T verbose addrScan q.func q.reg q.nb prefixScan i s).1.calls
            = s.1.calls ++ [.modbus_set_slave i, .modbus_write_bits q.reg q.nb s.2.data.data8]) ∧
        (a.func = 0x10 →
          (scanPoint T verbose addrScan q.func q.reg q.nb prefixScan i s).1.calls
            = s.1.calls ++
              [.modbus_set_slave i, .modbus_write_registers q.reg q.nb s.2.data.data16])) ∧
      (a.func = 0x05 → a.dwrite = [1] →
        ∀ (verbose : Nat) (w : World σ) (prefixScan : String),
          (process_request T verbose w q.addrStart q.addrEnd q.func q.reg q.nb q.dataType q.data
              prefixScan).1.calls
            = w.calls ++ (addrList q.addrStart q.addrEnd).flatMap
                (fun i => [.modbus_set_slave i, .modbus_write_bit q.reg 1])) := by
  obtain ⟨q, st, out, hp⟩ := prepare_total u a haddr hfunc
  exact ⟨q, st, out, hp, operation_of_prepare T u a q st out hp hmin hmax⟩

/-- C9: when the address argument and the function code are accepted, main
builds the request and goes on to connect.  A serial run ends with status 0
exactly when no connection attempt fails (main returns -1 at the first failed
connection), in particular on a transport that never refuses a connection.
In such a run the calls are, for every baud rate (outer loop) and every
parity (inner loop) in the order given, one connection set-up followed by the
pass over the whole address range and the clean-up; there are
|baud axis| * |parity axis| connection attempts, 2 for the baud rates 9600,
19200 and the parity E.  A TCP run makes exactly one connection attempt. -/
theorem connection_sweep {σ : Type} (T : Modbus σ) (u : Undef) (a : Args) (ctx : σ)
    (haddr : ∀ start stop, a.addr = .range start stop → start < stop)
    (hfunc : a.func = 0x01 ∨ a.func = 0x02 ∨ a.func = 0x03 ∨ a.func = 0x04 ∨ a.func = 0x05 ∨
             a.func = 0x06 ∨ a.func = 0x0F ∨ a.func = 0x10) :
    ∃ q st out, prepare u a = .ok (q, st, out) ∧
      (a.rtu = true → (main T u a ctx).2 = 0 →
        (main T u a ctx).1.calls.map Call.forget
          = a.baud.flatMap (fun b => a.parityVal.flatMap (fun p =>
              [.modbus_new_rtu a.dev b p.toUpper a.dbitVal a.sbitVal,
               .modbus_set_debug (decide (a.debug > 1)),
               .modbus_set_response_timeout 0 (wrap32 (a.toutVal * 1000)),
               .modbus_connect] ++ scanCalls q q.data ++ [.modbus_close, .modbus_free])) ∧
        (main T u a ctx).1.calls.countP Call.isConnect = a.baud.length * a.parityVal.length ∧
        (a.baud = [9600, 19200] → a.parityVal = ['E'] →
          (main T u a ctx).1.calls.countP Call.isConnect = 2)) ∧
      ((∀ x, (T.step x .modbus_connect).2.ret = 0) → (main T u a ctx).2 = 0) ∧
      (a.rtu = false → (main T u a ctx).1.calls.countP Call.isConnect = 1) := by
  obtain ⟨q, st, out, hp⟩ := prepare_total u a haddr hfunc
  exact ⟨q, st, out, hp, sweep_of_prepare T u a ctx q st out hp⟩

/-- C7: for an address range start.end with start >= end, main prints the
error, ends with EXIT_FAILURE, and has made no library call at all. -/
theorem scan_range_rejected {σ : Type} (T : Modbus σ) (u : Undef) (a : Args) (ctx : σ)
    (start stop : Nat) (ha : a.addr = .range start stop) (hge : start ≥ stop) :
    (main T u a ctx).2 = EXIT_FAILURE ∧ (main T u a ctx).2 ≠ 0 ∧
    (main T u a ctx).1.calls = [] ∧
    (main T u a ctx).1.out = [.scanRangeError] := by
  have hr : addrScanOf a.addr = true ∧ addrStartOf a.addr ≥ addrEndOf a.addr := by
    rw [ha]
    simp [addrScanOf, addrStartOf, addrEndOf]
    omega
  simp [main, prepare, hr, EXIT_FAILURE]

/-- C8: for a function code that is not one of the eight, the switch of main
chooses no data type; main prints an error, ends with EXIT_FAILURE, and has
made no library call at all. -/
theorem unknown_function_rejected {σ : Type} (T : Modbus σ) (u : Undef) (a : Args) (ctx : σ)
    (hf : a.func ≠ 0x01 ∧ a.func ≠ 0x02 ∧ a.func ≠ 0x03 ∧ a.func ≠ 0x04 ∧ a.func ≠ 0x05 ∧
          a.func ≠ 0x06 ∧ a.func ≠ 0x0F ∧ a.func ≠ 0x10) :
    chooseDataType a.func = none ∧
    (main T u a ctx).2 = EXIT_FAILURE ∧ (main T u a ctx).2 ≠ 0 ∧
    (main T u a ctx).1.calls = [] ∧
    (main T u a ctx).1.out =
      (if addrScanOf a.addr = true ∧ addrStartOf a.addr ≥ addrEndOf a.addr
       then [.scanRangeError] else [.noCorrectFunction]) := by
  obtain ⟨h1, h2, h3, h4, h5, h6, h7, h8⟩ := hf
  have hc : chooseDataType a.func = none := by
    simp [chooseDataType, ReadCoils, ReadDiscreteInput, ReadHoldingRegisters,
      ReadInputRegisters, WriteSingleCoil, WriteSingleRegister, WriteMultipleCoils,
      WriteMultipleRegisters, h1, h2, h3, h4, h5, h6, h7, h8]
  refine ⟨hc, ?_⟩
  unfold main prepare
  rw [hc]
  split_ifs <;> simp [EXIT_FAILURE]

/-- C6 (as amended): with Write Multiple Coils or Write Multiple Registers and
no write value, main reports no configuration error: the request is built
with unit count 0 and an empty buffer, and when the address argument is
accepted and every connection succeeds, main connects, makes the write call
with count 0 at every scan point, and ends with status 0. -/
theorem zero_write_values_run {σ : Type} (T : Modbus σ) (u : Undef) (a : Args) (ctx : σ)
    (hf : a.func = 0x0F ∨ a.func = 0x10) (hd : a.dwrite = [])
    (haddr : ∀ start stop, a.addr = .range start stop → start < stop)
    (hconn : ∀ x, (T.step x .modbus_connect).2.ret = 0) :
    ∃ q out, prepare u a = .ok (q, [], out) ∧
      q.nb = 0 ∧ q.data.data8 = [] ∧ q.data.data16 = [] ∧
      (a.func = 0x0F →
        transaction q.func q.reg q.nb q.data = some (.modbus_write_bits (regOf a) 0 [])) ∧
      (a.func = 0x10 →
        transaction q.func q.reg q.nb q.data = some (.modbus_write_registers (regOf a) 0 [])) ∧
      (main T u a ctx).2 = 0 ∧
      (main T u a ctx).1.calls.map Call.forget = runCalls a q := by
  rcases hf with hf | hf
  · have hc : chooseDataType a.func = some (.Data8Array, true) := by rw [hf]; rfl
    have hp := prepare_eq u a _ _ haddr hc
    have hst : (fillData a.debug .Data8Array true a.dwrite
        (allocData u .Data8Array (readWriteNoOf a .Data8Array true))).stores = [] := by
      simp [hd, fillData, fillLoop, say_stores]
    rw [hst] at hp
    refine ⟨_, _, hp, ?_, ?_, ?_, ?_, ?_, main_connected T u a ctx _ _ _ hp hconn⟩ <;>
      simp [hd, hf, readWriteNoOf, fillData, fillLoop, say_data, allocData, malloc, transaction]
  · have hc : chooseDataType a.func = some (.Data16Array, true) := by rw [hf]; rfl
    have hp := prepare_eq u a _ _ haddr hc
    have hst : (fillData a.debug .Data16Array true a.dwrite
        (allocData u .Data16Array (readWriteNoOf a .Data16Array true))).stores = [] := by
      simp [hd, fillData, fillLoop, say_stores]
    rw [hst] at hp
    refine ⟨_, _, hp, ?_, ?_, ?_, ?_, ?_, main_connected T u a ctx _ _ _ hp hconn⟩ <;>
      simp [hd, hf, readWriteNoOf, fillData, fillLoop, say_data, allocData, malloc, transaction]

/-- C6 (counterexample): for `tcp -a 1 -r 0 -f 15` (Write Multiple Coils, no
write value) main connects, makes the call modbus_write_bits(0, 0, empty) at
address 1, and ends with status 0. -/
theorem zero_write_values_accepted :
    (main demoTransport demoUndef zeroWriteArgs 0).2 = 0 ∧
    (main demoTransport demoUndef zeroWriteArgs 0).1.calls =
      [.modbus_new_tcp "127.0.0.1" 502, .modbus_set_debug false,
       .modbus_set_response_timeout 0 1000000, .modbus_connect, .modbus_set_slave 1,
       .modbus_write_bits 0 0 [], .modbus_close, .modbus_free] ∧
    (main demoTransport demoUndef zeroWriteArgs 0).1.out =
      [.errorOccured (-1) "Connection timed out"] := by
  decide

/-! ### The theorems at concrete inputs -/

theorem success_classification_witness :
    transaction 0x03 0 3 demoLocal.data = some (.modbus_read_registers 0 3 [0, 0, 0]) ∧
    ∃ new : List Printf,
      (scanPoint demoTransport 0 false 0x03 0 3 "" 3 (demoWorld, demoLocal)).1.out
        = demoWorld.out ++ new ∧
      (new.any Printf.isSuccess = true ↔
        (demoTransport.step (demoTransport.step demoWorld.ctx (.modbus_set_slave 3)).1
          (.modbus_read_registers 0 3 [0, 0, 0])).2.ret = 3) ∧
      ((demoTransport.step (demoTransport.step demoWorld.ctx (.modbus_set_slave 3)).1
          (.modbus_read_registers 0 3 [0, 0, 0])).2.ret ≠ 3 → false = false →
        new = [Printf.errorOccured
                (demoTransport.step (demoTransport.step demoWorld.ctx (.modbus_set_slave 3)).1
                  (.modbus_read_registers 0 3 [0, 0, 0])).2.ret
                (demoTransport.strerror
                  (scanPoint demoTransport 0 false 0x03 0 3 "" 3 (demoWorld, demoLocal)).1.ctx)]) :=
  ⟨rfl, success_classification demoTransport 0 false 0x03 0 3 "" 3 (demoWorld, demoLocal)
    (.modbus_read_registers 0 3 [0, 0, 0]) rfl⟩

theorem transport_operation_witness :
    (∀ start stop, singleCoilArgs.addr = .range start stop → start < stop) ∧
    INT_MIN < singleCoilArgs.reg ∧ singleCoilArgs.reg ≤ INT_MAX ∧
    ∃ q st out, prepare demoUndef singleCoilArgs = .ok (q, st, out) ∧ q.reg = 9 ∧
      (scanPoint demoTransport 0 false q.func q.reg q.nb "" 3 (demoWorld, singleCoilLocal)).1.calls
        = [.modbus_set_slave 3, .modbus_write_bit q.reg 1] :=
  ⟨fun _ _ h => AddrArg.noConfusion h, by decide, by decide,
   (transport_operation demoTransport demoUndef singleCoilArgs
      (fun _ _ h => AddrArg.noConfusion h) (by decide) (by decide) (by decide)).elim
     (fun q h => h.elim (fun st h => h.elim (fun out h =>
       ⟨q, st, out, h.1, h.2.2.1, (h.2.2.2.1 0 false "" 3 (demoWorld, singleCoilLocal)).2.2.2.1
         rfl⟩)))⟩

theorem readWriteNo_effective_witness :
    (∀ start stop, demoArgs.addr = .range start stop → start < stop) ∧
    ∃ q st out, prepare demoUndef demoArgs = .ok (q, st, out) ∧ q.nb = 3 :=
  ⟨fun _ _ h => AddrArg.noConfusion h,
   (readWriteNo_effective demoUndef demoArgs (fun _ _ h => AddrArg.noConfusion h)
      (by decide)).elim
     (fun q h => h.elim (fun st h => h.elim (fun out h =>
       ⟨q, st, out, h.1, h.2.1 (Or.inr (Or.inr (Or.inl rfl)))⟩)))⟩

theorem buffer_population_witness :
    (∀ start stop, multiRegisterArgs.addr = .range start stop → start < stop) ∧
    ∃ q st out, prepare demoUndef multiRegisterArgs = .ok (q, st, out) ∧
      q.data.data16 = [258, 1] ∧ st = [.data16 0 258, .data16 1 1] :=
  ⟨fun _ _ h => AddrArg.noConfusion h (fun h1 h2 => h1 ▸ h2 ▸ by decide),
   (buffer_population demoUndef multiRegisterArgs
      (fun _ _ h => AddrArg.noConfusion h (fun h1 h2 => h1 ▸ h2 ▸ by decide))
      (by decide)).elim
     (fun q h => h.elim (fun st h => h.elim (fun out h =>
       ⟨q, st, out, h.1, (h.2.2.1 rfl).1, (h.2.2.1 rfl).2⟩)))⟩

theorem zero_write_values_run_witness :
    zeroWriteArgs.func = 0x0F ∧ zeroWriteArgs.dwrite = [] ∧
    (∀ x, (demoTransport.step x .modbus_connect).2.ret = 0) ∧
    (main demoTransport demoUndef zeroWriteArgs 0).2 = 0 :=
  ⟨rfl, rfl, fun _ => rfl,
   (zero_write_values_run demoTransport demoUndef zeroWriteArgs 0 (Or.inl rfl) rfl
      (fun _ _ h => nomatch h) (fun _ => rfl)).elim
     (fun _ h => h.elim (fun _ h => h.2.2.2.2.2.2.1))⟩

theorem scan_range_rejected_witness :
    badRangeArgs.addr = .range 5 3 ∧ 5 ≥ 3 ∧
    (main demoTransport demoUndef badRangeArgs 0).2 = EXIT_FAILURE ∧
    (main demoTransport demoUndef badRangeArgs 0).2 ≠ 0 ∧
    (main demoTransport demoUndef badRangeArgs 0).1.calls = [] ∧
    (main demoTransport demoUndef badRangeArgs 0).1.out = [.scanRangeError] :=
  ⟨rfl, by decide,
   scan_range_rejected demoTransport demoUndef badRangeArgs 0 5 3 rfl (by decide)⟩

theorem unknown_function_rejected_witness :
    unknownFuncArgs.func = 0x07 ∧
    chooseDataType unknownFuncArgs.func = none ∧
    (main demoTransport demoUndef unknownFuncArgs 0).2 = EXIT_FAILURE :=
  ⟨rfl,
   (unknown_function_rejected demoTransport demoUndef unknownFuncArgs 0 (by decide)).1,
   (unknown_function_rejected demoTransport demoUndef unknownFuncArgs 0 (by decide)).2.1⟩

theorem connection_sweep_witness :
    (∀ start stop, sweepArgs.addr = .range start stop → start < stop) ∧
    (main demoTransport demoUndef sweepArgs 0).2 = 0 ∧
    (main demoTransport demoUndef sweepArgs 0).1.calls.countP Call.isConnect = 2 :=
  ⟨fun _ _ h => AddrArg.noConfusion h, by decide,
   (connection_sweep demoTransport demoUndef sweepArgs 0
      (fun _ _ h => AddrArg.noConfusion h) (by decide)).elim
     (fun _ h => h.elim (fun _ h => h.elim (fun _ h =>
       (h.2.1 rfl (by decide)).2.2 rfl rfl)))⟩

theorem address_iteration_witness :
    (1 : Int) ≤ 5 ∧
    transaction 0x03 0 3 demoRequest.data = some (.modbus_read_registers 0 3 [0, 0, 0]) ∧
    (process_request demoTransport 0 demoWorld 1 5 0x03 0 3 .Data16Array demoRequest.data
        "").1.calls.map Call.forget
      = demoWorld.calls.map Call.forget ++
        (addrList 1 5).flatMap
          (fun i => [.modbus_set_slave i, (Call.modbus_read_registers 0 3 [0, 0, 0]).forget]) :=
  ⟨by decide, rfl,
   (address_iteration demoTransport 0 demoWorld 1 5 0x03 0 3 .Data16Array demoRequest.data ""
      (by decide)).2.1 (.modbus_read_registers 0 3 [0, 0, 0]) rfl⟩

/-! ### hexadecimal conversion -/

/-- what a scan point prints for a function code with a transport operation -/
theorem scanPoint_out {σ : Type} (T : Modbus σ) (verbose : Nat) (addrScan : Bool)
    (func reg nb : Int) (prefixScan : String) (i : Int) (s : World σ × Local) (c : Call)
    (hc : transaction func reg nb s.2.data = some c) :
    (scanPoint T verbose addrScan func reg nb prefixScan i s).1.out
      = s.1.out ++
        ((if addrScan = true ∧
              (verbose ≠ 0 ∨ (T.step (T.step s.1.ctx (.modbus_set_slave i)).1 c).2.ret = nb)
          then [Printf.address prefixScan i] else []) ++
         (if (T.step (T.step s.1.ctx (.modbus_set_slave i)).1 c).2.ret = nb then
            successReport nb
              (dispatch T func reg nb ((invoke T s.1 (.modbus_set_slave i)).1, s.2)).2
          else if addrScan = false then
            [Printf.errorOccured (T.step (T.step s.1.ctx (.modbus_set_slave i)).1 c).2.ret
              (T.strerror (T.step (T.step s.1.ctx (.modbus_set_slave i)).1 c).1)]
          else [])) ∧
    (scanPoint T verbose addrScan func reg nb prefixScan i s).1.err = s.1.err := by
  obtain ⟨g1, g2, -, -⟩ := dispatch_transaction T (invoke T s.1 (.modbus_set_slave i)).1 s.2 hc
  obtain ⟨-, -, f3, -, -⟩ := report_frame T verbose addrScan nb prefixScan i
    (dispatch T func reg nb ((invoke T s.1 (.modbus_set_slave i)).1, s.2))
  have ho := report_out T verbose addrScan nb prefixScan i
    (dispatch T func reg nb ((invoke T s.1 (.modbus_set_slave i)).1, s.2))
  rw [g2, g1] at ho
  rw [g1] at f3
  exact ⟨ho, f3⟩

/-- C16 (counterexample): for `tcp -a 1 -r 0 -f 3 -c -1` main makes the call
modbus_read_registers(0, -1, buffer); the transport returns the error value
-1, which equals the unit count -1, and main prints the success report. -/
theorem negative_count_success :
    (main demoTransport demoUndef negativeCountArgs 0).1.calls =
      [.modbus_new_tcp "127.0.0.1" 502, .modbus_set_debug false,
       .modbus_set_response_timeout 0 1000000, .modbus_connect, .modbus_set_slave 1,
       .modbus_read_registers 0 (-1) [], .modbus_close, .modbus_free] ∧
    (demoTransport.step 1 (.modbus_read_registers 0 (-1) [])).2.ret = -1 ∧
    (main demoTransport demoUndef negativeCountArgs 0).1.out
      = [.successRead (-1), .newline] := by
  decide

/-- C16 (as amended): the effective unit count is 1 for the single writes,
the number of write values for the multiple writes and the read count
(default 1) for the reads, without any check of its sign; whenever it is
positive, a negative transport return value is never reported as Success. -/
theorem positive_count_classification {σ : Type} (T : Modbus σ) (u : Undef) (a : Args)
    (haddr : ∀ start stop, a.addr = .range start stop → start < stop)
    (hfunc : a.func = 0x01 ∨ a.func = 0x02 ∨ a.func = 0x03 ∨ a.func = 0x04 ∨ a.func = 0x05 ∨
             a.func = 0x06 ∨ a.func = 0x0F ∨ a.func = 0x10) :
    ∃ q st out, prepare u a = .ok (q, st, out) ∧
      ((a.func = 0x05 ∨ a.func = 0x06) → q.nb = 1) ∧
      ((a.func = 0x0F ∨ a.func = 0x10) → (0 < q.nb ↔ a.dwrite ≠ [])) ∧
      ((a.func = 0x01 ∨ a.func = 0x02 ∨ a.func = 0x03 ∨ a.func = 0x04) →
        (0 < q.nb ↔ 0 < a.count.getD 1)) ∧
      (0 < q.nb →
        ∀ (verbose : Nat) (addrScan : Bool) (prefixScan : String) (i : Int)
          (s : World σ × Local) (c : Call),
          transaction q.func q.reg q.nb s.2.data = some c →
          (T.step (T.step s.1.ctx (.modbus_set_slave i)).1 c).2.ret < 0 →
          ∀ new, (scanPoint T verbose addrScan q.func q.reg q.nb prefixScan i s).1.out
                  = s.1.out ++ new →
            new.any Printf.isSuccess = false) := by
  obtain ⟨q, st, out, hp⟩ := prepare_total u a haddr hfunc
  obtain ⟨h1, h2, h3⟩ := readWriteNo_of_prepare u a q st out hp
  refine ⟨q, st, out, hp, h2, ?_, ?_, ?_⟩
  · intro hf
    rw [h3 hf]
    cases a.dwrite <;> simp
  · intro hf
    rw [h1 hf]
  · intro hpos verbose addrScan prefixScan i s c hc hneg new hnew
    obtain ⟨ho, -⟩ := scanPoint_out T verbose addrScan q.func q.reg q.nb prefixScan i s c hc
    rw [hnew] at ho
    rw [List.append_cancel_left ho]
    have hne : (T.step (T.step s.1.ctx (.modbus_set_slave i)).1 c).2.ret ≠ q.nb := by omega
    simp only [hne, if_false, or_false]
    split_ifs <;> simp [Printf.isSuccess]

/-! ### a connection that fails -/

theorem dispatch_err {σ : Type} (T : Modbus σ) (func reg nb : Int) (s : World σ × Local) :
    (dispatch T func reg nb s).1.err = s.1.err := by
  unfold dispatch
  split_ifs <;> simp [invoke, print]

theorem scanPoint_err {σ : Type} (T : Modbus σ) (verbose : Nat) (addrScan : Bool)
    (func reg nb : Int) (prefixScan : String) (i : Int) (s : World σ × Local) :
    (scanPoint T verbose addrScan func reg nb prefixScan i s).1.err = s.1.err := by
  unfold scanPoint
  rw [(report_frame T verbose addrScan nb prefixScan i _).2.2.1, dispatch_err]
  simp [invoke]

theorem addrLoop_err {σ : Type} (T : Modbus σ) (verbose : Nat) (addrScan : Bool)
    (func reg nb : Int) (prefixScan : String) (n : Nat) :
    ∀ (i : Int) (s : World σ × Local),
      (addrLoop (scanPoint T verbose addrScan func reg nb prefixScan) n i s).1.err = s.1.err := by
  induction n with
  | zero => intro i s; rfl
  | succ n ih =>
    intro i s
    simp only [addrLoop]
    rw [ih, scanPoint_err]

/-- process_request writes nothing to stderr -/
theorem process_request_err {σ : Type} (T : Modbus σ) (verbose : Nat) (w : World σ)
    (addrStart addrEnd func reg nb : Int) (dataType : WriteDataType) (data : Data)
    (prefixScan : String) :
    (process_request T verbose w addrStart addrEnd func reg nb dataType data prefixScan).1.err
      = w.err := by
  unfold process_request
  rw [addrLoop_err]

/-- what a session writes to stderr -/
theorem session_err {σ : Type} (T : Modbus σ) (a : Args) (q : Request)
    (debugFlag : Bool) (prefixScan : String) (s : World σ × Data) :
    ((session T a q debugFlag prefixScan s).2.2 = .next () →
      (session T a q debugFlag prefixScan s).1.err = s.1.err) ∧
    ((session T a q debugFlag prefixScan s).2.2 = .exit (-1) →
      (session T a q debugFlag prefixScan s).1.calls
        = s.1.calls ++ [.modbus_set_debug debugFlag,
            .modbus_set_response_timeout 0 (wrap32 (a.toutVal * 1000)), .modbus_connect,
            .modbus_free] ∧
      ∃ msg, (session T a q debugFlag prefixScan s).1.err
        = s.1.err ++ [.connectionFailed msg]) := by
  unfold session
  simp only
  split_ifs with h
  · refine ⟨fun hn => by simp at hn, fun _ => ⟨by simp [invoke, eprint], _, by
      simp only [invoke, eprint]; rfl⟩⟩
  · refine ⟨fun _ => ?_, fun hx => by simp at hx⟩
    simp only [invoke]
    rw [process_request_err]

/-- the parity loop when a connection fails -/
theorem parityLoop_exit {σ : Type} (T : Modbus σ) (a : Args) (q : Request)
    (scanMode : Bool) (baud : Int) (prefixLen : Nat) (ps : List Char) :
    ∀ (s : World σ × Data × List Char),
      ((parityLoop T a q scanMode baud prefixLen ps s).2.2.2 = .next () →
        (parityLoop T a q scanMode baud prefixLen ps s).1.err = s.1.err) ∧
      ((parityLoop T a q scanMode baud prefixLen ps s).2.2.2 = .exit (-1) →
        ∃ done p rest msg, ps = done ++ p :: rest ∧
          (parityLoop T a q scanMode baud prefixLen ps s).1.calls.map Call.forget
            = s.1.calls.map Call.forget ++
              done.flatMap (fun p =>
                .modbus_new_rtu a.dev baud p.toUpper a.dbitVal a.sbitVal ::
                  sessionCalls a q s.2.1 (decide (a.debug > 1))) ++
              [.modbus_new_rtu a.dev baud p.toUpper a.dbitVal a.sbitVal,
               .modbus_set_debug (decide (a.debug > 1)),
               .modbus_set_response_timeout 0 (wrap32 (a.toutVal * 1000)),
               .modbus_connect, .modbus_free] ∧
          (parityLoop T a q scanMode baud prefixLen ps s).1.err
            = s.1.err ++ [.connectionFailed msg]) := by
  induction ps with
  | nil => intro s; simp [parityLoop]
  | cons p ps ih =>
    intro s
    have hfl := session_flow T a q (decide (a.debug > 1))
      (String.mk (if scanMode then parityPrefix s.2.2 prefixLen p.toUpper else s.2.2))
      ((invoke T s.1 (.modbus_new_rtu a.dev baud p.toUpper a.dbitVal a.sbitVal)).1, s.2.1)
    have hcon := session_connected T a q (decide (a.debug > 1))
      (String.mk (if scanMode then parityPrefix s.2.2 prefixLen p.toUpper else s.2.2))
      ((invoke T s.1 (.modbus_new_rtu a.dev baud p.toUpper a.dbitVal a.sbitVal)).1, s.2.1)
    have href := session_refused T a q (decide (a.debug > 1))
      (String.mk (if scanMode then parityPrefix s.2.2 prefixLen p.toUpper else s.2.2))
      ((invoke T s.1 (.modbus_new_rtu a.dev baud p.toUpper a.dbitVal a.sbitVal)).1, s.2.1)
    have herr := session_err T a q (decide (a.debug > 1))
      (String.mk (if scanMode then parityPrefix s.2.2 prefixLen p.toUpper else s.2.2))
      ((invoke T s.1 (.modbus_new_rtu a.dev baud p.toUpper a.dbitVal a.sbitVal)).1, s.2.1)
    simp only [parityLoop]
    generalize session T a q (decide (a.debug > 1))
      (String.mk (if scanMode then parityPrefix s.2.2 prefixLen p.toUpper else s.2.2))
      ((invoke T s.1 (.modbus_new_rtu a.dev baud p.toUpper a.dbitVal a.sbitVal)).1, s.2.1) = r
        at hfl hcon href herr
    obtain ⟨w2, d2, fl⟩ := r
    simp only at hfl hcon href herr
    rcases hfl with hfl | hfl
    · subst hfl
      simp only
      obtain ⟨g1, g2⟩ := ih (w2, d2,
        (if scanMode then parityPrefix s.2.2 prefixLen p.toUpper else s.2.2))
      have he := herr.1 rfl
      simp only [invoke] at he
      have hok : (T.step (T.step (T.step
          (invoke T s.1 (.modbus_new_rtu a.dev baud p.toUpper a.dbitVal a.sbitVal)).1.ctx
          (.modbus_set_debug (decide (a.debug > 1)))).1
          (.modbus_set_response_timeout 0 (wrap32 (a.toutVal * 1000)))).1
          .modbus_connect).2.ret = 0 := by
        by_contra hne
        exact absurd (href hne).1 (by simp)
      obtain ⟨-, h2, h3⟩ := hcon hok
      constructor
      · intro hn
        rw [g1 hn, he]
      · intro hx
        obtain ⟨done, p', rest, msg, hps, hcalls, herr'⟩ := g2 hx
        refine ⟨p :: done, p', rest, msg, by simp [hps], ?_, ?_⟩
        · rw [hcalls, h2]
          simp only [invoke, List.map_append, List.map_cons, List.map_nil, List.flatMap_cons,
            List.append_assoc, List.singleton_append, List.cons_append]
          simp only [sessionCalls, scanCalls_congr q s.2.1 d2 h3, Call.forget, List.nil_append]
        · rw [herr', he]
    · subst hfl
      simp only
      obtain ⟨hc, msg, hm⟩ := herr.2 rfl
      refine ⟨fun hn => by simp at hn, fun _ => ⟨[], p, ps, msg, rfl, ?_, ?_⟩⟩
      · rw [hc]
        simp [invoke, Call.forget]
      · rw [hm]
        simp [invoke]


/-- the baud loop when a connection fails -/
theorem baudLoop_exit {σ : Type} (T : Modbus σ) (a : Args) (q : Request)
    (scanMode : Bool) (bs : List Int) :
    ∀ (prefixLen : Nat) (s : World σ × Data × List Char),
      ((baudLoop T a q scanMode prefixLen bs s).2.2.2 = .next () →
        (baudLoop T a q scanMode prefixLen bs s).1.err = s.1.err) ∧
      ((baudLoop T a q scanMode prefixLen bs s).2.2.2 = .exit (-1) →
        ∃ doneB b restB doneP p restP msg,
          bs = doneB ++ b :: restB ∧ a.parityVal = doneP ++ p :: restP ∧
          (baudLoop T a q scanMode prefixLen bs s).1.calls.map Call.forget
            = s.1.calls.map Call.forget ++
              doneB.flatMap (fun b => a.parityVal.flatMap (fun p =>
                .modbus_new_rtu a.dev b p.toUpper a.dbitVal a.sbitVal ::
                  sessionCalls a q s.2.1 (decide (a.debug > 1)))) ++
              doneP.flatMap (fun p =>
                .modbus_new_rtu a.dev b p.toUpper a.dbitVal a.sbitVal ::
                  sessionCalls a q s.2.1 (decide (a.debug > 1))) ++
              [.modbus_new_rtu a.dev b p.toUpper a.dbitVal a.sbitVal,
               .modbus_set_debug (decide (a.debug > 1)),
               .modbus_set_response_timeout 0 (wrap32 (a.toutVal * 1000)),
               .modbus_connect, .modbus_free] ∧
          (baudLoop T a q scanMode prefixLen bs s).1.err
            = s.1.err ++ [.connectionFailed msg]) := by
  induction bs with
  | nil => intro prefixLen s; simp [baudLoop]
  | cons b bs ih =>
    intro prefixLen s
    obtain ⟨hfl, hpar⟩ := parityLoop_next T a q scanMode b
      (if scanMode then (baudPrefix b).length else prefixLen) a.parityVal
      (s.1, s.2.1, if scanMode then baudPrefix b else s.2.2)
    obtain ⟨hnerr, hexit⟩ := parityLoop_exit T a q scanMode b
      (if scanMode then (baudPrefix b).length else prefixLen) a.parityVal
      (s.1, s.2.1, if scanMode then baudPrefix b else s.2.2)
    simp only [baudLoop]
    generalize parityLoop T a q scanMode b
      (if scanMode then (baudPrefix b).length else prefixLen) a.parityVal
      (s.1, s.2.1, if scanMode then baudPrefix b else s.2.2) = r at hfl hpar hnerr hexit
    obtain ⟨w2, d2, pb, fl⟩ := r
    simp only at hfl hpar hnerr hexit
    rcases hfl with hfl | hfl
    · subst hfl
      simp only
      obtain ⟨g1, g2⟩ := ih (if scanMode then (baudPrefix b).length else prefixLen) (w2, d2, pb)
      obtain ⟨h2, h3⟩ := hpar rfl
      have he := hnerr rfl
      constructor
      · intro hn
        rw [g1 hn, he]
      · intro hx
        obtain ⟨doneB, b', restB, doneP, p, restP, msg, hbs, hpv, hcalls, herr'⟩ := g2 hx
        refine ⟨b :: doneB, b', restB, doneP, p, restP, msg, by simp [hbs], hpv, ?_, ?_⟩
        · rw [hcalls, h2]
          simp only [List.flatMap_cons, List.append_assoc]
          simp only [sessionCalls, scanCalls_congr q s.2.1 d2 h3]
        · rw [herr', he]
    · subst hfl
      simp only
      obtain ⟨doneP, p, restP, msg, hpv, hcalls, herr'⟩ := hexit rfl
      refine ⟨fun hn => by simp at hn,
        fun _ => ⟨[], b, bs, doneP, p, restP, msg, rfl, hpv, ?_, herr'⟩⟩
      rw [hcalls]
      simp

/-- the outcome of a serial run -/
theorem main_rtu_outcome {σ : Type} (T : Modbus σ) (u : Undef) (a : Args) (ctx : σ)
    (q : Request) (st : List Store) (out : List Printf) (hp : prepare u a = .ok (q, st, out))
    (hr : a.rtu = true) :
    ((main T u a ctx).2 = 0 ∧ (main T u a ctx).1.err = []) ∨
    ((main T u a ctx).2 = -1 ∧
      ∃ doneB b restB doneP p restP msg,
        a.baud = doneB ++ b :: restB ∧ a.parityVal = doneP ++ p :: restP ∧
        (main T u a ctx).1.calls.map Call.forget
          = doneB.flatMap (fun b => a.parityVal.flatMap (fun p =>
              .modbus_new_rtu a.dev b p.toUpper a.dbitVal a.sbitVal ::
                sessionCalls a q q.data (decide (a.debug > 1)))) ++
            doneP.flatMap (fun p =>
              .modbus_new_rtu a.dev b p.toUpper a.dbitVal a.sbitVal ::
                sessionCalls a q q.data (decide (a.debug > 1))) ++
            [.modbus_new_rtu a.dev b p.toUpper a.dbitVal a.sbitVal,
             .modbus_set_debug (decide (a.debug > 1)),
             .modbus_set_response_timeout 0 (wrap32 (a.toutVal * 1000)),
             .modbus_connect, .modbus_free] ∧
        (main T u a ctx).1.err = [.connectionFailed msg]) := by
  unfold main
  simp only [hp]
  unfold connectAndRun
  simp only [hr, if_true]
  obtain ⟨hfl, -⟩ := baudLoop_next T a q (decide (a.baud.length > 1 ∨ a.parityVal.length > 1))
    a.baud 0 ({ ctx := ctx, calls := [], out := out, err := [] }, q.data, [])
  obtain ⟨hn, hx⟩ := baudLoop_exit T a q (decide (a.baud.length > 1 ∨ a.parityVal.length > 1))
    a.baud 0 ({ ctx := ctx, calls := [], out := out, err := [] }, q.data, [])
  generalize baudLoop T a q (decide (a.baud.length > 1 ∨ a.parityVal.length > 1))
    0 a.baud ({ ctx := ctx, calls := [], out := out, err := [] }, q.data, []) = r at hfl hn hx
  obtain ⟨w2, d2, pb, fl⟩ := r
  simp only at hfl hn hx
  rcases hfl with hfl | hfl
  · subst hfl
    exact Or.inl ⟨rfl, hn rfl⟩
  · subst hfl
    refine Or.inr ⟨rfl, ?_⟩
    obtain ⟨doneB, b, restB, doneP, p, restP, msg, h1, h2, h3, h4⟩ := hx rfl
    exact ⟨doneB, b, restB, doneP, p, restP, msg, h1, h2, by simpa using h3, by simpa using h4⟩

/-! ### The call log of a run and the answers of the transport -/

theorem after_append {σ : Type} (T : Modbus σ) (x : σ) (a b : List Call) :
    T.after x (a ++ b) = T.after (T.after x a) b := by
  unfold Modbus.after
  rw [List.foldl_append]

theorem after_cons {σ : Type} (T : Modbus σ) (x : σ) (c : Call) (cs : List Call) :
    T.after x (c :: cs) = T.after (T.step x c).1 cs := rfl

theorem connectsOk_append {σ : Type} (T : Modbus σ) (a b : List Call) :
    ∀ x, connectsOk T x (a ++ b) = (connectsOk T x a && connectsOk T (T.after x a) b) := by
  induction a with
  | nil => intro x; simp [connectsOk, Modbus.after]
  | cons c a ih =>
    intro x
    simp only [List.cons_append, connectsOk, after_cons, Bool.and_assoc]
    exact congrArg (fun t => (!c.isConnect || decide ((T.step x c).2.ret = 0)) && t)
      (ih (T.step x c).1)

theorem connectsOk_of_no_connect {σ : Type} (T : Modbus σ) (cs : List Call)
    (h : ∀ c ∈ cs, c.isConnect = false) : ∀ x, connectsOk T x cs = true := by
  induction cs with
  | nil => intro x; rfl
  | cons c cs ih =>
    intro x
    simp only [connectsOk, h c (List.mem_cons_self _ _), Bool.not_false, Bool.true_or,
      Bool.true_and]
    exact ih (fun c' hc' => h c' (List.mem_cons_of_mem _ hc')) _

/-- connectsOk says that every modbus_connect of the list is answered with 0 -/
theorem connectsOk_iff {σ : Type} (T : Modbus σ) (cs : List Call) :
    ∀ x, connectsOk T x cs = true ↔
      ∀ pre post, cs = pre ++ .modbus_connect :: post →
        (T.step (T.after x pre) .modbus_connect).2.ret = 0 := by
  induction cs with
  | nil =>
    intro x
    simp [connectsOk]
  | cons c cs ih =>
    intro x
    simp only [connectsOk, Bool.and_eq_true, Bool.or_eq_true, Bool.not_eq_true',
      decide_eq_true_eq, ih]
    constructor
    · rintro ⟨h1, h2⟩ pre post hd
      cases pre with
      | nil =>
        simp only [List.nil_append, List.cons.injEq] at hd
        obtain ⟨hc, -⟩ := hd
        subst hc
        rcases h1 with h1 | h1
        · simp [Call.isConnect] at h1
        · exact h1
      | cons d pre =>
        simp only [List.cons_append, List.cons.injEq] at hd
        obtain ⟨hc, hd⟩ := hd
        subst hc
        rw [after_cons]
        exact h2 pre post hd
    · intro h
      constructor
      · by_cases hc : c.isConnect = false
        · exact Or.inl hc
        · right
          have hc' : c = .modbus_connect := by
            cases c <;> simp [Call.isConnect] at hc ⊢
          subst hc'
          exact h [] cs rfl
      · intro pre post hd
        have := h (c :: pre) post (by rw [hd]; rfl)
        rwa [after_cons] at this

/-- the first refused connection of a log that ends with it -/
theorem refusal_unique {σ : Type} (T : Modbus σ) (pre0 : List Call) :
    ∀ (x : σ) (pre post : List Call), connectsOk T x pre0 = true →
      pre0 ++ [.modbus_connect, .modbus_free] = pre ++ .modbus_connect :: post →
      (T.step (T.after x pre) .modbus_connect).2.ret ≠ 0 →
      pre = pre0 ∧ post = [.modbus_free] := by
  induction pre0 with
  | nil =>
    intro x pre post _ hd _
    cases pre with
    | nil => simpa using hd.symm
    | cons d pre =>
      simp only [List.nil_append, List.cons_append, List.cons.injEq] at hd
      obtain ⟨-, hd⟩ := hd
      cases pre with
      | nil => simp at hd
      | cons e pre => simp at hd
  | cons c pre0 ih =>
    intro x pre post hok hd hret
    simp only [connectsOk, Bool.and_eq_true, Bool.or_eq_true, Bool.not_eq_true',
      decide_eq_true_eq] at hok
    cases pre with
    | nil =>
      simp only [List.nil_append, List.cons_append, List.cons.injEq] at hd
      obtain ⟨hc, -⟩ := hd
      subst hc
      rcases hok.1 with h1 | h1
      · simp [Call.isConnect] at h1
      · exact absurd h1 hret
    | cons d pre =>
      simp only [List.cons_append, List.cons.injEq] at hd
      obtain ⟨hc, hd⟩ := hd
      subst hc
      rw [after_cons] at hret
      obtain ⟨g1, g2⟩ := ih _ pre post hok.2 hd hret
      exact ⟨by rw [g1], g2⟩

/-- a part of main that has done nothing -/
theorem RunLog_refl {σ : Type} (T : Modbus σ) (w : World σ) : RunLog T w w (.next ()) :=
  ⟨[], by simp, rfl, rfl, rfl⟩

/-- a part of main that made calls other than modbus_connect -/
theorem RunLog_calls {σ : Type} (T : Modbus σ) (w0 w : World σ) (new : List Call)
    (h1 : w.calls = w0.calls ++ new) (h2 : w.ctx = T.after w0.ctx new) (h3 : w.err = w0.err)
    (h4 : ∀ c ∈ new, c.isConnect = false) : RunLog T w0 w (.next ()) :=
  ⟨new, h1, h2, connectsOk_of_no_connect T new h4 _, h3⟩

/-- two parts of main, one after the other -/
theorem RunLog_trans {σ : Type} (T : Modbus σ) (w0 w1 w : World σ) (fl : Flow Unit)
    (h1 : RunLog T w0 w1 (.next ())) (h2 : RunLog T w1 w fl) : RunLog T w0 w fl := by
  obtain ⟨n1, c1, x1, ok1, e1⟩ := h1
  obtain ⟨n2, c2, x2, h⟩ := h2
  refine ⟨n1 ++ n2, by rw [c2, c1, List.append_assoc], by rw [x2, x1, after_append], ?_⟩
  cases fl with
  | next v =>
    obtain ⟨ok2, e2⟩ := h
    refine ⟨?_, by rw [e2, e1]⟩
    rw [connectsOk_append, ok1, ← x1, ok2]
    rfl
  | exit status =>
    obtain ⟨hst, pre, hnew, okp, hret, herr⟩ := h
    refine ⟨hst, n1 ++ pre, by rw [hnew, List.append_assoc], ?_, ?_, ?_⟩
    · rw [connectsOk_append, ok1, ← x1, okp]
      rfl
    · rw [after_append, ← x1]
      exact hret
    · rw [after_append, ← x1, herr, e1]

/-- the switch makes at most one call, never modbus_connect -/
theorem dispatch_log {σ : Type} (T : Modbus σ) (func reg nb : Int) (s : World σ × Local) :
    ∃ new, (dispatch T func reg nb s).1.calls = s.1.calls ++ new ∧
      (dispatch T func reg nb s).1.ctx = T.after s.1.ctx new ∧
      (dispatch T func reg nb s).1.err = s.1.err ∧
      ∀ c ∈ new, c.isConnect = false := by
  unfold dispatch
  split_ifs
  all_goals first
    | exact ⟨[_], rfl, rfl, rfl, by simp [Call.isConnect]⟩
    | exact ⟨[], by simp [print], rfl, rfl, by simp⟩

/-- a scan point never connects -/
theorem scanPoint_log {σ : Type} (T : Modbus σ) (verbose : Nat) (addrScan : Bool)
    (func reg nb : Int) (prefixScan : String) (i : Int) (s : World σ × Local) :
    ∃ new, (scanPoint T verbose addrScan func reg nb prefixScan i s).1.calls
        = s.1.calls ++ new ∧
      (scanPoint T verbose addrScan func reg nb prefixScan i s).1.ctx = T.after s.1.ctx new ∧
      (scanPoint T verbose addrScan func reg nb prefixScan i s).1.err = s.1.err ∧
      ∀ c ∈ new, c.isConnect = false := by
  unfold scanPoint
  obtain ⟨f1, f2, f3, -, -⟩ := report_frame T verbose addrScan nb prefixScan i
    (dispatch T func reg nb ((invoke T s.1 (.modbus_set_slave i)).1, s.2))
  obtain ⟨new, h1, h2, h3, h4⟩ := dispatch_log T func reg nb
    ((invoke T s.1 (.modbus_set_slave i)).1, s.2)
  refine ⟨.modbus_set_slave i :: new, ?_, ?_, ?_, ?_⟩
  · rw [f1, h1]; simp [invoke]
  · rw [f2, h2]; rfl
  · rw [f3, h3]; rfl
  · intro c hc
    rcases List.mem_cons.1 hc with hc | hc
    · subst hc; rfl
    · exact h4 c hc

/-- the address loop never connects -/
theorem addrLoop_log {σ : Type} (T : Modbus σ) (verbose : Nat) (addrScan : Bool)
    (func reg nb : Int) (prefixScan : String) (n : Nat) :
    ∀ (i : Int) (s : World σ × Local),
      ∃ new, (addrLoop (scanPoint T verbose addrScan func reg nb prefixScan) n i s).1.calls
          = s.1.calls ++ new ∧
        (addrLoop (scanPoint T verbose addrScan func reg nb prefixScan) n i s).1.ctx
          = T.after s.1.ctx new ∧
        (addrLoop (scanPoint T verbose addrScan func reg nb prefixScan) n i s).1.err
          = s.1.err ∧
        ∀ c ∈ new, c.isConnect = false := by
  induction n with
  | zero => intro i s; exact ⟨[], by simp [addrLoop], rfl, rfl, by simp⟩
  | succ n ih =>
    intro i s
    obtain ⟨n1, a1, a2, a3, a4⟩ := scanPoint_log T verbose addrScan func reg nb prefixScan i s
    obtain ⟨n2, b1, b2, b3, b4⟩ := ih (i + 1)
      (scanPoint T verbose addrScan func reg nb prefixScan i s)
    simp only [addrLoop]
    refine ⟨n1 ++ n2, by rw [b1, a1, List.append_assoc], by rw [b2, a2, after_append],
      by rw [b3, a3], ?_⟩
    intro c hc
    rcases List.mem_append.1 hc with hc | hc
    · exact a4 c hc
    · exact b4 c hc

/-- one connection: either it is accepted and the session runs on, or it is
refused and the session ends main with -1 after modbus_free -/
theorem session_log {σ : Type} (T : Modbus σ) (a : Args) (q : Request)
    (debugFlag : Bool) (prefixScan : String) (s : World σ × Data) :
    RunLog T s.1 (session T a q debugFlag prefixScan s).1
      (session T a q debugFlag prefixScan s).2.2 := by
  unfold session
  simp only
  split_ifs with h
  · refine ⟨[.modbus_set_debug debugFlag,
        .modbus_set_response_timeout 0 (wrap32 (a.toutVal * 1000)), .modbus_connect,
        .modbus_free], by simp [invoke, eprint], rfl, rfl,
      [.modbus_set_debug debugFlag,
        .modbus_set_response_timeout 0 (wrap32 (a.toutVal * 1000))], rfl, rfl, h, rfl⟩
  · have h0 : (invoke T (invoke T (invoke T s.1 (.modbus_set_debug debugFlag)).1
        (.modbus_set_response_timeout 0 (wrap32 (a.toutVal * 1000)))).1
        .modbus_connect).2.ret = 0 := by
      by_contra hne
      exact h hne
    have g1 : RunLog T s.1 (invoke T (invoke T (invoke T s.1 (.modbus_set_debug debugFlag)).1
        (.modbus_set_response_timeout 0 (wrap32 (a.toutVal * 1000)))).1
        .modbus_connect).1 (.next ()) := by
      refine ⟨[.modbus_set_debug debugFlag,
        .modbus_set_response_timeout 0 (wrap32 (a.toutVal * 1000)), .modbus_connect],
        by simp [invoke], rfl, ?_, rfl⟩
      simp only [invoke] at h0
      simp [connectsOk, Call.isConnect, h0]
    obtain ⟨new, p1, p2, p3, p4⟩ := addrLoop_log T a.debug (decide (q.addrEnd ≠ q.addrStart))
      q.func q.reg q.nb prefixScan (q.addrEnd + 1 - q.addrStart).toNat q.addrStart
      ((invoke T (invoke T (invoke T s.1 (.modbus_set_debug debugFlag)).1
        (.modbus_set_response_timeout 0 (wrap32 (a.toutVal * 1000)))).1 .modbus_connect).1,
        { ret := -1, isWriteFunction := false, dataType := q.dataType, data := s.2 })
    have g2 := RunLog_calls T _ _ new p1 p2 p3 p4
    refine RunLog_trans T _ _ _ _ (RunLog_trans T _ _ _ _ g1 g2) ?_
    exact RunLog_calls T _ _ [.modbus_close, .modbus_free]
      (by simp only [invoke, List.append_assoc]; rfl) rfl rfl (by simp [Call.isConnect])

/-- the parity loop ends at the first refused connection -/
theorem parityLoop_log {σ : Type} (T : Modbus σ) (a : Args) (q : Request)
    (scanMode : Bool) (baud : Int) (prefixLen : Nat) (ps : List Char) :
    ∀ (s : World σ × Data × List Char),
      RunLog T s.1 (parityLoop T a q scanMode baud prefixLen ps s).1
        (parityLoop T a q scanMode baud prefixLen ps s).2.2.2 := by
  induction ps with
  | nil => intro s; exact RunLog_refl T s.1
  | cons p ps ih =>
    intro s
    have h1 : RunLog T s.1
        (invoke T s.1 (.modbus_new_rtu a.dev baud p.toUpper a.dbitVal a.sbitVal)).1
        (.next ()) :=
      RunLog_calls T _ _ [.modbus_new_rtu a.dev baud p.toUpper a.dbitVal a.sbitVal] rfl rfl rfl
        (by simp [Call.isConnect])
    have h2 := session_log T a q (decide (a.debug > 1))
      (String.mk (if scanMode then parityPrefix s.2.2 prefixLen p.toUpper else s.2.2))
      ((invoke T s.1 (.modbus_new_rtu a.dev baud p.toUpper a.dbitVal a.sbitVal)).1, s.2.1)
    simp only [parityLoop]
    generalize session T a q (decide (a.debug > 1))
      (String.mk (if scanMode then parityPrefix s.2.2 prefixLen p.toUpper else s.2.2))
      ((invoke T s.1 (.modbus_new_rtu a.dev baud p.toUpper a.dbitVal a.sbitVal)).1, s.2.1) = r
        at h2
    obtain ⟨w2, d2, fl⟩ := r
    simp only at h2
    cases fl with
    | exit status =>
      simp only
      exact RunLog_trans T _ _ _ _ h1 h2
    | next v =>
      simp only
      exact RunLog_trans T _ _ _ _ (RunLog_trans T _ _ _ _ h1 h2)
        (ih (w2, d2, (if scanMode then parityPrefix s.2.2 prefixLen p.toUpper else s.2.2)))

/-- the baud loop ends at the first refused connection -/
theorem baudLoop_log {σ : Type} (T : Modbus σ) (a : Args) (q : Request)
    (scanMode : Bool) (bs : List Int) :
    ∀ (prefixLen : Nat) (s : World σ × Data × List Char),
      RunLog T s.1 (baudLoop T a q scanMode prefixLen bs s).1
        (baudLoop T a q scanMode prefixLen bs s).2.2.2 := by
  induction bs with
  | nil => intro prefixLen s; exact RunLog_refl T s.1
  | cons b bs ih =>
    intro prefixLen s
    have h1 := parityLoop_log T a q scanMode b
      (if scanMode then (baudPrefix b).length else prefixLen) a.parityVal
      (s.1, s.2.1, if scanMode then baudPrefix b else s.2.2)
    simp only [baudLoop]
    generalize parityLoop T a q scanMode b
      (if scanMode then (baudPrefix b).length else prefixLen) a.parityVal
      (s.1, s.2.1, if scanMode then baudPrefix b else s.2.2) = r at h1
    obtain ⟨w2, d2, pb, fl⟩ := r
    simp only at h1
    cases fl with
    | exit status =>
      simp only
      exact h1
    | next v =>
      simp only
      exact RunLog_trans T _ _ _ _ h1
        (ih (if scanMode then (baudPrefix b).length else prefixLen) (w2, d2, pb))

/-- a serial run that built its request: status 0 after accepted connections
only, or status -1 with a log that ends at the first refused connection -/
theorem main_rtu_log {σ : Type} (T : Modbus σ) (u : Undef) (a : Args) (ctx : σ)
    (q : Request) (st : List Store) (out : List Printf) (hp : prepare u a = .ok (q, st, out))
    (hr : a.rtu = true) :
    (main T u a ctx).1.ctx = T.after ctx (main T u a ctx).1.calls ∧
    (((main T u a ctx).2 = 0 ∧
      connectsOk T ctx (main T u a ctx).1.calls = true ∧ (main T u a ctx).1.err = []) ∨
    ((main T u a ctx).2 = -1 ∧
      ∃ pre, (main T u a ctx).1.calls = pre ++ [.modbus_connect, .modbus_free] ∧
        connectsOk T ctx pre = true ∧
        (T.step (T.after ctx pre) .modbus_connect).2.ret ≠ 0 ∧
        (main T u a ctx).1.err
          = [.connectionFailed (T.strerror (T.step (T.after ctx pre) .modbus_connect).1)])) := by
  unfold main
  simp only [hp]
  unfold connectAndRun
  simp only [hr, if_true]
  have h := baudLoop_log T a q (decide (a.baud.length > 1 ∨ a.parityVal.length > 1))
    a.baud 0 ({ ctx := ctx, calls := [], out := out, err := [] }, q.data, [])
  generalize baudLoop T a q (decide (a.baud.length > 1 ∨ a.parityVal.length > 1))
    0 a.baud ({ ctx := ctx, calls := [], out := out, err := [] }, q.data, []) = r at h
  obtain ⟨w2, d2, pb, fl⟩ := r
  obtain ⟨new, h1, h2, h3⟩ := h
  simp only [List.nil_append] at h1 h2 h3
  cases fl with
  | next v =>
    obtain ⟨ok, he⟩ := h3
    exact ⟨by rw [h1]; exact h2, Or.inl ⟨rfl, by rw [h1]; exact ok, he⟩⟩
  | exit status =>
    obtain ⟨hst, pre, hnew, okp, hret, herr⟩ := h3
    subst hst
    exact ⟨by rw [h1]; exact h2,
      Or.inr ⟨rfl, pre, by rw [h1, hnew], okp, hret, by simpa using herr⟩⟩

/-- C11: in a serial run main builds the request, and a refused connection is
fatal to the whole run.  A session whose modbus_connect returns non-zero ends
main with -1 and makes no call but modbus_free afterwards.  For every
modbus_connect in the call log of the run that the transport answered with a
non-zero value (in the state the calls logged before it lead to): main
returns -1 (exit code 255, not 0), the only call after it is modbus_free, so
no later pair is tried, stderr holds the one line "Connection failed: " with
the error text of the transport, and the calls before it are the completed
pairs followed by modbus_new_rtu, modbus_set_debug and
modbus_set_response_timeout of the refused pair, on which no slave address
is bound and no transaction is issued.  The run ends with status 0 exactly
when every modbus_connect of its log was answered with 0, and then stderr is
empty; the transport ends in the state the logged calls lead to.  On a
transport whose second connection fails, the sweep over 9600 and
19200 ends with status -1 after the second modbus_connect. -/
theorem connection_failure_fatal {σ : Type} (T : Modbus σ) (u : Undef) (a : Args) (ctx : σ)
    (haddr : ∀ start stop, a.addr = .range start stop → start < stop)
    (hfunc : a.func = 0x01 ∨ a.func = 0x02 ∨ a.func = 0x03 ∨ a.func = 0x04 ∨ a.func = 0x05 ∨
             a.func = 0x06 ∨ a.func = 0x0F ∨ a.func = 0x10)
    (hr : a.rtu = true) :
    (∃ q st out, prepare u a = .ok (q, st, out) ∧
      (∀ (debugFlag : Bool) (prefixScan : String) (s : World σ × Data),
        (T.step (T.step (T.step s.1.ctx (.modbus_set_debug debugFlag)).1
          (.modbus_set_response_timeout 0 (wrap32 (a.toutVal * 1000)))).1
          .modbus_connect).2.ret ≠ 0 →
        (session T a q debugFlag prefixScan s).2.2 = .exit (-1) ∧
        (session T a q debugFlag prefixScan s).1.calls
          = s.1.calls ++ [.modbus_set_debug debugFlag,
              .modbus_set_response_timeout 0 (wrap32 (a.toutVal * 1000)), .modbus_connect,
              .modbus_free]) ∧
      (∀ pre post, (main T u a ctx).1.calls = pre ++ .modbus_connect :: post →
        (T.step (T.after ctx pre) .modbus_connect).2.ret ≠ 0 →
        ∃ doneB b restB doneP p restP,
          a.baud = doneB ++ b :: restB ∧ a.parityVal = doneP ++ p :: restP ∧
          pre.map Call.forget
            = doneB.flatMap (fun b => a.parityVal.flatMap (fun p =>
                [.modbus_new_rtu a.dev b p.toUpper a.dbitVal a.sbitVal,
                 .modbus_set_debug (decide (a.debug > 1)),
                 .modbus_set_response_timeout 0 (wrap32 (a.toutVal * 1000)),
                 .modbus_connect] ++ scanCalls q q.data ++ [.modbus_close, .modbus_free])) ++
              doneP.flatMap (fun p =>
                [.modbus_new_rtu a.dev b p.toUpper a.dbitVal a.sbitVal,
                 .modbus_set_debug (decide (a.debug > 1)),
                 .modbus_set_response_timeout 0 (wrap32 (a.toutVal * 1000)),
                 .modbus_connect] ++ scanCalls q q.data ++ [.modbus_close, .modbus_free]) ++
              [.modbus_new_rtu a.dev b p.toUpper a.dbitVal a.sbitVal,
               .modbus_set_debug (decide (a.debug > 1)),
               .modbus_set_response_timeout 0 (wrap32 (a.toutVal * 1000))])) ∧
    (∀ pre post, (main T u a ctx).1.calls = pre ++ .modbus_connect :: post →
      (T.step (T.after ctx pre) .modbus_connect).2.ret ≠ 0 →
      (main T u a ctx).2 = -1 ∧ (main T u a ctx).2 % 256 = 255 ∧ post = [.modbus_free] ∧
      (main T u a ctx).1.err
        = [.connectionFailed (T.strerror (T.step (T.after ctx pre) .modbus_connect).1)] ∧
      renderAll (main T u a ctx).1.err
        = "Connection failed: " ++
            T.strerror (T.step (T.after ctx pre) .modbus_connect).1 ++ "\n") ∧
    ((main T u a ctx).2 = 0 ↔
      ∀ pre post, (main T u a ctx).1.calls = pre ++ .modbus_connect :: post →
        (T.step (T.after ctx pre) .modbus_connect).2.ret = 0) ∧
    ((main T u a ctx).2 = 0 → (main T u a ctx).1.err = []) ∧
    (main T u a ctx).1.ctx = T.after ctx (main T u a ctx).1.calls ∧
    (main flakyTransport demoUndef sweepArgs 0).2 = -1 ∧
    (main flakyTransport demoUndef sweepArgs 0).1.calls =
      [.modbus_new_rtu "/dev/ttyS0" 9600 'E' 8 1, .modbus_set_debug false,
       .modbus_set_response_timeout 0 1000000, .modbus_connect, .modbus_set_slave 3,
       .modbus_read_registers 0 3 [0, 0, 0], .modbus_close, .modbus_free,
       .modbus_new_rtu "/dev/ttyS0" 19200 'E' 8 1, .modbus_set_debug false,
       .modbus_set_response_timeout 0 1000000, .modbus_connect, .modbus_free] := by
  obtain ⟨q, st, out, hp⟩ := prepare_total u a haddr hfunc
  obtain ⟨hctx, hlog⟩ := main_rtu_log T u a ctx q st out hp hr
  have hfatal : ∀ pre post, (main T u a ctx).1.calls = pre ++ .modbus_connect :: post →
      (T.step (T.after ctx pre) .modbus_connect).2.ret ≠ 0 →
      (main T u a ctx).2 = -1 ∧
      (main T u a ctx).1.calls = pre ++ [.modbus_connect, .modbus_free] ∧
      post = [.modbus_free] ∧
      (main T u a ctx).1.err
        = [.connectionFailed (T.strerror (T.step (T.after ctx pre) .modbus_connect).1)] := by
    intro pre post hd hret
    rcases hlog with ⟨-, ok, -⟩ | ⟨hst, pre0, hc, okp, -, herr⟩
    · exact absurd ((connectsOk_iff T _ ctx).1 ok pre post hd) hret
    · obtain ⟨g1, g2⟩ := refusal_unique T pre0 ctx pre post okp (by rw [← hc, hd]) hret
      subst g1
      exact ⟨hst, hc, g2, herr⟩
  refine ⟨⟨q, st, out, hp, ?_, ?_⟩, ?_, ?_, ?_, hctx, by decide, by decide⟩
  · intro debugFlag prefixScan s hfail
    exact session_refused T a q debugFlag prefixScan s hfail
  · intro pre post hd hret
    obtain ⟨hst, hc, -, -⟩ := hfatal pre post hd hret
    rcases main_rtu_outcome T u a ctx q st out hp hr with ⟨h0, -⟩ | ⟨-, h2⟩
    · rw [hst] at h0
      exact absurd h0 (by decide)
    · obtain ⟨doneB, b, restB, doneP, p, restP, msg, e1, e2, e3, -⟩ := h2
      refine ⟨doneB, b, restB, doneP, p, restP, e1, e2, ?_⟩
      rw [hc, List.map_append] at e3
      have e4 : List.map Call.forget pre ++ [.modbus_connect, .modbus_free]
          = (doneB.flatMap (fun b => a.parityVal.flatMap (fun p =>
                .modbus_new_rtu a.dev b p.toUpper a.dbitVal a.sbitVal ::
                  sessionCalls a q q.data (decide (a.debug > 1)))) ++
              doneP.flatMap (fun p =>
                .modbus_new_rtu a.dev b p.toUpper a.dbitVal a.sbitVal ::
                  sessionCalls a q q.data (decide (a.debug > 1))) ++
              [.modbus_new_rtu a.dev b p.toUpper a.dbitVal a.sbitVal,
               .modbus_set_debug (decide (a.debug > 1)),
               .modbus_set_response_timeout 0 (wrap32 (a.toutVal * 1000))]) ++
            [.modbus_connect, .modbus_free] := by
        have e5 : List.map Call.forget [Call.modbus_connect, Call.modbus_free]
            = [Call.modbus_connect, Call.modbus_free] := rfl
        rw [e5] at e3
        rw [e3]
        simp
      rw [List.append_cancel_right e4]
      simp [sessionCalls]
  · intro pre post hd hret
    obtain ⟨hst, -, hpost, herr⟩ := hfatal pre post hd hret
    refine ⟨hst, by rw [hst]; decide, hpost, herr, ?_⟩
    rw [herr]
    simp [renderAll, Printf.render, String.join]
  · constructor
    · intro h0
      rcases hlog with ⟨-, ok, -⟩ | ⟨hst, -⟩
      · exact (connectsOk_iff T _ ctx).1 ok
      · rw [hst] at h0
        exact absurd h0 (by decide)
    · intro hall
      rcases hlog with ⟨h0, -⟩ | ⟨-, pre0, hc, -, hret, -⟩
      · exact h0
      · exact absurd (hall pre0 [.modbus_free] hc) hret
  · intro h0
    rcases hlog with ⟨-, -, he⟩ | ⟨hst, -⟩
    · exact he
    · rw [hst] at h0
      exact absurd h0 (by decide)

/-- C14: for Read Discrete Inputs a scan point binds the slave address, makes
no read or write call and prints the line "not implemented yet"; but for
`tcp -a 1 -r 0 -f 2 -c -1` the unit count -1 equals the initial value of
`ret`, and main prints the success report after that line. -/
theorem discrete_input_success :
    (∀ {σ : Type} (T : Modbus σ) (verbose : Nat) (addrScan : Bool) (reg nb : Int)
       (prefixScan : String) (i : Int) (s : World σ × Local),
      (scanPoint T verbose addrScan 0x02 reg nb prefixScan i s).1.calls
        = s.1.calls ++ [.modbus_set_slave i]) ∧
    (main demoTransport demoUndef discreteArgs 0).1.calls =
      [.modbus_new_tcp "127.0.0.1" 502, .modbus_set_debug false,
       .modbus_set_response_timeout 0 1000000, .modbus_connect, .modbus_set_slave 1,
       .modbus_close, .modbus_free] ∧
    (main demoTransport demoUndef discreteArgs 0).1.out
      = [.notImplemented, .successRead (-1), .hex04Int 0] ∧
    renderAll (main demoTransport demoUndef discreteArgs 0).1.out
      = "ReadDiscreteInput: not implemented yet!\nSUCCESS: read -1 of elements:\n\tData: 0x0000\n"
    := by
  refine ⟨?_, by decide, by decide, by decide⟩
  intro σ T verbose addrScan reg nb prefixScan i s
  rw [(scanPoint_calls T verbose addrScan 0x02 reg nb prefixScan i s).1]
  simp [transaction]

/-- C17: in the sweep `rtu -a 3 -r 0 -f 3 -c 3 -b 9600 -b 19200 -p E` over one
address both connections report a success, and neither report names the baud
rate, the parity or the address: the output of the two connections is the
same text.  With the address range 3.4 the same sweep prints the address
line with the text "Baudrate:9600 Parity:E " in front before the report. -/
theorem sweep_success_unidentified :
    (main demoTransport demoUndef sweepArgs 0).1.out
      = [.successRead 3, .hex04 1, .hex04 2, .hex04 3, .newline,
         .successRead 3, .hex04 1, .hex04 2, .hex04 3, .newline] ∧
    renderAll (main demoTransport demoUndef sweepArgs 0).1.out
      = "SUCCESS: read 3 of elements:\n\tData: 0x0001 0x0002 0x0003 \n" ++
        "SUCCESS: read 3 of elements:\n\tData: 0x0001 0x0002 0x0003 \n" ∧
    (main demoTransport demoUndef { sweepArgs with addr := .range 3 4 } 0).1.out
      = [.address "Baudrate:9600 Parity:E " 3, .successRead 3, .hex04 1, .hex04 2, .hex04 3,
         .newline, .address "Baudrate:19200 Parity:E " 3, .successRead 3, .hex04 1, .hex04 2,
         .hex04 3, .newline] := by
  refine ⟨by decide, by decide, by decide⟩

/-- C18: with one -v flag (verbosity 1) the TCP branch of main calls
modbus_set_debug with the flag on, while the serial branch calls it with the
flag off; at verbosity 0 both pass off, at verbosity 2 both pass on. -/
theorem tcp_debug_at_verbosity_one :
    (main demoTransport demoUndef verboseTcpArgs 0).1.calls =
      [.modbus_new_tcp "127.0.0.1" 502, .modbus_set_debug true,
       .modbus_set_response_timeout 0 1000000, .modbus_connect, .modbus_set_slave 3,
       .modbus_read_registers 0 3 [0, 0, 0], .modbus_close, .modbus_free] ∧
    (main demoTransport demoUndef verboseRtuArgs 0).1.calls =
      [.modbus_new_rtu "/dev/ttyS0" 9600 'E' 8 1, .modbus_set_debug false,
       .modbus_set_response_timeout 0 1000000, .modbus_connect, .modbus_set_slave 3,
       .modbus_read_registers 0 3 [0, 0, 0], .modbus_close, .modbus_free] ∧
    (main demoTransport demoUndef { verboseTcpArgs with debug := 0 } 0).1.calls[1]?
      = some (.modbus_set_debug false) ∧
    (main demoTransport demoUndef { verboseRtuArgs with debug := 0 } 0).1.calls[1]?
      = some (.modbus_set_debug false) ∧
    (main demoTransport demoUndef { verboseTcpArgs with debug := 2 } 0).1.calls[1]?
      = some (.modbus_set_debug true) ∧
    (main demoTransport demoUndef { verboseRtuArgs with debug := 2 } 0).1.calls[1]?
      = some (.modbus_set_debug true) := by
  decide

/-! ### The theorems of the second part at concrete inputs -/

theorem connection_failure_fatal_witness :
    (∀ start stop, sweepArgs.addr = .range start stop → start < stop) ∧
    sweepArgs.rtu = true ∧
    (main flakyTransport demoUndef sweepArgs 0).1.calls
      = [.modbus_new_rtu "/dev/ttyS0" 9600 'E' 8 1, .modbus_set_debug false,
         .modbus_set_response_timeout 0 1000000, .modbus_connect, .modbus_set_slave 3,
         .modbus_read_registers 0 3 [0, 0, 0], .modbus_close, .modbus_free,
         .modbus_new_rtu "/dev/ttyS0" 19200 'E' 8 1, .modbus_set_debug false,
         .modbus_set_response_timeout 0 1000000] ++ .modbus_connect :: [.modbus_free] ∧
    (main flakyTransport demoUndef sweepArgs 0).2 = -1 ∧
    (main flakyTransport demoUndef sweepArgs 0).1.err
      = [.connectionFailed "No such file or directory"] :=
  ⟨fun _ _ h => AddrArg.noConfusion h, rfl, by decide,
   ((connection_failure_fatal flakyTransport demoUndef sweepArgs 0
      (fun _ _ h => AddrArg.noConfusion h) (by decide) rfl).2.1
      [.modbus_new_rtu "/dev/ttyS0" 9600 'E' 8 1, .modbus_set_debug false,
       .modbus_set_response_timeout 0 1000000, .modbus_connect, .modbus_set_slave 3,
       .modbus_read_registers 0 3 [0, 0, 0], .modbus_close, .modbus_free,
       .modbus_new_rtu "/dev/ttyS0" 19200 'E' 8 1, .modbus_set_debug false,
       .modbus_set_response_timeout 0 1000000] [.modbus_free] (by decide) (by decide)).1,
   ((connection_failure_fatal flakyTransport demoUndef sweepArgs 0
      (fun _ _ h => AddrArg.noConfusion h) (by decide) rfl).2.1
      [.modbus_new_rtu "/dev/ttyS0" 9600 'E' 8 1, .modbus_set_debug false,
       .modbus_set_response_timeout 0 1000000, .modbus_connect, .modbus_set_slave 3,
       .modbus_read_registers 0 3 [0, 0, 0], .modbus_close, .modbus_free,
       .modbus_new_rtu "/dev/ttyS0" 19200 'E' 8 1, .modbus_set_debug false,
       .modbus_set_response_timeout 0 1000000] [.modbus_free] (by decide)
      (by decide)).2.2.2.1⟩

theorem positive_count_classification_witness :
    (∀ start stop, demoArgs.addr = .range start stop → start < stop) ∧
    ∃ q st out, prepare demoUndef demoArgs = .ok (q, st, out) ∧
      (0 < q.nb ↔ 0 < demoArgs.count.getD 1) :=
  ⟨fun _ _ h => AddrArg.noConfusion h,
   (positive_count_classification demoTransport demoUndef demoArgs
      (fun _ _ h => AddrArg.noConfusion h) (by decide)).elim
     (fun q h => h.elim (fun st h => h.elim (fun out h =>
       ⟨q, st, out, h.1, h.2.2.2.1 (Or.inr (Or.inr (Or.inl rfl)))⟩)))⟩

/-! ### The array `prefix` of the serial branch -/

/-- Conversion "%d" of a 32-bit int takes at most 11 characters. -/
theorem fmt_d_length (i : Int) (hmin : INT_MIN ≤ i) (hmax : i ≤ INT_MAX) :
    (fmt_d i).length ≤ 11 := by
  unfold INT_MIN at hmin
  unfold INT_MAX at hmax
  unfold fmt_d
  cases i with
  | ofNat n =>
    have h : (Nat.repr n).length ≤ 10 := Nat.repr_length n 10 (by decide) (by
      have : (n : Int) ≤ 2 ^ 31 - 1 := hmax
      omega)
    show (Nat.repr n).length ≤ 11
    omega
  | negSucc n =>
    have h : (Nat.repr (n + 1)).length ≤ 10 := Nat.repr_length (n + 1) 10 (by decide) (by
      have : -(2 ^ 31 : Int) ≤ Int.negSucc n := hmin
      have h2 : Int.negSucc n = -((n : Int) + 1) := rfl
      omega)
    show ("-" ++ Nat.repr (n + 1)).length ≤ 11
    rw [String.length_append]
    have : "-".length = 1 := rfl
    omega

theorem baudPrefix_length (baud : Int) :
    (baudPrefix baud).length = (fmt_d baud).length + 10 := by
  unfold baudPrefix
  simp [String.length_append]


/-- sprintf at the end of the baud part: the array then holds the baud part
followed by the parity part -/
theorem parityPrefix_eq (baud : Int) (prefixBuf : List Char) (p : Char)
    (hbuf : prefixBuf.take (baudPrefix baud).length = baudPrefix baud) :
    parityPrefix prefixBuf (baudPrefix baud).length p
      = baudPrefix baud ++ ("Parity:".toList ++ [p, ' ']) := by
  unfold parityPrefix
  rw [hbuf]

theorem parityPrefix_take (baud : Int) (prefixBuf : List Char) (p : Char)
    (hbuf : prefixBuf.take (baudPrefix baud).length = baudPrefix baud) :
    (parityPrefix prefixBuf (baudPrefix baud).length p).take (baudPrefix baud).length
      = baudPrefix baud := by
  rw [parityPrefix_eq baud prefixBuf p hbuf, List.take_left']
  rfl

theorem parityPrefix_length (baud : Int) (prefixBuf : List Char) (p : Char)
    (hbuf : prefixBuf.take (baudPrefix baud).length = baudPrefix baud) :
    (parityPrefix prefixBuf (baudPrefix baud).length p).length
      = (baudPrefix baud).length + 9 := by
  rw [parityPrefix_eq baud prefixBuf p hbuf]
  simp

/-- the success report has no address line -/
theorem successReport_scanPrefix (nb : Int) (l : Local) :
    ∀ x ∈ successReport nb l, x.scanPrefix = "" := by
  intro x hx
  unfold successReport at hx
  split_ifs at hx <;> simp at hx <;> aesop

/-- what the verbose fill loop appends -/
theorem say_out (f : Fill) (verbose : Nat) (p : Printf) (x : Printf)
    (hx : x ∈ (f.say verbose p).out) : x ∈ f.out ∨ x = p := by
  unfold Fill.say at hx
  split_ifs at hx
  · simpa using hx
  · exact Or.inl hx

theorem fillStep8_scanPrefix (verbose : Nat) (wDataType : WriteDataType) (ival : List Int)
    (i : Nat) (f : Fill) (hf : ∀ x ∈ f.out, x.scanPrefix = "") :
    ∀ x ∈ (fillStep8 verbose wDataType ival i f).out, x.scanPrefix = "" := by
  intro x hx
  unfold fillStep8 at hx
  split_ifs at hx
  · rcases say_out _ _ _ _ hx with h1 | h1
    · exact hf x h1
    · subst h1; rfl
  · exact hf x hx

theorem fillStep16_scanPrefix (verbose : Nat) (wDataType : WriteDataType) (ival : List Int)
    (i : Nat) (f : Fill) (hf : ∀ x ∈ f.out, x.scanPrefix = "") :
    ∀ x ∈ (fillStep16 verbose wDataType ival i f).out, x.scanPrefix = "" := by
  intro x hx
  unfold fillStep16 at hx
  split_ifs at hx
  · rcases say_out _ _ _ _ hx with h1 | h1
    · exact hf x h1
    · subst h1; rfl
  · exact hf x hx

/-- the fill loop prints no address line -/
theorem fillLoop_scanPrefix (verbose : Nat) (wDataType : WriteDataType) (ival : List Int)
    (n : Nat) : ∀ (i : Nat) (f : Fill), (∀ x ∈ f.out, x.scanPrefix = "") →
      ∀ x ∈ (fillLoop verbose wDataType ival n i f).out, x.scanPrefix = "" := by
  induction n with
  | zero => intro i f hf; simpa [fillLoop] using hf
  | succ n ih =>
    intro i f hf x hx
    unfold fillLoop at hx
    split_ifs at hx with h
    · rcases say_out _ _ _ _ hx with h1 | h1
      · exact hf x h1
      · subst h1; rfl
    · exact ih (i + 1) _ (fillStep16_scanPrefix verbose wDataType ival i _
        (fillStep8_scanPrefix verbose wDataType ival i f hf)) x hx

/-- the population of the buffer prints no address line -/
theorem fillData_scanPrefix (verbose : Nat) (wDataType : WriteDataType) (wr : Bool)
    (ival : List Int) (data : Data) :
    ∀ x ∈ (fillData verbose wDataType wr ival data).out, x.scanPrefix = "" := by
  intro x hx
  unfold fillData at hx
  split_ifs at hx
  · rcases say_out _ _ _ _ hx with h1 | h1
    · refine fillLoop_scanPrefix verbose wDataType ival _ 0 _ ?_ x h1
      intro y hy
      rcases say_out _ _ _ _ hy with h2 | h2
      · simp at h2
      · subst h2; rfl
    · subst h1; rfl
  · simp at hx

/-- what main prints before it connects has no address line -/
theorem prepare_scanPrefix (u : Undef) (a : Args) :
    match prepare u a with
    | .error out => ∀ x ∈ out, x.scanPrefix = ""
    | .ok (_, _, out) => ∀ x ∈ out, x.scanPrefix = "" := by
  unfold prepare
  split_ifs
  · intro x hx; simp at hx; subst hx; rfl
  · cases chooseDataType a.func with
    | none => intro x hx; simp at hx; subst hx; rfl
    | some p =>
      obtain ⟨ty, wr⟩ := p
      exact fillData_scanPrefix _ _ _ _ _

/-- the switch prints no address line -/
theorem dispatch_scanPrefix {σ : Type} (T : Modbus σ) (func reg nb : Int)
    (s : World σ × Local) (Q : String → Prop) (h0 : Q "")
    (hs : ∀ x ∈ s.1.out, Q x.scanPrefix) :
    ∀ x ∈ (dispatch T func reg nb s).1.out, Q x.scanPrefix := by
  intro x hx
  unfold dispatch at hx
  split_ifs at hx <;> try simp only [invoke, print, List.mem_append, List.mem_singleton] at hx
  all_goals first
    | exact hs x hx
    | (rcases hx with hx | hx
       · exact hs x hx
       · subst hx; exact h0)

/-- the address line of a scan point carries the prefix passed to
process_request, every other line none -/
theorem report_scanPrefix {σ : Type} (T : Modbus σ) (verbose : Nat) (addrScan : Bool)
    (nb : Int) (prefixScan : String) (i : Int) (s : World σ × Local)
    (Q : String → Prop) (h0 : Q "") (hp : Q prefixScan)
    (hs : ∀ x ∈ s.1.out, Q x.scanPrefix) :
    ∀ x ∈ (report T verbose addrScan nb prefixScan i s).1.out, Q x.scanPrefix := by
  intro x hx
  rw [report_out] at hx
  simp only [List.mem_append] at hx
  rcases hx with hx | hx | hx
  · exact hs x hx
  · split_ifs at hx
    · simp at hx; subst hx; exact hp
    · simp at hx
  · split_ifs at hx
    · rw [successReport_scanPrefix nb s.2 x hx]; exact h0
    · simp at hx; subst hx; exact h0
    · simp at hx

theorem scanPoint_scanPrefix {σ : Type} (T : Modbus σ) (verbose : Nat) (addrScan : Bool)
    (func reg nb : Int) (prefixScan : String) (i : Int) (s : World σ × Local)
    (Q : String → Prop) (h0 : Q "") (hp : Q prefixScan)
    (hs : ∀ x ∈ s.1.out, Q x.scanPrefix) :
    ∀ x ∈ (scanPoint T verbose addrScan func reg nb prefixScan i s).1.out, Q x.scanPrefix := by
  unfold scanPoint
  exact report_scanPrefix T verbose addrScan nb prefixScan i _ Q h0 hp
    (dispatch_scanPrefix T func reg nb _ Q h0 hs)

theorem addrLoop_scanPrefix {σ : Type} (T : Modbus σ) (verbose : Nat) (addrScan : Bool)
    (func reg nb : Int) (prefixScan : String) (Q : String → Prop) (h0 : Q "")
    (hp : Q prefixScan) (n : Nat) :
    ∀ (i : Int) (s : World σ × Local), (∀ x ∈ s.1.out, Q x.scanPrefix) →
      ∀ x ∈ (addrLoop (scanPoint T verbose addrScan func reg nb prefixScan) n i s).1.out,
        Q x.scanPrefix := by
  induction n with
  | zero => intro i s hs; simpa [addrLoop] using hs
  | succ n ih =>
    intro i s hs
    simp only [addrLoop]
    exact ih (i + 1) _ (scanPoint_scanPrefix T verbose addrScan func reg nb prefixScan i s Q h0
      hp hs)

/-- every line a connection prints carries the prefix of that connection or
none -/
theorem session_scanPrefix {σ : Type} (T : Modbus σ) (a : Args) (q : Request)
    (debugFlag : Bool) (prefixScan : String) (s : World σ × Data)
    (Q : String → Prop) (h0 : Q "") (hp : Q prefixScan)
    (hs : ∀ x ∈ s.1.out, Q x.scanPrefix) :
    ∀ x ∈ (session T a q debugFlag prefixScan s).1.out, Q x.scanPrefix := by
  unfold session
  simp only
  split_ifs with h
  · exact hs
  · unfold process_request
    exact addrLoop_scanPrefix T a.debug _ q.func q.reg q.nb prefixScan Q h0 hp _ _ _ hs

/-- the parity loop: every line printed carries the prefix of its connection
or none, and the array holds what the last sprintf left in it -/
theorem parityLoop_scanPrefix {σ : Type} (T : Modbus σ) (a : Args) (q : Request)
    (scanMode : Bool) (baud : Int) (prefixLen : Nat) (Q : String → Prop) (h0 : Q "")
    (hlen : scanMode = true → prefixLen = (baudPrefix baud).length) (ps : List Char)
    (hp : ∀ p ∈ ps,
      Q (String.mk (baudPrefix baud ++ ("Parity:".toList ++ [p.toUpper, ' '])))) :
    ∀ (s : World σ × Data × List Char),
      (scanMode = true → s.2.2.take (baudPrefix baud).length = baudPrefix baud) →
      (scanMode = false → s.2.2 = []) →
      (∀ x ∈ s.1.out, Q x.scanPrefix) →
      (∀ x ∈ (parityLoop T a q scanMode baud prefixLen ps s).1.out, Q x.scanPrefix) ∧
      (scanMode = false → (parityLoop T a q scanMode baud prefixLen ps s).2.2.1 = s.2.2) ∧
      ((parityLoop T a q scanMode baud prefixLen ps s).2.2.1 = s.2.2 ∨
        ∃ p ∈ ps, (parityLoop T a q scanMode baud prefixLen ps s).2.2.1
          = baudPrefix baud ++ ("Parity:".toList ++ [p.toUpper, ' '])) := by
  induction ps with
  | nil => intro s _ _ hs; simpa [parityLoop] using hs
  | cons p ps ih =>
    intro s h1 h2 hs
    have hbuf :
        Q (String.mk (if scanMode then parityPrefix s.2.2 prefixLen p.toUpper else s.2.2)) ∧
        (scanMode = true →
          (if scanMode then parityPrefix s.2.2 prefixLen p.toUpper else s.2.2).take
            (baudPrefix baud).length = baudPrefix baud) ∧
        (scanMode = false →
          (if scanMode then parityPrefix s.2.2 prefixLen p.toUpper else s.2.2) = s.2.2) ∧
        ((if scanMode then parityPrefix s.2.2 prefixLen p.toUpper else s.2.2) = s.2.2 ∨
          (if scanMode then parityPrefix s.2.2 prefixLen p.toUpper else s.2.2)
            = baudPrefix baud ++ ("Parity:".toList ++ [p.toUpper, ' '])) := by
      cases scanMode with
      | false =>
        refine ⟨?_, fun h => by simp at h, fun _ => by simp, Or.inl (by simp)⟩
        simp only [Bool.false_eq_true, if_false, h2 rfl]
        exact h0
      | true =>
        simp only [if_true, hlen rfl]
        refine ⟨?_, fun _ => parityPrefix_take baud s.2.2 p.toUpper (h1 rfl),
          fun h => by simp at h, Or.inr (parityPrefix_eq baud s.2.2 p.toUpper (h1 rfl))⟩
        rw [parityPrefix_eq baud s.2.2 p.toUpper (h1 rfl)]
        exact hp p (List.mem_cons_self _ _)
    obtain ⟨hq, hb1, hb2, hb3⟩ := hbuf
    have hsess := session_scanPrefix T a q (decide (a.debug > 1))
      (String.mk (if scanMode then parityPrefix s.2.2 prefixLen p.toUpper else s.2.2))
      ((invoke T s.1 (.modbus_new_rtu a.dev baud p.toUpper a.dbitVal a.sbitVal)).1, s.2.1)
      Q h0 hq hs
    simp only [parityLoop]
    generalize session T a q (decide (a.debug > 1))
      (String.mk (if scanMode then parityPrefix s.2.2 prefixLen p.toUpper else s.2.2))
      ((invoke T s.1 (.modbus_new_rtu a.dev baud p.toUpper a.dbitVal a.sbitVal)).1, s.2.1) = r
        at hsess
    obtain ⟨w2, d2, fl⟩ := r
    simp only at hsess
    cases fl with
    | exit status =>
      simp only
      refine ⟨hsess, hb2, ?_⟩
      rcases hb3 with h | h
      · exact Or.inl h
      · exact Or.inr ⟨p, List.mem_cons_self _ _, h⟩
    | next v =>
      simp only
      obtain ⟨g1, g2, g3⟩ := ih (fun p' hp' => hp p' (List.mem_cons_of_mem _ hp'))
        (w2, d2, (if scanMode then parityPrefix s.2.2 prefixLen p.toUpper else s.2.2))
        hb1 (fun h => by rw [hb2 h]; exact h2 h) hsess
      refine ⟨g1, fun h => by rw [g2 h]; exact hb2 h, ?_⟩
      rcases g3 with g | ⟨p', hp', g⟩
      · rw [g]
        rcases hb3 with h | h
        · exact Or.inl h
        · exact Or.inr ⟨p, List.mem_cons_self _ _, h⟩
      · exact Or.inr ⟨p', List.mem_cons_of_mem _ hp', g⟩

/-- the baud loop: every line printed carries the prefix of its connection or
none, and the array holds what the last sprintf calls left in it -/
theorem baudLoop_scanPrefix {σ : Type} (T : Modbus σ) (a : Args) (q : Request)
    (scanMode : Bool) (Q : String → Prop) (h0 : Q "") (bs : List Int)
    (hp : ∀ b ∈ bs, ∀ p ∈ a.parityVal,
      Q (String.mk (baudPrefix b ++ ("Parity:".toList ++ [p.toUpper, ' '])))) :
    ∀ (prefixLen : Nat) (s : World σ × Data × List Char),
      (scanMode = false → s.2.2 = []) →
      (∀ x ∈ s.1.out, Q x.scanPrefix) →
      (∀ x ∈ (baudLoop T a q scanMode prefixLen bs s).1.out, Q x.scanPrefix) ∧
      ((baudLoop T a q scanMode prefixLen bs s).2.2.1 = s.2.2 ∨
        ∃ b ∈ bs, (baudLoop T a q scanMode prefixLen bs s).2.2.1 = baudPrefix b ∨
          ∃ p ∈ a.parityVal, (baudLoop T a q scanMode prefixLen bs s).2.2.1
            = baudPrefix b ++ ("Parity:".toList ++ [p.toUpper, ' '])) := by
  induction bs with
  | nil => intro prefixLen s _ hs; simpa [baudLoop] using hs
  | cons b bs ih =>
    intro prefixLen s h2 hs
    have hpar := parityLoop_scanPrefix T a q scanMode b
      (if scanMode then (baudPrefix b).length else prefixLen) Q h0
      (fun h => by simp [h]) a.parityVal (hp b (List.mem_cons_self _ _))
      (s.1, s.2.1, if scanMode then baudPrefix b else s.2.2)
      (fun h => by simp [h]) (fun h => by simp [h, h2 h]) hs
    have hstart : scanMode = true → (if scanMode then baudPrefix b else s.2.2) = baudPrefix b :=
      fun h => by simp [h]
    have hkeep : scanMode = false → (if scanMode then baudPrefix b else s.2.2) = s.2.2 :=
      fun h => by simp [h]
    simp only [baudLoop]
    generalize parityLoop T a q scanMode b
      (if scanMode then (baudPrefix b).length else prefixLen) a.parityVal
      (s.1, s.2.1, if scanMode then baudPrefix b else s.2.2) = r at hpar
    obtain ⟨w2, d2, pb, fl⟩ := r
    simp only at hpar
    obtain ⟨k1, k2, k3⟩ := hpar
    have hform : pb = s.2.2 ∨ ∃ b' ∈ b :: bs, pb = baudPrefix b' ∨
        ∃ p ∈ a.parityVal, pb = baudPrefix b' ++ ("Parity:".toList ++ [p.toUpper, ' ']) := by
      rcases k3 with k | ⟨p, hpm, k⟩
      · cases hsm : scanMode with
        | false => exact Or.inl (by rw [k, hkeep hsm])
        | true => exact Or.inr ⟨b, List.mem_cons_self _ _, Or.inl (by rw [k, hstart hsm])⟩
      · exact Or.inr ⟨b, List.mem_cons_self _ _, Or.inr ⟨p, hpm, k⟩⟩
    cases fl with
    | exit status =>
      simp only
      exact ⟨k1, hform⟩
    | next v =>
      simp only
      obtain ⟨g1, g2⟩ := ih (fun b' hb' => hp b' (List.mem_cons_of_mem _ hb'))
        (if scanMode then (baudPrefix b).length else prefixLen) (w2, d2, pb)
        (fun h => by
          show pb = []
          rw [k2 h, hkeep h]; exact h2 h) k1
      refine ⟨g1, ?_⟩
      rcases g2 with g | ⟨b', hb', g⟩
      · rw [g]; exact hform
      · exact Or.inr ⟨b', List.mem_cons_of_mem _ hb', g⟩

/-- every line of a run carries the prefix of one of its connections or
none -/
theorem main_scanPrefix {σ : Type} (T : Modbus σ) (u : Undef) (a : Args) (ctx : σ)
    (Q : String → Prop) (h0 : Q "")
    (hp : ∀ b ∈ a.baud, ∀ p ∈ a.parityVal,
      Q (String.mk (baudPrefix b ++ ("Parity:".toList ++ [p.toUpper, ' '])))) :
    ∀ x ∈ (main T u a ctx).1.out, Q x.scanPrefix := by
  have hprep := prepare_scanPrefix u a
  unfold main
  cases hpr : prepare u a with
  | error out =>
    rw [hpr] at hprep
    intro x hx
    rw [hprep x hx]; exact h0
  | ok v =>
    obtain ⟨q, st, out⟩ := v
    rw [hpr] at hprep
    simp only at hprep ⊢
    have hs : ∀ x ∈ ({ ctx := ctx, calls := [], out := out, err := [] } : World σ).out,
        Q x.scanPrefix := fun x hx => by rw [hprep x hx]; exact h0
    have hrun : ∀ x ∈ (connectAndRun T a q
        { ctx := ctx, calls := [], out := out, err := [] }).1.out, Q x.scanPrefix := by
      unfold connectAndRun
      split_ifs with hr
      · exact (baudLoop_scanPrefix T a q _ Q h0 a.baud hp 0 _ (fun _ => rfl) hs).1
      · exact session_scanPrefix T a q _ "" _ Q h0 h0 hs
    generalize connectAndRun T a q { ctx := ctx, calls := [], out := out, err := [] } = r
      at hrun
    obtain ⟨w, fl⟩ := r
    cases fl <;> exact hrun

/-- the text of the baud part -/
theorem baudPrefix_text (baud : Int) :
    String.mk (baudPrefix baud) = "Baudrate:" ++ fmt_d baud ++ " " := by
  unfold baudPrefix
  rfl

/-- the text of the array after both sprintf calls -/
theorem scanPrefix_text (baud : Int) (p : Char) :
    String.mk (baudPrefix baud ++ ("Parity:".toList ++ [p, ' ']))
      = "Baudrate:" ++ fmt_d baud ++ " " ++ "Parity:" ++ String.singleton p ++ " " := by
  unfold baudPrefix
  apply String.ext
  simp [String.data_append]

/-- the array after both sprintf calls holds at most 30 characters -/
theorem scanPrefix_length (baud : Int) (p : Char) (hmin : INT_MIN ≤ baud)
    (hmax : baud ≤ INT_MAX) :
    (baudPrefix baud ++ ("Parity:".toList ++ [p, ' '])).length ≤ 30 := by
  have h1 := fmt_d_length baud hmin hmax
  have h2 := baudPrefix_length baud
  simp only [List.length_append, List.length_cons, List.length_nil]
  have : "Parity:".toList.length = 7 := rfl
  omega

/-- C21: for the baud rates of a command line that are 32-bit ints, the text
"Baudrate:<baud> " that line 281 formats takes at most 21 characters, and the
sprintf of line 286, which writes at the offset strlen("Baudrate:<baud> ") of
an array that begins with that text, leaves "Baudrate:<baud> Parity:<P> " in
it, 9 characters more and at most 30 in all; so the text and its terminator
fit the 32 bytes of the array (at most 31 characters are allowed).  The array
holds at most 30 characters when the loops of the serial branch end, and
every line a run prints carries either no prefix or the text
"Baudrate:<baud> Parity:<P> " of one baud rate and one upper-cased parity of
the command line, of at most 30 characters.  The bound 30 is reached by the
baud value INT_MIN. -/
theorem scan_prefix_fits (a : Args) (hbaud : ∀ b ∈ a.baud, INT_MIN ≤ b ∧ b ≤ INT_MAX) :
    (∀ b ∈ a.baud, ∀ (p : Char) (prefixBuf : List Char),
      String.mk (baudPrefix b) = "Baudrate:" ++ fmt_d b ++ " " ∧
      (baudPrefix b).length ≤ 21 ∧
      (prefixBuf.take (baudPrefix b).length = baudPrefix b →
        String.mk (parityPrefix prefixBuf (baudPrefix b).length p)
          = "Baudrate:" ++ fmt_d b ++ " " ++ "Parity:" ++ String.singleton p ++ " " ∧
        (parityPrefix prefixBuf (baudPrefix b).length p).length = (baudPrefix b).length + 9 ∧
        (parityPrefix prefixBuf (baudPrefix b).length p).length ≤ 31 ∧
        (parityPrefix prefixBuf (baudPrefix b).length p).length + 1 ≤ 32)) ∧
    (∀ {σ : Type} (T : Modbus σ) (q : Request) (scanMode : Bool) (w : World σ),
      (baudLoop T a q scanMode 0 a.baud (w, q.data, [])).2.2.1.length + 1 ≤ 32) ∧
    (∀ {σ : Type} (T : Modbus σ) (u : Undef) (ctx : σ),
      ∀ x ∈ (main T u a ctx).1.out,
        x.scanPrefix.length ≤ 30 ∧
        (x.scanPrefix = "" ∨
          ∃ b ∈ a.baud, ∃ p ∈ a.parityVal,
            x.scanPrefix = "Baudrate:" ++ fmt_d b ++ " " ++ "Parity:" ++
              String.singleton p.toUpper ++ " ")) ∧
    (parityPrefix (baudPrefix INT_MIN) (baudPrefix INT_MIN).length 'E').length = 30 := by
  refine ⟨?_, ?_, ?_, ?_⟩
  · intro b hb p prefixBuf
    obtain ⟨hmin, hmax⟩ := hbaud b hb
    have h1 := fmt_d_length b hmin hmax
    have h2 := baudPrefix_length b
    refine ⟨baudPrefix_text b, by omega, fun hbuf => ?_⟩
    have h3 := parityPrefix_length b prefixBuf p hbuf
    refine ⟨?_, h3, by omega, by omega⟩
    rw [parityPrefix_eq b prefixBuf p hbuf]
    exact scanPrefix_text b p
  · intro σ T q scanMode w
    have h := (baudLoop_scanPrefix T a q scanMode (fun _ => True) trivial a.baud
      (fun _ _ _ _ => trivial) 0 (w, q.data, []) (fun _ => rfl) (fun _ _ => trivial)).2
    rcases h with h | ⟨b, hb, h | ⟨p, -, h⟩⟩
    · rw [h]; simp
    · obtain ⟨hmin, hmax⟩ := hbaud b hb
      have h1 := fmt_d_length b hmin hmax
      have h2 := baudPrefix_length b
      rw [h]; omega
    · obtain ⟨hmin, hmax⟩ := hbaud b hb
      have h1 := scanPrefix_length b p.toUpper hmin hmax
      rw [h]; omega
  · intro σ T u ctx
    refine main_scanPrefix T u a ctx
      (fun pre => pre.length ≤ 30 ∧
        (pre = "" ∨ ∃ b ∈ a.baud, ∃ p ∈ a.parityVal,
          pre = "Baudrate:" ++ fmt_d b ++ " " ++ "Parity:" ++
            String.singleton p.toUpper ++ " "))
      ⟨by decide, Or.inl rfl⟩ ?_
    intro b hb p hp
    obtain ⟨hmin, hmax⟩ := hbaud b hb
    exact ⟨scanPrefix_length b p.toUpper hmin hmax,
      Or.inr ⟨b, hb, p, hp, scanPrefix_text b p.toUpper⟩⟩
  · decide

theorem scan_prefix_fits_witness :
    (∀ b ∈ sweepScanArgs.baud, INT_MIN ≤ b ∧ b ≤ INT_MAX) ∧
    (∀ x ∈ (main demoTransport demoUndef sweepScanArgs 0).1.out, x.scanPrefix.length ≤ 30) ∧
    (main demoTransport demoUndef sweepScanArgs 0).1.out
      = [.address "Baudrate:9600 Parity:E " 3, .successRead 3, .hex04 1, .hex04 2, .hex04 3,
         .newline,
         .address "Baudrate:9600 Parity:N " 3, .successRead 3, .hex04 1, .hex04 2, .hex04 3,
         .newline,
         .address "Baudrate:19200 Parity:E " 3, .successRead 3, .hex04 1, .hex04 2, .hex04 3,
         .newline,
         .address "Baudrate:19200 Parity:N " 3, .successRead 3, .hex04 1, .hex04 2, .hex04 3,
         .newline] :=
  ⟨by decide,
   fun x hx => ((scan_prefix_fits sweepScanArgs (by decide)).2.2.1 demoTransport demoUndef 0
      x hx).1,
   by decide⟩

end Modbusc

namespace ModbusClient

/-! ## Theorems on modbus_client -/

theorem chooseDataType_eq (func : Int) :
    chooseDataType func = Modbusc.chooseDataType func := rfl

theorem allocData_eq (u : Modbusc.Undef) (ty : Modbusc.WriteDataType) (n : Int) :
    allocData u ty n = Modbusc.allocData u ty n := by
  cases ty <;> rfl

theorem client_say_data (g : Fill) (debug : Nat) (p : Printf) : (g.say debug p).data = g.data := by
  unfold Fill.say; split <;> rfl

theorem client_say_stores (g : Fill) (debug : Nat) (p : Printf) :
    (g.say debug p).stores = g.stores := by
  unfold Fill.say; split <;> rfl

/-- the two fill loops make the same assignments -/
theorem fillLoop_eq (debug verbose : Nat) (ty : Modbusc.WriteDataType) (ival : List Int)
    (n : Nat) :
    ∀ (i : Nat) (fc : Fill) (fs : Modbusc.Fill), fc.data = fs.data → fc.stores = fs.stores →
      (fillLoop debug ty ival n i fc).data = (Modbusc.fillLoop verbose ty ival n i fs).data ∧
      (fillLoop debug ty ival n i fc).stores
        = (Modbusc.fillLoop verbose ty ival n i fs).stores := by
  induction n with
  | zero => intro i fc fs hd hs; exact ⟨hd, hs⟩
  | succ n ih =>
    intro i fc fs hd hs
    cases ty with
    | DataInt =>
      simp [fillLoop, Modbusc.fillLoop, client_say_data, client_say_stores, Modbusc.say_data,
        Modbusc.say_stores, Modbusc.Fill.storeInt, hd, hs]
    | Data8Array =>
      simp only [fillLoop, Modbusc.fillLoop, Modbusc.fillStep8, Modbusc.fillStep16, if_true,
        reduceCtorEq, if_false]
      apply ih
      · simp [client_say_data, Modbusc.say_data, Modbusc.store8_data, hd]
      · simp [client_say_stores, Modbusc.say_stores, Modbusc.store8_stores, hs]
    | Data16Array =>
      simp only [fillLoop, Modbusc.fillLoop, Modbusc.fillStep8, Modbusc.fillStep16, if_true,
        reduceCtorEq, if_false]
      apply ih
      · simp [client_say_data, Modbusc.say_data, Modbusc.store16_data, hd]
      · simp [client_say_stores, Modbusc.say_stores, Modbusc.store16_stores, hs]

theorem fillData_eq (debug verbose : Nat) (ty : Modbusc.WriteDataType) (wr : Bool)
    (ival : List Int) (d : Modbusc.Data) :
    (fillData debug ty wr ival d).data = (Modbusc.fillData verbose ty wr ival d).data ∧
    (fillData debug ty wr ival d).stores = (Modbusc.fillData verbose ty wr ival d).stores := by
  unfold fillData Modbusc.fillData
  cases wr
  · simp
  · simp only [if_true, client_say_data, client_say_stores, Modbusc.say_data, Modbusc.say_stores]
    apply fillLoop_eq
    · simp [client_say_data, Modbusc.say_data]
    · simp [client_say_stores, Modbusc.say_stores]


/-- request preparation of the client when the function code is accepted -/
theorem client_prepare_eq (u : Modbusc.Undef) (a : Args) (ty : Modbusc.WriteDataType) (wr : Bool)
    (hc : chooseDataType a.func = some (ty, wr)) :
    prepare u a = .ok
      ({ wDataType := ty, isWriteFunction := wr, readWriteNo := readWriteNoOf a ty wr,
         data := (fillData a.debug ty wr a.dwrite (allocData u ty (readWriteNoOf a ty wr))).data },
       (fillData a.debug ty wr a.dwrite (allocData u ty (readWriteNoOf a ty wr))).stores,
       (fillData a.debug ty wr a.dwrite (allocData u ty (readWriteNoOf a ty wr))).out) := by
  unfold prepare
  rw [hc]

theorem client_successReport_any (wr : Bool) (nb : Int) (l : Local) :
    (successReport wr nb l).any Printf.isSuccess = true := by
  unfold successReport
  split <;> simp [Printf.isSuccess]

theorem isSuccess_error (r : Int) : Printf.isSuccess (.errorOccured r) = false := rfl

theorem isSuccess_notImplemented : Printf.isSuccess .notImplemented = false := rfl

theorem scan_isSuccess_error (r : Int) (m : String) :
    Modbusc.Printf.isSuccess (.errorOccured r m) = false := rfl

theorem scan_isSuccess_notImplemented :
    Modbusc.Printf.isSuccess .notImplemented = false := rfl

theorem successReport_exists (wr : Bool) (nb : Int) (l : Local) :
    ∃ x ∈ successReport wr nb l, x.isSuccess = true := by
  simpa using client_successReport_any wr nb l

theorem scan_successReport_exists (nb : Int) (l : Modbusc.Local) :
    ∃ x ∈ Modbusc.successReport nb l, x.isSuccess = true := by
  simpa using Modbusc.successReport_any nb l

/-- the request of the client and the single scan point of modbusc -/
theorem request_scan {σ : Type} (T : Modbusc.Modbus σ) (a : Args) (p : Setup)
    (verbose : Nat) (prefixScan : String) (n : Int) (wc : World σ) (ws : Modbusc.World σ)
    (hch : Modbusc.chooseDataType a.func = some (p.wDataType, p.isWriteFunction))
    (hctx : wc.ctx = (T.step ws.ctx (.modbus_set_slave n)).1) :
    (request T a p wc).1.calls
      = wc.calls ++ (Modbusc.transaction a.func a.reg p.readWriteNo p.data).toList ∧
    (Modbusc.process_request T verbose ws n n a.func a.reg p.readWriteNo p.wDataType p.data
        prefixScan).1.calls
      = ws.calls ++ .modbus_set_slave n ::
          (Modbusc.transaction a.func a.reg p.readWriteNo p.data).toList ∧
    (request T a p wc).2.data
      = (Modbusc.process_request T verbose ws n n a.func a.reg p.readWriteNo p.wDataType p.data
          prefixScan).2.data ∧
    (request T a p wc).2.ret
      = (Modbusc.process_request T verbose ws n n a.func a.reg p.readWriteNo p.wDataType p.data
          prefixScan).2.ret ∧
    ∃ newc news,
      (request T a p wc).1.out = wc.out ++ newc ∧
      (Modbusc.process_request T verbose ws n n a.func a.reg p.readWriteNo p.wDataType p.data
          prefixScan).1.out = ws.out ++ news ∧
      newc.any Printf.isSuccess = news.any Modbusc.Printf.isSuccess ∧
      (∀ c, Modbusc.transaction a.func a.reg p.readWriteNo p.data = some c →
        (newc.any Printf.isSuccess = true ↔ (T.step wc.ctx c).2.ret = p.readWriteNo)) := by
  obtain ⟨ty, wr, nb, data⟩ := p
  simp only at hch ⊢
  have hpr : Modbusc.process_request T verbose ws n n a.func a.reg nb ty data prefixScan
      = Modbusc.report T verbose false nb prefixScan n
          (Modbusc.dispatch T a.func a.reg nb
            ((Modbusc.invoke T ws (.modbus_set_slave n)).1,
             { ret := -1, isWriteFunction := false, dataType := ty, data := data })) := by
    have h1 : (n + 1 - n).toNat = 1 := by simp
    have h2 : decide (n ≠ n) = false := by simp
    unfold Modbusc.process_request
    rw [h1, h2]
    rfl
  have hrq : request T a ⟨ty, wr, nb, data⟩ wc
      = report wr nb (dispatch T a.func a.reg nb (wc, { ret := -1, wDataType := ty, data := data }))
      := rfl
  refine ⟨?_, ?_, ?_, ?_,
    (request T a ⟨ty, wr, nb, data⟩ wc).1.out.drop wc.out.length,
    (Modbusc.process_request T verbose ws n n a.func a.reg nb ty data
      prefixScan).1.out.drop ws.out.length, ?_, ?_, ?_, ?_⟩ <;>
    simp only [hpr, hrq] <;>
    rcases Modbusc.chooseDataType_cases hch with h | h | h | h | h | h | h | h <;>
    obtain ⟨hf, rfl, rfl⟩ := h <;>
    simp only [hf, dispatch, Modbusc.dispatch, Modbusc.transaction, Modbusc.ReadCoils,
      Modbusc.ReadDiscreteInput, Modbusc.ReadHoldingRegisters, Modbusc.ReadInputRegisters,
      Modbusc.WriteSingleCoil, Modbusc.WriteSingleRegister, Modbusc.WriteMultipleCoils,
      Modbusc.WriteMultipleRegisters, invoke, Modbusc.invoke, report, Modbusc.report, print,
      Modbusc.print, hctx] <;>
    norm_num <;>
    split_ifs with ht <;>
    simp [client_successReport_any, Modbusc.successReport_any, successReport_exists,
      scan_successReport_exists, isSuccess_error,
      isSuccess_notImplemented, scan_isSuccess_error, scan_isSuccess_notImplemented, ht]


/-- C19: for the same function code, start register, read count and write
values, modbus_client and modbusc (one address, no base-1 adjustment) choose
the same data type and direction, reject the same function codes, and for an
accepted code compute the same unit count and the same buffer with the same
assignments; on a transport in the same state they make the same read or
write call with the same arguments, leave the same buffer and the same `ret`,
and print a success report in the same cases: exactly when the value the
transport returns equals the unit count. -/
theorem client_scan_agree {σ : Type} (T : Modbusc.Modbus σ) (u : Modbusc.Undef) (ca : Args)
    (sa : Modbusc.Args) (n : Nat)
    (hfunc : sa.func = ca.func) (hreg : sa.reg = ca.reg) (hcount : sa.count = ca.count)
    (hdw : sa.dwrite = ca.dwrite) (haddr : sa.addr = .single n) (hbase : sa.base1 = false) :
    chooseDataType ca.func = Modbusc.chooseDataType sa.func ∧
    (chooseDataType ca.func = none →
      prepare u ca = .error [.noCorrectFunction] ∧
      Modbusc.prepare u sa = .error [.noCorrectFunction]) ∧
    (∀ ty wr, chooseDataType ca.func = some (ty, wr) →
      ∃ p q st outc outs,
        prepare u ca = .ok (p, st, outc) ∧ Modbusc.prepare u sa = .ok (q, st, outs) ∧
        p.wDataType = ty ∧ q.dataType = ty ∧ p.isWriteFunction = wr ∧
        q.nb = p.readWriteNo ∧ q.data = p.data ∧ q.func = ca.func ∧ q.reg = ca.reg ∧
        q.addrStart = n ∧ q.addrEnd = n ∧
        ∀ (verbose : Nat) (prefixScan : String) (wc : World σ) (ws : Modbusc.World σ),
          wc.ctx = (T.step ws.ctx (.modbus_set_slave n)).1 →
          (request T ca p wc).1.calls
            = wc.calls ++ (Modbusc.transaction ca.func ca.reg p.readWriteNo p.data).toList ∧
          (Modbusc.process_request T verbose ws q.addrStart q.addrEnd q.func q.reg q.nb
              q.dataType q.data prefixScan).1.calls
            = ws.calls ++ .modbus_set_slave n ::
                (Modbusc.transaction ca.func ca.reg p.readWriteNo p.data).toList ∧
          (request T ca p wc).2.data
            = (Modbusc.process_request T verbose ws q.addrStart q.addrEnd q.func q.reg q.nb
                q.dataType q.data prefixScan).2.data ∧
          (request T ca p wc).2.ret
            = (Modbusc.process_request T verbose ws q.addrStart q.addrEnd q.func q.reg q.nb
                q.dataType q.data prefixScan).2.ret ∧
          ∃ newc news,
            (request T ca p wc).1.out = wc.out ++ newc ∧
            (Modbusc.process_request T verbose ws q.addrStart q.addrEnd q.func q.reg q.nb
                q.dataType q.data prefixScan).1.out = ws.out ++ news ∧
            newc.any Printf.isSuccess = news.any Modbusc.Printf.isSuccess ∧
            (∀ c, Modbusc.transaction ca.func ca.reg p.readWriteNo p.data = some c →
              (newc.any Printf.isSuccess = true ↔
                (T.step wc.ctx c).2.ret = p.readWriteNo))) := by
  have hsa : ∀ start stop, sa.addr = .range start stop → start < stop := by
    intro s e h
    rw [haddr] at h
    cases h
  refine ⟨by rw [hfunc]; rfl, ?_, ?_⟩
  · intro hn
    constructor
    · unfold prepare
      rw [hn]
    · have hn' : Modbusc.chooseDataType sa.func = none := by rw [hfunc]; exact hn
      have hr : ¬ (Modbusc.addrScanOf sa.addr = true ∧
          Modbusc.addrStartOf sa.addr ≥ Modbusc.addrEndOf sa.addr) := by
        rw [haddr]; simp [Modbusc.addrScanOf]
      unfold Modbusc.prepare
      rw [if_neg hr, hn']
  · intro ty wr hc
    have hc' : Modbusc.chooseDataType sa.func = some (ty, wr) := by rw [hfunc]; exact hc
    have hnb : Modbusc.readWriteNoOf sa ty wr = readWriteNoOf ca ty wr := by
      simp [Modbusc.readWriteNoOf, readWriteNoOf, Modbusc.Args.countVal, hcount, hdw]
    have hfill := fillData_eq ca.debug sa.debug ty wr ca.dwrite
      (allocData u ty (readWriteNoOf ca ty wr))
    have hps := Modbusc.prepare_eq u sa ty wr hsa hc'
    rw [hnb, hdw, ← allocData_eq, ← hfill.1, ← hfill.2] at hps
    refine ⟨_, _, _, _, _, client_prepare_eq u ca ty wr hc, hps, rfl, rfl, rfl, rfl, rfl, hfunc, ?_,
      by simp [haddr, Modbusc.addrStartOf], by simp [haddr, Modbusc.addrEndOf], ?_⟩
    · simp [Modbusc.regOf, hbase, hreg]
    · intro verbose prefixScan wc ws hctx
      have hrs := request_scan T ca
        { wDataType := ty, isWriteFunction := wr, readWriteNo := readWriteNoOf ca ty wr,
          data := (fillData ca.debug ty wr ca.dwrite
            (allocData u ty (readWriteNoOf ca ty wr))).data }
        verbose prefixScan n wc ws hc hctx
      have hreg' : Modbusc.regOf sa = ca.reg := by simp [Modbusc.regOf, hbase, hreg]
      simp only [haddr, Modbusc.addrStartOf, Modbusc.addrEndOf, hfunc, hreg']
      exact hrs


/-- the request of the client for a function code with a transport operation -/
theorem request_transaction {σ : Type} (T : Modbusc.Modbus σ) (a : Args) (p : Setup)
    (w : World σ) (c : Modbusc.Call)
    (hc : Modbusc.transaction a.func a.reg p.readWriteNo p.data = some c) :
    (request T a p w).2.ret
      = (if (T.step w.ctx c).2.ret = p.readWriteNo then 0 else (T.step w.ctx c).2.ret) ∧
    (request T a p w).1.calls = w.calls ++ [c] ∧
    ((T.step w.ctx c).2.ret = p.readWriteNo →
      ∃ l, (request T a p w).1.out = w.out ++ successReport p.isWriteFunction p.readWriteNo l) ∧
    ((T.step w.ctx c).2.ret ≠ p.readWriteNo →
      (request T a p w).1.out = w.out ++ [.errorOccured (T.step w.ctx c).2.ret]) := by
  unfold request
  rcases Modbusc.transaction_cases hc with h | h | h | h | h | h | h <;>
    obtain ⟨hf, rfl⟩ := h <;>
    simp only [hf, dispatch, invoke, report, print] <;>
    norm_num <;>
    split_ifs with ht <;>
    simp [ht]

/-- C20 (counterexample): for `tcp -a 3 -r 0 -f 3 -c 3` on a transport that
returns 0 for the read, modbus_client prints the error line (0 is not the
unit count 3) and calls exit with 0. -/
theorem failure_exit_zero :
    (Modbusc.emptyTransport.step () (.modbus_read_registers 0 3 [0, 0, 0])).2.ret = 0 ∧
    (main Modbusc.emptyTransport Modbusc.demoUndef demoArgs ()).1.calls =
      [.modbus_new_tcp "127.0.0.1" 502, .modbus_set_debug false, .modbus_set_slave 3,
       .modbus_set_response_timeout 0 1000000, .modbus_connect,
       .modbus_read_registers 0 3 [0, 0, 0], .modbus_close, .modbus_free] ∧
    (main Modbusc.emptyTransport Modbusc.demoUndef demoArgs ()).1.out = [.errorOccured 0] ∧
    (main Modbusc.emptyTransport Modbusc.demoUndef demoArgs ()).2 = 0 ∧
    (main Modbusc.emptyTransport Modbusc.demoUndef demoArgs ()).2 % 256 = 0 := by
  decide


/-- C20 (as amended): modbus_client builds the request for each of the eight
function codes; when the connection fails main returns -1.  Otherwise, for a
function code with a transport operation whose call returns `ret`: when `ret`
is the unit count the success report is printed and exit is called with 0;
any other `ret` prints the error line and is itself passed to exit, so that
the status observed modulo 256 is non-zero exactly when `ret` is not a
multiple of 256 (255 for the error value -1). -/
theorem exit_status {σ : Type} (T : Modbusc.Modbus σ) (u : Modbusc.Undef) (a : Args) (ctx : σ)
    (hfunc : a.func = 0x01 ∨ a.func = 0x02 ∨ a.func = 0x03 ∨ a.func = 0x04 ∨ a.func = 0x05 ∨
             a.func = 0x06 ∨ a.func = 0x0F ∨ a.func = 0x10) :
    ∃ p st out, prepare u a = .ok (p, st, out) ∧
      ((connect T a (startWorld T a ctx out)).2.ret ≠ 0 → (main T u a ctx).2 = -1) ∧
      ((connect T a (startWorld T a ctx out)).2.ret = 0 →
        ∀ c, Modbusc.transaction a.func a.reg p.readWriteNo p.data = some c →
          ((T.step (connect T a (startWorld T a ctx out)).1.ctx c).2.ret = p.readWriteNo →
            (main T u a ctx).2 = 0 ∧
            ∃ l, (main T u a ctx).1.out
                  = out ++ successReport p.isWriteFunction p.readWriteNo l) ∧
          ((T.step (connect T a (startWorld T a ctx out)).1.ctx c).2.ret ≠ p.readWriteNo →
            (main T u a ctx).2 = (T.step (connect T a (startWorld T a ctx out)).1.ctx c).2.ret ∧
            (main T u a ctx).1.out
              = out ++ [.errorOccured
                  (T.step (connect T a (startWorld T a ctx out)).1.ctx c).2.ret] ∧
            ((main T u a ctx).2 % 256 ≠ 0 ↔
              (T.step (connect T a (startWorld T a ctx out)).1.ctx c).2.ret % 256 ≠ 0) ∧
            ((T.step (connect T a (startWorld T a ctx out)).1.ctx c).2.ret = -1 →
              (main T u a ctx).2 % 256 = 255))) := by
  obtain ⟨ty, wr, hc⟩ := Modbusc.chooseDataType_some hfunc
  obtain ⟨p, st, out, hp⟩ : ∃ p st out, prepare u a = .ok (p, st, out) :=
    ⟨_, _, _, client_prepare_eq u a ty wr hc⟩
  refine ⟨p, st, out, hp, ?_, ?_⟩
  · intro hfail
    unfold main
    simp only [hp]
    rw [if_pos hfail]
  · intro hok c hct
    have hout : (connect T a (startWorld T a ctx out)).1.out = out := by
      simp [connect, startWorld, invoke]
    obtain ⟨r1, -, r3, r4⟩ := request_transaction T a p
      (connect T a (startWorld T a ctx out)).1 c hct
    have hmain : (main T u a ctx).2
          = (request T a p (connect T a (startWorld T a ctx out)).1).2.ret ∧
        (main T u a ctx).1.out
          = (request T a p (connect T a (startWorld T a ctx out)).1).1.out := by
      unfold main
      simp only [hp]
      rw [if_neg (by simp [hok])]
      simp [invoke]
    rw [hmain.1, hmain.2, r1]
    constructor
    · intro ht
      obtain ⟨l, hl⟩ := r3 ht
      rw [if_pos ht, hl, hout]
      exact ⟨rfl, l, rfl⟩
    · intro ht
      rw [if_neg ht, r4 ht, hout]
      refine ⟨rfl, rfl, Iff.rfl, ?_⟩
      intro h1
      rw [h1]
      rfl

theorem client_scan_agree_witness :
    Modbusc.demoArgs.func = demoArgs.func ∧ Modbusc.demoArgs.reg = demoArgs.reg ∧
    Modbusc.demoArgs.count = demoArgs.count ∧ Modbusc.demoArgs.dwrite = demoArgs.dwrite ∧
    Modbusc.demoArgs.addr = .single 3 ∧ Modbusc.demoArgs.base1 = false ∧
    chooseDataType demoArgs.func = Modbusc.chooseDataType Modbusc.demoArgs.func :=
  ⟨rfl, rfl, rfl, rfl, rfl, rfl,
   (client_scan_agree Modbusc.demoTransport Modbusc.demoUndef demoArgs Modbusc.demoArgs 3
      rfl rfl rfl rfl rfl rfl).1⟩

theorem exit_status_witness :
    demoArgs.func = 0x03 ∧
    ∃ p st out, prepare Modbusc.demoUndef demoArgs = .ok (p, st, out) :=
  ⟨rfl,
   (exit_status Modbusc.demoTransport Modbusc.demoUndef demoArgs 0 (by decide)).elim
     (fun p h => h.elim (fun st h => h.elim (fun out h => ⟨p, st, out, h.1⟩)))⟩

end ModbusClient
